import Mathlib

/-!
# Eris-Linux API servers: command dispatch, frame decoding and GPIO manager

A shallow embedding of the TCP API server (`eris-api-server/api-server.c`,
`eris-api-server/gpio-api.c`) and of the REST API server
(`eris-rest-api/gpio-rest-api.c`), followed by theorems about them.

Conventions of the embedding.

* A C string or byte buffer is a `List Nat` of byte values.  A `char *` handed
  to a libc string function is read up to its first NUL byte (or up to the end
  of the list, which stands for the terminating NUL).
* Global tables (`Api_commands`, `Eris_gpios`) are passed explicitly and the
  new table is returned.
* What a function sends on the socket is returned as the list of the
  `send_reply` / `send_error` / `write` calls it makes, in order.
* Results of libgpiod calls are supplied by an oracle record, and the calls
  made on chips and line requests are returned as a trace.
* Where the source goes on after handing a NULL pointer to libgpiod, which
  the library does not define, the run of the function ends at that call.
-/

namespace Eris

/-! ## Bytes and the libc functions used by the servers -/

/-- A byte string: the contents of a `char` array. -/
abbrev Bytes := List Nat

/-- The bytes of a string literal of the source (ASCII). -/
def lit (s : String) : Bytes := s.toList.map Char.toNat

/-- C locale `isspace`: space, and the controls from tab to carriage return. -/
def isspace (c : Nat) : Bool := c == 32 || (9 ≤ c && c ≤ 13)

/-- C locale `isdigit`. -/
def isdigit (c : Nat) : Bool := 48 ≤ c && c ≤ 57

/-- C locale `tolower`: only `A`..`Z` are changed. -/
def tolower (c : Nat) : Nat := if 65 ≤ c ∧ c ≤ 90 then c + 32 else c

/-- The C string stored at the start of a byte array: the bytes before the first NUL. -/
def cstr (s : Bytes) : Bytes := s.takeWhile (fun c => c != 0)

/-- Length of a C string, as `strlen` computes it. -/
def strlen (s : Bytes) : Nat := (cstr s).length

/-- Model of `strcmp`: the difference of the first pair of differing bytes, 0 when the
two C strings are equal.  The end of a list stands for the terminating NUL. -/
def strcmp : Bytes → Bytes → Int
  | [], [] => 0
  | [], b :: _ => - (b : Int)
  | a :: _, [] => (a : Int)
  | a :: as, b :: bs =>
    if a ≠ b then (a : Int) - (b : Int)
    else if a = 0 then 0
    else strcmp as bs

/-- Model of `strcasecmp` in the C locale: `strcmp` on the lower-cased bytes. -/
def strcasecmp : Bytes → Bytes → Int
  | [], [] => 0
  | [], b :: _ => - (tolower b : Int)
  | a :: _, [] => (tolower a : Int)
  | a :: as, b :: bs =>
    if tolower a ≠ tolower b then (tolower a : Int) - (tolower b : Int)
    else if a = 0 then 0
    else strcasecmp as bs

/-- Model of `strncasecmp`: as `strcasecmp`, looking at no more than `n` bytes. -/
def strncasecmp : Bytes → Bytes → Nat → Int
  | _, _, 0 => 0
  | [], [], _ + 1 => 0
  | [], b :: _, _ + 1 => - (tolower b : Int)
  | a :: _, [], _ + 1 => (tolower a : Int)
  | a :: as, b :: bs, n + 1 =>
    if tolower a ≠ tolower b then (tolower a : Int) - (tolower b : Int)
    else if a = 0 then 0
    else strncasecmp as bs n

/-- Value of a run of decimal digits, most significant first, continuing from `acc`. -/
def digits_value (acc : Nat) : Bytes → Nat
  | [] => acc
  | d :: ds => digits_value (acc * 10 + (d - 48)) ds

/-- Conversion of a C `long` (64 bits) to `int` (32 bits): the low 32 bits, signed. -/
def to_int32 (z : Int) : Int := (z + 2147483648) % 4294967296 - 2147483648

/-- Range clamp of `strtol` on a 64-bit `long`. -/
def clamp_long (z : Int) : Int :=
  if z > 9223372036854775807 then 9223372036854775807
  else if z < -9223372036854775808 then -9223372036854775808
  else z

/-- Model of `sscanf(s, "%d%n", &value, &nb)` (glibc, 64-bit `long`): white space is
skipped, then an optional sign and a non-empty run of decimal digits are read, the
number is converted as `strtol` does and stored as an `int`.  `some (value, nb)` when
the conversion succeeds (return value 1), `nb` being the number of bytes consumed;
`none` when it fails (return value 0 or `EOF`). -/
def sscanf_d (s : Bytes) : Option (Int × Nat) :=
  let ws := (s.takeWhile isspace).length
  let s1 := s.drop ws
  let sign : Nat := match s1 with
    | 45 :: _ => 1
    | 43 :: _ => 1
    | _ => 0
  let neg : Bool := match s1 with
    | 45 :: _ => true
    | _ => false
  let ds := (s1.drop sign).takeWhile isdigit
  if ds.length = 0 then none
  else
    let mag : Int := (digits_value 0 ds : Int)
    some (to_int32 (clamp_long (if neg then - mag else mag)), ws + sign + ds.length)

/-! ## Error numbers (Linux `errno.h`) -/

def EIO : Int := 5
def ENOMEM : Int := 12
def EBUSY : Int := 16
def ENODEV : Int := 19
def EINVAL : Int := 22
def ENOSYS : Int := 38
def EPROTO : Int := 71

/-! ## What the TCP server sends: `api-server.c` -/

/-- One call writing to the client socket: `send_reply(sock, length, data)`,
`send_error(sock, code, label)`, or a bare `write(sock, bytes, n)`. -/
inductive Sent where
  | reply (length : Nat) (data : Bytes)
  | error (code : Int) (label : Bytes)
  | raw (bytes : Bytes)
  deriving DecidableEq, Repr

/-- Whether a socket write is a protocol frame (made by `send_reply` or `send_error`). -/
def Sent.is_frame : Sent → Bool
  | .reply _ _ => true
  | .error _ _ => true
  | .raw _ => false

/-! ## Command registry and dispatch: `api-server.c` -/

/-- Row of `Api_commands` (`api_command_t`); `none` stands for a NULL pointer.  `H` is
the type of handler functions. -/
structure api_command_t (H : Type) where
  command : Option Bytes
  abbreviation : Option Bytes
  help : Option Bytes
  function : Option H
  deriving DecidableEq, Repr

/-- The table after `register_api_command(command, abbreviation, help, function)`
when its allocations succeed: the new row is appended. -/
def register_api_command {H : Type} (cmds : List (api_command_t H)) (command : Bytes)
    (abbreviation help : Option Bytes) (function : Option H) : List (api_command_t H) :=
  cmds ++ [{ command := some (cstr command), abbreviation := abbreviation.map cstr,
             help := help.map cstr, function := function }]

/-- What `call_command` does: either it calls one handler with the arguments, or it
sends one error. -/
inductive Dispatch (H : Type) where
  | call (function : H) (argv : List Bytes)
  | send_error (code : Int) (label : Bytes)
  deriving DecidableEq, Repr

/-- The loop of `call_command`: rows are tried in order; a row without handler is
skipped; the first row whose name, or else whose abbreviation, compares equal with
`strcasecmp` has its handler called; after the last row the error is sent. -/
def call_command {H : Type} (cmds : List (api_command_t H)) (command : Bytes)
    (argv : List Bytes) : Dispatch H :=
  match cmds with
  | [] => .send_error ENOSYS (lit "Unknown command.")
  | c :: rest =>
    match c.function with
    | none => call_command rest command argv
    | some f =>
      if (match c.command with
          | some n => decide (strcasecmp command n = 0)
          | none => false) then .call f argv
      else if (match c.abbreviation with
          | some a => decide (strcasecmp command a = 0)
          | none => false) then .call f argv
      else call_command rest command argv

/-- Spec wording: two names are equal when case is ignored, that is, their C strings
agree byte for byte once `A`..`Z` are lowered. -/
def eq_ignoring_case (a b : Bytes) : Prop :=
  (cstr a).map tolower = (cstr b).map tolower

/-- Spec wording: a registry entry matches a command string when its handler is
non-null and its full name or its abbreviation equals the string ignoring case. -/
def entry_matches {H : Type} (c : Bytes) (e : api_command_t H) : Prop :=
  e.function ≠ none ∧
    ((∃ n, e.command = some n ∧ eq_ignoring_case c n) ∨
     (∃ a, e.abbreviation = some a ∧ eq_ignoring_case c a))

/-! ## Growable string buffer: `addsnprintf` -/

/-- The three variables an `addsnprintf` caller keeps: `*string` (`none` for NULL,
otherwise the contents of the allocated array), `*size` and `*pos`. -/
structure strbuf where
  string : Option Bytes
  size : Nat
  pos : Nat
  deriving DecidableEq, Repr

/-- Result of `realloc(old, n)` when it succeeds: the old contents, cut or padded to
`n` bytes (padding bytes are indeterminate in C and are zero here). -/
def realloc_bytes (old : Bytes) (n : Nat) : Bytes := (old ++ List.replicate n 0).take n

/-- Store `t` into array `s` from index `pos` on. -/
def store (s : Bytes) (pos : Nat) (t : Bytes) : Bytes :=
  s.take pos ++ t ++ s.drop (pos + t.length)

/-- Model of `snprintf(buf, size, format, ...)` and of `vsnprintf`, `text` being the
bytes the format produces: the bytes stored in `buf` (nothing when `size` is 0,
otherwise the text cut to `size - 1` bytes, then NUL) and the value returned (the
length of the whole text). -/
def snprintf (size : Nat) (text : Bytes) : Bytes × Nat :=
  (if size = 0 then [] else text.take (size - 1) ++ [0], text.length)

/-- Model of `addsnprintf(&string, &size, &pos, format, ...)`, `text` being the bytes
the format produces and `realloc_ok` telling whether `realloc`, if called, succeeds.
Returns the `int` result and the new values of the three variables.  The second
`vsnprintf` is called with the bound `*size`; its result is added to `*pos` and a NUL
is stored at the new `*pos`.  (`vsnprintf` itself is taken not to fail.) -/
def addsnprintf (b : strbuf) (text : Bytes) (realloc_ok : Bool) : Int × strbuf :=
  let length := text.length
  if length + b.pos ≥ b.size ∧ realloc_ok = false then (-1, b)
  else
    let b1 : strbuf :=
      if length + b.pos ≥ b.size then
        { string := some (realloc_bytes (b.string.getD []) (length + b.pos + 1)),
          size := length + b.pos + 1, pos := b.pos }
      else b
    let written := snprintf b1.size text
    let pos1 := b1.pos + written.2
    (0, { string := some (store (store (b1.string.getD []) b1.pos written.1) pos1 [0]),
          size := b1.size, pos := pos1 })

/-- The copy of `addsnprintf` in `addsnprintf.c` of the REST server. -/
def rest_addsnprintf (b : strbuf) (text : Bytes) (realloc_ok : Bool) : Int × strbuf :=
  let length := text.length
  if length + b.pos ≥ b.size ∧ realloc_ok = false then (-1, b)
  else
    let b1 : strbuf :=
      if length + b.pos ≥ b.size then
        { string := some (realloc_bytes (b.string.getD []) (length + b.pos + 1)),
          size := length + b.pos + 1, pos := b.pos }
      else b
    let written := snprintf b1.size text
    let pos1 := b1.pos + written.2
    (0, { string := some (store (store (b1.string.getD []) b1.pos written.1) pos1 [0]),
          size := b1.size, pos := pos1 })

/-- Decimal digits of a natural number, most significant first; `fuel` bounds the
number of digits. -/
def nat_digits : Nat → Nat → Bytes → Bytes
  | 0, _, acc => acc
  | fuel + 1, n, acc =>
    if n < 10 then (48 + n) :: acc
    else nat_digits fuel (n / 10) ((48 + n % 10) :: acc)

/-- Text produced by the `printf` conversion `%d`. -/
def fmt_d (z : Int) : Bytes :=
  if z < 0 then 45 :: nat_digits (z.natAbs + 1) z.natAbs []
  else nat_digits (z.natAbs + 1) z.natAbs []

/-! ## GPIO table and libgpiod: `gpio-api.c`, `gpio-rest-api.c` -/

/-- Row of `Eris_gpios` (`struct eris_api_gpio`).  `chip` identifies the open chip,
`request` is the libgpiod request handle (`none` for NULL), and `output` is the
direction flag: -1 after discovery, 0 for input, 1 for output. -/
structure eris_api_gpio where
  name : Bytes
  offset : Nat
  chip : Nat
  request : Option Nat
  output : Int
  deriving DecidableEq, Repr

/-- Direction in a `gpiod_line_settings` (`GPIOD_LINE_DIRECTION_*`). -/
inductive line_direction where
  | as_is
  | input
  | output
  deriving DecidableEq, Repr

/-- Edge detection in a `gpiod_line_settings` (`GPIOD_LINE_EDGE_*`). -/
inductive line_edge where
  | none
  | rising
  | falling
  | both
  deriving DecidableEq, Repr

/-- Type of an edge event (`GPIOD_EDGE_EVENT_RISING_EDGE`, `..._FALLING_EDGE`). -/
inductive edge_event_type where
  | rising_edge
  | falling_edge
  deriving DecidableEq, Repr

/-- The fields of a `gpiod_line_settings` object that the servers set. -/
structure line_settings where
  direction : line_direction
  edge_detection : line_edge
  output_value : Int
  deriving DecidableEq, Repr

/-- Content of a new settings object (`gpiod_line_settings_new`). -/
def line_settings_new : line_settings :=
  { direction := .as_is, edge_detection := .none, output_value := 0 }

/-- Result of a libgpiod call that may fail: success, or failure with the value it
leaves in `errno`. -/
inductive gpiod_result where
  | ok
  | fail (errno : Int)
  deriving DecidableEq, Repr

/-- One round of the edge-wait loop as the kernel answers it: the value returned by
`gpiod_line_request_wait_edge_events`, the events returned by
`gpiod_line_request_read_edge_events` (`none` when it returns a negative value), and
the `errno` left by a failing call. -/
structure edge_step where
  wait : Int
  read : Option (List edge_event_type)
  errno : Int
  deriving DecidableEq, Repr

/-- Outcomes of the libgpiod calls made while one request is served. -/
structure Gpiod where
  settings_new : gpiod_result
  config_new : gpiod_result
  add_line_settings : gpiod_result
  request_config_new : gpiod_result
  chip_request_lines : Option Nat
  get_value : Int
  line_info_direction : Option line_direction
  edge_steps : List edge_step
  deriving DecidableEq, Repr

/-- A libgpiod call made on a chip or on a line request; `chip_request_lines` is
recorded with the handle it returned (`none` for NULL). -/
inductive KCall where
  | chip_get_line_info (chip offset : Nat)
  | chip_request_lines (chip offset : Nat) (settings : line_settings) (result : Option Nat)
  | line_request_release (request : Nat)
  | line_request_get_value (request offset : Nat)
  | line_request_set_value (request offset : Nat) (value : Int)
  | line_request_wait_edge_events (request : Nat)
  | line_request_read_edge_events (request : Nat)
  deriving DecidableEq, Repr

/-- The loop `for (num = 0; num < Gpio_count; num ++) if (cmp(name, ...name) == 0) break;`:
the index of the first row whose name compares equal, the number of rows if none. -/
def find_gpio (cmp : Bytes → Bytes → Int) (name : Bytes) : List eris_api_gpio → Nat
  | [] => 0
  | g :: rest => if cmp name g.name = 0 then 0 else find_gpio cmp name rest + 1

/-- What a handler of the TCP server did: the table it leaves, what it sent, the
libgpiod calls it made, and whether it returned to the loop of
`communicate_with_client` (`false`: it is blocked in the kernel for ever, or its run
ended inside the handler at a call whose behaviour is not defined, so that the
process serves nothing more). -/
structure Outcome where
  gpios : List eris_api_gpio
  sent : List Sent
  calls : List KCall
  returned : Bool
  deriving DecidableEq, Repr

/-- A handler path that only does `send_error(sock, code, label); return;`. -/
def Outcome.error (gpios : List eris_api_gpio) (code : Int) (label : String) : Outcome :=
  { gpios := gpios, sent := [.error code (lit label)], calls := [], returned := true }

/-- A handler path that ends in `send_reply(sock, length, data)` after `calls`. -/
def Outcome.reply (gpios : List eris_api_gpio) (calls : List KCall) (length : Nat)
    (data : Bytes) : Outcome :=
  { gpios := gpios, sent := [.reply length data], calls := calls, returned := true }

/-! ## TCP handlers: `gpio-api.c` -/

/-- The loop of `list_gpio_names`: a space is added before a name once `pos` is not
0, then the name.  Allocation is taken to succeed. -/
def list_gpio_names_loop (b : strbuf) : List eris_api_gpio → strbuf
  | [] => b
  | g :: rest =>
    let b1 := if b.pos ≠ 0 then (addsnprintf b (lit " ") true).2 else b
    list_gpio_names_loop (addsnprintf b1 (cstr g.name) true).2 rest

/-- Handler `list_gpio_names` of the TCP server. -/
def list_gpio_names (gpios : List eris_api_gpio) (argv : List Bytes) : Outcome :=
  if argv.length > 0 then
    .error gpios EINVAL "list-gpio-names doesn't take any argument."
  else
    match (list_gpio_names_loop { string := none, size := 0, pos := 0 } gpios).string with
    | none => .error gpios ENODEV "No GPIO available."
    | some reply => .reply gpios [] (strlen reply) reply

/-- Handler `get_gpio_direction` of the TCP server. -/
def get_gpio_direction (k : Gpiod) (gpios : List eris_api_gpio) (argv : List Bytes) : Outcome :=
  match argv with
  | [] => .error gpios EINVAL "get-gpio-direction command needs an argument."
  | _ :: _ :: _ => .error gpios EINVAL "get-gpio-direction takes only one argument."
  | [name] =>
    let num := find_gpio strcmp name gpios
    match gpios[num]? with
    | none => .error gpios ENODEV "The GPIO name does not exist."
    | some g =>
      match k.line_info_direction with
      | none =>
        { gpios := gpios, sent := [.error EBUSY (lit "The GPIO line does not exists.")],
          calls := [.chip_get_line_info g.chip g.offset], returned := true }
      | some d =>
        if d = .input then .reply gpios [.chip_get_line_info g.chip g.offset] 5 (lit "Input")
        else .reply gpios [.chip_get_line_info g.chip g.offset] 6 (lit "Output")

/-- Settings built by `request_gpio_for_input`: direction input, both edges. -/
def input_settings : line_settings :=
  { line_settings_new with direction := .input, edge_detection := .both }

/-- Settings built by `request_gpio_for_output` for `value`. -/
def output_settings (value : Int) : line_settings :=
  { line_settings_new with direction := .output, output_value := value }

/-- Handler `request_gpio_for_input` of the TCP server.  When
`gpiod_request_config_new` returns NULL the source sends the error, frees `config` and
`settings` and does not return: the next statement passes the NULL pointer to
`gpiod_request_config_set_consumer`, and the ones after it would use and free again the
objects just freed.  None of this is defined behaviour, and the run of the handler ends
there: the error has been sent, the table has not been written, no line has been
requested, and the handler does not return. -/
def request_gpio_for_input (k : Gpiod) (gpios : List eris_api_gpio) (argv : List Bytes) :
    Outcome :=
  match argv with
  | [] => .error gpios EINVAL "request-gpio-for-input command needs an argument."
  | _ :: _ :: _ => .error gpios EINVAL "request-gpio-for-input takes only one argument."
  | [name] =>
    let num := find_gpio strcmp name gpios
    match gpios[num]? with
    | none => .error gpios ENODEV "The GPIO name does not exist."
    | some g =>
      if g.request ≠ none then .error gpios EBUSY "The GPIO line is already reserved."
      else
        match k.settings_new with
        | .fail _ => .error gpios ENOMEM "Memory allocation error."
        | .ok =>
          match k.config_new with
          | .fail _ => .error gpios ENOMEM "Memory allocation error."
          | .ok =>
            match k.add_line_settings with
            | .fail e => { gpios := gpios,
                           sent := [.error e (lit "Unable to obtain this GPIO line.")],
                           calls := [], returned := true }
            | .ok =>
              match k.request_config_new with
              | .fail e => { gpios := gpios,
                             sent := [.error e (lit "Memory allocation error.")],
                             calls := [], returned := false }
              | .ok =>
                { gpios := gpios.set num { g with request := k.chip_request_lines, output := 0 },
                  sent := [.reply 2 (lit "Ok")],
                  calls := [.chip_request_lines g.chip g.offset input_settings
                             k.chip_request_lines],
                  returned := true }

/-- The test `(sscanf(s, "%d", &value) != 1) || (value < 0) || (value > 1)` of the
TCP server: `none` when it holds (the value is refused), else the value. -/
def scan_bit (s : Bytes) : Option Int :=
  match sscanf_d (cstr s) with
  | none => none
  | some (value, _) => if value < 0 ∨ value > 1 then none else some value

/-- Handler `request_gpio_for_output` of the TCP server (see `request_gpio_for_input`
for the path where `gpiod_request_config_new` fails). -/
def request_gpio_for_output (k : Gpiod) (gpios : List eris_api_gpio) (argv : List Bytes) :
    Outcome :=
  match argv with
  | [] => .error gpios EINVAL "request-gpio-for-output command needs two arguments."
  | [_] => .error gpios EINVAL "request-gpio-for-output command needs two arguments."
  | _ :: _ :: _ :: _ => .error gpios EINVAL "request-gpio-for-output takes only two arguments."
  | [name, arg1] =>
    let num := find_gpio strcmp name gpios
    match gpios[num]? with
    | none => .error gpios ENODEV "The GPIO name does not exist."
    | some g =>
      if g.request ≠ none then .error gpios EBUSY "The GPIO line is already reserved."
      else
        match scan_bit arg1 with
        | none => .error gpios EINVAL "The value is invalid."
        | some value =>
          match k.settings_new with
          | .fail e => { gpios := gpios, sent := [.error e (lit "Memory allocation error.")],
                         calls := [], returned := true }
          | .ok =>
            match k.config_new with
            | .fail e => { gpios := gpios, sent := [.error e (lit "Memory allocation error.")],
                           calls := [], returned := true }
            | .ok =>
              match k.add_line_settings with
              | .fail e => { gpios := gpios,
                             sent := [.error e (lit "Unable to obtain this GPIO line.")],
                             calls := [], returned := true }
              | .ok =>
                match k.request_config_new with
                | .fail e => { gpios := gpios,
                               sent := [.error e (lit "Memory allocation error.")],
                               calls := [], returned := false }
                | .ok =>
                  { gpios := gpios.set num
                      { g with request := k.chip_request_lines, output := 1 },
                    sent := [.reply 2 (lit "Ok")],
                    calls := [.chip_request_lines g.chip g.offset (output_settings value)
                               k.chip_request_lines],
                    returned := true }

/-- Handler `release_gpio` of the TCP server. -/
def release_gpio (gpios : List eris_api_gpio) (argv : List Bytes) : Outcome :=
  match argv with
  | [] => .error gpios EINVAL "release-gpio needs an argument."
  | _ :: _ :: _ => .error gpios EINVAL "release-gpio takes only one argument."
  | [name] =>
    let num := find_gpio strcmp name gpios
    match gpios[num]? with
    | none => .error gpios ENODEV "The GPIO name does not exist."
    | some g =>
      match g.request with
      | none => .error gpios ENODEV "The GPIO line is already free."
      | some r =>
        .reply (gpios.set num { g with request := none }) [.line_request_release r] 2 (lit "Ok")

/-- Handler `read_gpio_value` of the TCP server. -/
def read_gpio_value (k : Gpiod) (gpios : List eris_api_gpio) (argv : List Bytes) : Outcome :=
  match argv with
  | [] => .error gpios EINVAL "read-gpio-value needs an argument."
  | _ :: _ :: _ => .error gpios EINVAL "read-gpio-value takes only one argument."
  | [name] =>
    let num := find_gpio strcmp name gpios
    match gpios[num]? with
    | none => .error gpios ENODEV "The GPIO name does not exist."
    | some g =>
      match g.request with
      | none => .error gpios ENODEV "This GPIO line is not reserved."
      | some r =>
        if g.output ≠ 0 then .error gpios EIO "This GPIO line is not readable."
        else
          let reply := ((addsnprintf { string := none, size := 0, pos := 0 }
                          (fmt_d k.get_value) true).2.string).getD []
          .reply gpios [.line_request_get_value r g.offset] (strlen reply) reply

/-- Handler `write_gpio_value` of the TCP server. -/
def write_gpio_value (gpios : List eris_api_gpio) (argv : List Bytes) : Outcome :=
  match argv with
  | [] => .error gpios EINVAL "write-gpio-value needs two arguments."
  | [_] => .error gpios EINVAL "write-gpio-value needs two arguments."
  | _ :: _ :: _ :: _ => .error gpios EINVAL "write-gpio-value takes only two arguments."
  | [name, arg1] =>
    let num := find_gpio strcmp name gpios
    match gpios[num]? with
    | none => .error gpios ENODEV "The GPIO name does not exist."
    | some g =>
      match g.request with
      | none => .error gpios ENODEV "This GPIO line is not reserved."
      | some r =>
        if g.output ≠ 1 then .error gpios EIO "This GPIO line is not writable."
        else
          match scan_bit arg1 with
          | none => .error gpios EINVAL "The value is invalid."
          | some value => .reply gpios [.line_request_set_value r g.offset value] 2 (lit "Ok")

/-- The `for (;;)` loop of `wait_gpio_edge` (TCP server) on request `r`, run against
the successive answers of the kernel.  Returns what is sent, the calls made, and
whether the loop ends; when the answers run out the handler stays blocked in
`gpiod_line_request_wait_edge_events`. -/
def wait_edge_loop (evtype : edge_event_type) (r : Nat) :
    List edge_step → List Sent × List KCall × Bool
  | [] => ([], [.line_request_wait_edge_events r], false)
  | s :: rest =>
    if s.wait = 0 then ([], [.line_request_wait_edge_events r], true)
    else if s.wait < 0 then
      ([.error s.errno (lit "Unable to wait events on this GPIO line.")],
       [.line_request_wait_edge_events r], true)
    else
      match s.read with
      | none =>
        ([.error s.errno (lit "Unable to read events on this GPIO line.")],
         [.line_request_wait_edge_events r, .line_request_read_edge_events r], true)
      | some events =>
        if events.length = 0 then
          ([.reply 7 (lit "Timeout")],
           [.line_request_wait_edge_events r, .line_request_read_edge_events r], true)
        else if events.any (fun e => decide (e = evtype)) then
          ([.reply 2 (lit "Ok")],
           [.line_request_wait_edge_events r, .line_request_read_edge_events r], true)
        else
          let next := wait_edge_loop evtype r rest
          (next.1,
           .line_request_wait_edge_events r :: .line_request_read_edge_events r :: next.2.1,
           next.2.2)

/-- Handler `wait_gpio_edge` of the TCP server. -/
def wait_gpio_edge (k : Gpiod) (gpios : List eris_api_gpio) (argv : List Bytes) : Outcome :=
  match argv with
  | [] => .error gpios EINVAL "wait-gpio-edge needs two argument."
  | [_] => .error gpios EINVAL "wait-gpio-edge needs two argument."
  | _ :: _ :: _ :: _ => .error gpios EINVAL "wait-gpio-edge takes only two arguments."
  | [name, arg1] =>
    let num := find_gpio strcmp name gpios
    match gpios[num]? with
    | none => .error gpios ENODEV "The GPIO name does not exist."
    | some g =>
      match g.request with
      | none => .error gpios ENODEV "This GPIO line is not reserved."
      | some r =>
        if g.output ≠ 0 then .error gpios EIO "This GPIO line is not readable."
        else if strncasecmp arg1 (lit "ris") 3 = 0 then
          let w := wait_edge_loop .rising_edge r k.edge_steps
          { gpios := gpios, sent := w.1, calls := w.2.1, returned := w.2.2 }
        else if strncasecmp arg1 (lit "fal") 3 = 0 then
          let w := wait_edge_loop .falling_edge r k.edge_steps
          { gpios := gpios, sent := w.1, calls := w.2.1, returned := w.2.2 }
        else .error gpios EINVAL "This event type is invalid."

/-- Handler `get_test_input_gpio` of the TCP server (the name is put in at build time). -/
def get_test_input_gpio (gpios : List eris_api_gpio) : Outcome :=
  .reply gpios [] (strlen (lit "@TEST_INPUT_GPIO@")) (lit "@TEST_INPUT_GPIO@")

/-- Handler `get_test_output_gpio` of the TCP server (the name is put in at build time). -/
def get_test_output_gpio (gpios : List eris_api_gpio) : Outcome :=
  .reply gpios [] (strlen (lit "@TEST_OUTPUT_GPIO@")) (lit "@TEST_OUTPUT_GPIO@")

/-- The handler functions of `api-server.c` and `gpio-api.c`. -/
inductive Handler where
  | help_command
  | list_gpio_names
  | get_gpio_direction
  | request_gpio_for_input
  | request_gpio_for_output
  | release_gpio
  | read_gpio_value
  | write_gpio_value
  | wait_gpio_edge
  | get_test_input_gpio
  | get_test_output_gpio
  deriving DecidableEq, Repr

/-- The `write` calls of `help_command` for one row of the table. -/
def help_row (c : api_command_t Handler) : List Sent :=
  match c.help with
  | none => []
  | some help =>
    (match c.command with
     | some n => [Sent.raw n, Sent.raw (lit " ")]
     | none => []) ++
    (match c.abbreviation with
     | some a => [Sent.raw (lit "("), Sent.raw a, Sent.raw (lit ") ")]
     | none => []) ++
    [Sent.raw (lit "- "), Sent.raw help, Sent.raw (lit "\n")]

/-- Handler `help_command`: bare `write` calls, one group for each row with a help text. -/
def help_command (cmds : List (api_command_t Handler)) (gpios : List eris_api_gpio) : Outcome :=
  { gpios := gpios, sent := (cmds.map help_row).flatten, calls := [], returned := true }

/-- Call of a handler function `function(sock, argc, argv)`. -/
def run_handler (cmds : List (api_command_t Handler)) (k : Gpiod) (gpios : List eris_api_gpio)
    (f : Handler) (argv : List Bytes) : Outcome :=
  match f with
  | .help_command => help_command cmds gpios
  | .list_gpio_names => list_gpio_names gpios argv
  | .get_gpio_direction => get_gpio_direction k gpios argv
  | .request_gpio_for_input => request_gpio_for_input k gpios argv
  | .request_gpio_for_output => request_gpio_for_output k gpios argv
  | .release_gpio => release_gpio gpios argv
  | .read_gpio_value => read_gpio_value k gpios argv
  | .write_gpio_value => write_gpio_value gpios argv
  | .wait_gpio_edge => wait_gpio_edge k gpios argv
  | .get_test_input_gpio => get_test_input_gpio gpios
  | .get_test_output_gpio => get_test_output_gpio gpios

/-- The table built by `main` and `init_gpio_api` (the commands of the other modules,
registered after these, are left out). -/
def Api_commands : List (api_command_t Handler) :=
  let r0 := register_api_command [] (lit "help") (some (lit "?")) none (some .help_command)
  let r1 := register_api_command r0 (lit "list-gpio-names") (some (lit "lsgp"))
    (some (lit "List all GPIO names.")) (some .list_gpio_names)
  let r2 := register_api_command r1 (lit "get-gpio-direction") (some (lit "ggpd"))
    (some (lit "Read the current direction of a GPIO line.")) (some .get_gpio_direction)
  let r3 := register_api_command r2 (lit "request-gpio-for-input") (some (lit "rgpi"))
    (some (lit "Request a given GPIO line for input.")) (some .request_gpio_for_input)
  let r4 := register_api_command r3 (lit "request-gpio-for-output") (some (lit "rgpo"))
    (some (lit "Request a given GPIO line for output.")) (some .request_gpio_for_output)
  let r5 := register_api_command r4 (lit "release-gpio") (some (lit "rlgp"))
    (some (lit "Release a previously requested GPIO line.")) (some .release_gpio)
  let r6 := register_api_command r5 (lit "read-gpio-value") (some (lit "rdgp"))
    (some (lit "Read the value from an input GPIO line.")) (some .read_gpio_value)
  let r7 := register_api_command r6 (lit "write-gpio-value") (some (lit "wrgp"))
    (some (lit "Write a value on an output GPIO line.")) (some .write_gpio_value)
  let r8 := register_api_command r7 (lit "wait-gpio-edge") (some (lit "wgpe"))
    (some (lit "Wait for a specific signal edge on a GPIO line.")) (some .wait_gpio_edge)
  let r9 := register_api_command r8 (lit "get-test-input-gpio") (some (lit "gtig"))
    (some (lit "Get a GPIO name suitable for a test in input.")) (some .get_test_input_gpio)
  register_api_command r9 (lit "get-test-output-gpio") (some (lit "gtog"))
    (some (lit "Get a GPIO name suitable for a test in output.")) (some .get_test_output_gpio)

/-! ## Request decoding: `communicate_with_client` in `api-server.c`

`buffer` is the content of the array `char buffer[4096]` after `read` returned `lg`:
its first `lg` bytes were received, the bytes after them are whatever the array held
before.  Bytes past the end of the list are NUL. -/

/-- Size of the array `buffer` of `communicate_with_client`. -/
def buffer_size : Nat := 4096

/-- The byte `buffer[i]`. -/
def rd (buffer : Bytes) (i : Nat) : Nat := buffer.getD i 0

/-- The loops `while ((pos < lg) && (p(buffer[pos]))) pos ++;`, run for at most `fuel`
rounds: the position where the loop stops. -/
def scan (p : Nat → Bool) (buffer : Bytes) (lg : Nat) : Nat → Nat → Nat
  | 0, pos => pos
  | fuel + 1, pos =>
    if pos < lg ∧ p (rd buffer pos) = true then scan p buffer lg fuel (pos + 1) else pos

/-- The loop `while ((pos < lg) && (isspace(buffer[pos]))) pos ++;`. -/
def skip_spaces (buffer : Bytes) (lg pos : Nat) : Nat :=
  scan isspace buffer lg (lg - pos) pos

/-- The loop `while ((pos < lg) && (! isspace(buffer[pos]))) pos ++;`. -/
def skip_word (buffer : Bytes) (lg pos : Nat) : Nat :=
  scan (fun c => !isspace c) buffer lg (lg - pos) pos

/-- The bytes `memcpy(dst, &(buffer[pos]), n)` copies. -/
def memcpy_from (buffer : Bytes) (pos n : Nat) : Bytes :=
  (buffer.drop pos ++ List.replicate n 0).take n

/-- An `int` converted to `size_t` (64 bits), as in the argument of `malloc`. -/
def to_size_t (z : Int) : Nat := (z % 18446744073709551616).toNat

/-- How the argument loop of `communicate_with_client` ends. -/
inductive Args where
  /-- The loop was left with these arguments (`argc` is their number), after sending
  `sent`. -/
  | args (argv : List Bytes) (sent : List Sent)
  /-- A `memcpy` of `len` bytes from `pos` was started that reads past the end of the
  array `buffer`. -/
  | overrun (argv : List Bytes) (pos : Nat) (len : Int)
  /-- The round budget of the model was used up (it never is, see `parse_args_total`). -/
  | out_of_fuel
  deriving DecidableEq, Repr

/-- How one round of the argument loop ends. -/
inductive ArgStep where
  /-- The loop is left (`break`) after `sent` was sent; `argc` is not incremented. -/
  | stop (sent : List Sent)
  /-- A `memcpy` of `len` bytes from `pos` was started that reads past the end of the
  array `buffer`. -/
  | overrun (pos : Nat) (len : Int)
  /-- The argument `arg` was copied, `argc` incremented, and the loop goes on at `pos`. -/
  | next (pos : Nat) (arg : Bytes)
  deriving DecidableEq, Repr

/-- The body of the loop `while (pos < lg) { ... }` that collects the arguments, entered
at `pos < lg` with `argc` arguments already copied; `alloc n` tells whether an
allocation of `n` bytes succeeds.  The sum `pos + arglen[argc]` is computed in 32-bit
`int` arithmetic; a copy that stays inside the array has a sum that did not wrap. -/
def parse_arg (alloc : Nat → Bool) (buffer : Bytes) (lg pos argc : Nat) : ArgStep :=
  if alloc ((argc + 1) * 4) = false then .stop []
  else
    match sscanf_d (buffer.drop pos) with
    | none => .stop [.error EPROTO (lit "Argument must be preceded by its length.")]
    | some (len, nb) =>
      if alloc ((argc + 1) * 8) = false then .stop []
      else
        let pos1 := skip_spaces buffer lg (pos + nb)
        if pos1 ≥ lg then .stop []
        else
          let arglen : Int :=
            if len < 0 then ((skip_word buffer lg pos1 - pos1 : Nat) : Int) else len
          if to_int32 ((pos1 : Int) + arglen) ≥ (lg : Int) then .stop []
          else if alloc (to_size_t (to_int32 (arglen + 1))) = false then .stop []
          else if (pos1 : Int) + arglen > (buffer_size : Int) then .overrun pos1 arglen
          else
            .next (skip_spaces buffer lg (pos1 + arglen.toNat))
              (memcpy_from buffer pos1 arglen.toNat)

/-- The loop `while (pos < lg) { ... }` that collects the arguments, run for at most
`fuel` rounds, `argv` being the arguments copied so far. -/
def parse_args (alloc : Nat → Bool) (buffer : Bytes) (lg : Nat) :
    Nat → Nat → List Bytes → Args
  | 0, _, _ => .out_of_fuel
  | fuel + 1, pos, argv =>
    if ¬ pos < lg then .args argv []
    else
      match parse_arg alloc buffer lg pos argv.length with
      | .stop sent => .args argv sent
      | .overrun p len => .overrun argv p len
      | .next pos1 arg => parse_args alloc buffer lg fuel pos1 (argv ++ [arg])

/-- How the handling of one received buffer ends, before any handler runs. -/
inductive Decoded where
  /-- The buffer ends the session: `break` out of the `for (;;)` loop, after `sent`. -/
  | close (sent : List Sent)
  /-- The request is refused: `sent` is sent, then `continue`. -/
  | refused (sent : List Sent)
  /-- After `sent`, `call_command(sock, command, argc, argv, arglen)` is reached. -/
  | request (command : Bytes) (argv : List Bytes) (sent : List Sent)
  /-- A `memcpy` was started that reads past the end of `buffer`. -/
  | overrun (command : Bytes) (argv : List Bytes) (pos : Nat) (len : Int)
  | out_of_fuel
  deriving DecidableEq, Repr

/-- One round of the `for (;;)` loop of `communicate_with_client`, from the return of
`read` (`lg` bytes now in `buffer`) up to the call of `call_command`. -/
def decode (alloc : Nat → Bool) (buffer : Bytes) (lg : Nat) : Decoded :=
  if lg = 0 then .close []
  else if strncasecmp buffer (lit "BYE") (strlen (lit "BYE")) = 0
        ∨ strncasecmp buffer (lit "QUIT") (strlen (lit "QUIT")) = 0 then .close []
  else if lg ≤ 4 ∨ strncasecmp buffer (lit "REQ ") (strlen (lit "REQ ")) ≠ 0 then
    .refused [.error EPROTO (lit "Request must start by `REQ`.")]
  else
    let pos := skip_spaces buffer lg (0 + strlen (lit "REQ "))
    if pos = lg then .refused [.error EPROTO (lit "Missing request.")]
    else
      let start := pos
      let pos := skip_word buffer lg pos
      if pos = start then .refused [.error EPROTO (lit "Missing request.")]
      else if alloc (pos - start + 1) = false then
        .close [.error ENOMEM (lit "Not enough memory. Please retry later.")]
      else
        let command := memcpy_from buffer start (pos - start)
        let pos := skip_spaces buffer lg pos
        match parse_args alloc buffer lg (lg - pos + 1) pos [] with
        | .args argv sent => .request command argv sent
        | .overrun argv p len => .overrun command argv p len
        | .out_of_fuel => .out_of_fuel

/-- What serving one received buffer did. -/
structure Served where
  /-- The GPIO table afterwards. -/
  gpios : List eris_api_gpio
  /-- The socket writes, in order. -/
  sent : List Sent
  /-- The libgpiod calls, in order. -/
  calls : List KCall
  /-- Whether the server goes on to `read` the next request (`false`: the session is
  closed, or the handler never returns). -/
  reads_next : Bool
  deriving DecidableEq, Repr

/-- One round of the `for (;;)` loop of `communicate_with_client`: decoding, then
`call_command` and the handler it calls.  `none` when decoding does not reach a
defined end (`Decoded.overrun`, `Decoded.out_of_fuel`). -/
def serve (cmds : List (api_command_t Handler)) (alloc : Nat → Bool) (k : Gpiod)
    (gpios : List eris_api_gpio) (buffer : Bytes) (lg : Nat) : Option Served :=
  match decode alloc buffer lg with
  | .close sent => some { gpios := gpios, sent := sent, calls := [], reads_next := false }
  | .refused sent => some { gpios := gpios, sent := sent, calls := [], reads_next := true }
  | .request command argv sent =>
    match call_command cmds command argv with
    | .send_error code label =>
      some { gpios := gpios, sent := sent ++ [.error code label], calls := [],
             reads_next := true }
    | .call f argv =>
      let o := run_handler cmds k gpios f argv
      some { gpios := o.gpios, sent := sent ++ o.sent, calls := o.calls,
             reads_next := o.returned }
  | .overrun _ _ _ _ => none
  | .out_of_fuel => none

/-- Number of protocol frames among socket writes. -/
def frames (sent : List Sent) : Nat := (sent.filter Sent.is_frame).length

/-! ## REST handlers: `gpio-rest-api.c`, `eris-rest-api.c` -/

/-- A response queued with `MHD_queue_response`: status code and body. -/
structure Response where
  status : Nat
  body : Bytes
  deriving DecidableEq, Repr

/-- Response queued by `send_rest_error(connection, err_message, err_code)`. -/
def send_rest_error (err_message : String) (err_code : Nat) : Response :=
  { status := err_code, body := cstr (lit err_message) }

/-- Response queued by `send_rest_response(connection, reply_message)`: status 200. -/
def send_rest_response (reply_message : Bytes) : Response :=
  { status := 200, body := cstr reply_message }

/-- The query arguments of a connection: what
`MHD_lookup_connection_value(connection, MHD_GET_ARGUMENT_KIND, key)` returns for
each key (`none` for NULL). -/
abbrev MHD_Connection := Bytes → Option Bytes

/-- What a handler of the REST server did: the table it leaves, the responses it
queued, the libgpiod calls it made, and whether it returned. -/
structure RestOutcome where
  gpios : List eris_api_gpio
  responses : List Response
  calls : List KCall
  returned : Bool
  deriving DecidableEq, Repr

/-- A handler path `return send_rest_error(connection, msg, code);`. -/
def RestOutcome.error (gpios : List eris_api_gpio) (msg : String) (code : Nat) : RestOutcome :=
  { gpios := gpios, responses := [send_rest_error msg code], calls := [], returned := true }

/-- Handler `list_gpio` of the REST server (allocation is taken to succeed). -/
def list_gpio (gpios : List eris_api_gpio) : RestOutcome :=
  match (list_gpio_names_loop { string := none, size := 0, pos := 0 } gpios).string with
  | none => .error gpios "No GPIO available." 400
  | some reply =>
    { gpios := gpios, responses := [send_rest_response reply], calls := [], returned := true }

/-- Settings built by `request_gpio` of the REST server. -/
def rest_settings (out : Bool) (value : Bytes) : line_settings :=
  if out then
    { line_settings_new with direction := .output, output_value := (rd value 0 : Int) - 48 }
  else { line_settings_new with direction := .input }

/-- The part of `request_gpio` that follows the checks of the arguments: lookup of
the line and reservation.  `out` is `strncasecmp(direction, "out", 3) == 0`. -/
def request_gpio_line (k : Gpiod) (gpios : List eris_api_gpio) (name : Bytes) (out : Bool)
    (value : Bytes) : RestOutcome :=
  let num := find_gpio strcasecmp name gpios
  match gpios[num]? with
  | none => .error gpios "Unknown GPIO name." 404
  | some g =>
    if g.request ≠ none then .error gpios "GPIO line is already reserved by Eris API." 403
    else
      match k.settings_new with
      | .fail _ => .error gpios "Memory allocation error." 500
      | .ok =>
        match k.config_new with
        | .fail _ => .error gpios "Memory allocation error." 500
        | .ok =>
          match k.add_line_settings with
          | .fail _ => .error gpios "Unable to reserve the GPIO." 500
          | .ok =>
            match k.request_config_new with
            | .fail _ => .error gpios "Memory allocation error." 500
            | .ok =>
              match k.chip_request_lines with
              | none =>
                { gpios := gpios.set num { g with request := none },
                  responses := [send_rest_error
                    "The GPIO is already reserved by another application." 403],
                  calls := [.chip_request_lines g.chip g.offset (rest_settings out value) none],
                  returned := true }
              | some r =>
                { gpios := gpios.set num
                    { g with request := some r, output := if out then 1 else 0 },
                  responses := [send_rest_response (lit "Ok")],
                  calls := [.chip_request_lines g.chip g.offset (rest_settings out value)
                              (some r)],
                  returned := true }

/-- Handler `request_gpio` of the REST server. -/
def request_gpio (k : Gpiod) (gpios : List eris_api_gpio) (connection : MHD_Connection) :
    RestOutcome :=
  match connection (lit "name") with
  | none => .error gpios "Missing GPIO name." 400
  | some name =>
    match connection (lit "direction") with
    | none => .error gpios "Missing GPIO direction." 400
    | some direction =>
      if strncasecmp direction (lit "in") 2 ≠ 0 ∧ strncasecmp direction (lit "out") 3 ≠ 0 then
        .error gpios "Invalid direction" 400
      else
        match connection (lit "value") with
        | none =>
          if strncasecmp direction (lit "out") 3 = 0 then .error gpios "Missing GPIO value." 400
          else request_gpio_line k gpios name false []
        | some value =>
          if rd value 0 ≠ 48 ∧ rd value 0 ≠ 49 then .error gpios "Invalid value" 400
          else
            request_gpio_line k gpios name
              (decide (strncasecmp direction (lit "out") 3 = 0)) value

/-- Handler `release_gpio` of the REST server. -/
def rest_release_gpio (gpios : List eris_api_gpio) (connection : MHD_Connection) : RestOutcome :=
  match connection (lit "name") with
  | none => .error gpios "Missing GPIO name." 400
  | some name =>
    let num := find_gpio strcasecmp name gpios
    match gpios[num]? with
    | none => .error gpios "Unknown GPIO name." 404
    | some g =>
      match g.request with
      | none => .error gpios "GPIO line already free." 404
      | some r =>
        { gpios := gpios.set num { g with request := none },
          responses := [send_rest_response (lit "Ok")],
          calls := [.line_request_release r], returned := true }

/-- Handler `get_gpio_value` of the REST server. -/
def get_gpio_value (k : Gpiod) (gpios : List eris_api_gpio) (connection : MHD_Connection) :
    RestOutcome :=
  match connection (lit "name") with
  | none => .error gpios "Missing GPIO name." 400
  | some name =>
    let num := find_gpio strcasecmp name gpios
    match gpios[num]? with
    | none => .error gpios "Unknown GPIO name." 404
    | some g =>
      match g.request with
      | none => .error gpios "The GPIO line is not reserved." 400
      | some r =>
        if g.output ≠ 0 then .error gpios "This GPIO line is not readable." 400
        else
          let reply := ((addsnprintf { string := none, size := 0, pos := 0 }
                          (fmt_d k.get_value) true).2.string).getD []
          { gpios := gpios, responses := [send_rest_response reply],
            calls := [.line_request_get_value r g.offset], returned := true }

/-- Handler `set_gpio_value` of the REST server. -/
def set_gpio_value (gpios : List eris_api_gpio) (connection : MHD_Connection) : RestOutcome :=
  match connection (lit "name") with
  | none => .error gpios "Missing GPIO name." 400
  | some name =>
    let num := find_gpio strcasecmp name gpios
    match gpios[num]? with
    | none => .error gpios "Unknown GPIO name." 404
    | some g =>
      match g.request with
      | none => .error gpios "The GPIO line is not reserved." 400
      | some r =>
        if g.output = 0 then .error gpios "This GPIO line is not writable." 400
        else
          match connection (lit "value") with
          | none => .error gpios "Missing value." 400
          | some value_string =>
            { gpios := gpios, responses := [send_rest_response (lit "Ok")],
              calls := [.line_request_set_value r g.offset
                          (if rd value_string 0 = 48 then 0 else 1)],
              returned := true }

/-- The `for (;;)` loop of `wait_gpio_edge` (REST server) on request `r`, run against
the successive answers of the kernel. -/
def rest_wait_edge_loop (evtype : edge_event_type) (r : Nat) :
    List edge_step → List Response × List KCall × Bool
  | [] => ([], [.line_request_wait_edge_events r], false)
  | s :: rest =>
    if s.wait ≤ 0 then
      ([send_rest_error "Unable to wait event on this GPIO line." 500],
       [.line_request_wait_edge_events r], true)
    else
      match s.read with
      | none =>
        ([send_rest_error "Unable to read event on this GPIO line." 500],
         [.line_request_wait_edge_events r, .line_request_read_edge_events r], true)
      | some events =>
        if events.length = 0 then
          ([send_rest_error "Timeout." 400],
           [.line_request_wait_edge_events r, .line_request_read_edge_events r], true)
        else if events.any (fun e => decide (e = evtype)) then
          ([send_rest_response (lit "Ok")],
           [.line_request_wait_edge_events r, .line_request_read_edge_events r], true)
        else
          let next := rest_wait_edge_loop evtype r rest
          (next.1,
           .line_request_wait_edge_events r :: .line_request_read_edge_events r :: next.2.1,
           next.2.2)

/-- Handler `wait_gpio_edge` of the REST server. -/
def rest_wait_gpio_edge (k : Gpiod) (gpios : List eris_api_gpio)
    (connection : MHD_Connection) : RestOutcome :=
  match connection (lit "name") with
  | none => .error gpios "Missing GPIO name." 400
  | some name =>
    let num := find_gpio strcasecmp name gpios
    match gpios[num]? with
    | none => .error gpios "Unknown GPIO name." 404
    | some g =>
      match g.request with
      | none => .error gpios "The GPIO line is not reserved." 400
      | some r =>
        if g.output ≠ 0 then .error gpios "This GPIO line is not readable." 400
        else
          match connection (lit "type") with
          | none => .error gpios "Missing type of event." 400
          | some event =>
            if strncasecmp event (lit "ris") 3 = 0 then
              let w := rest_wait_edge_loop .rising_edge r k.edge_steps
              { gpios := gpios, responses := w.1, calls := w.2.1, returned := w.2.2 }
            else if strncasecmp event (lit "fal") 3 = 0 then
              let w := rest_wait_edge_loop .falling_edge r k.edge_steps
              { gpios := gpios, responses := w.1, calls := w.2.1, returned := w.2.2 }
            else .error gpios "Unknown event (must be 'rising' or 'falling')." 400

/-- The routing of `gpio_rest_api(connection, url, method)`; `none` stands for the
result `MHD_NO` (no handler is called, no response is queued). -/
def gpio_rest_api (k : Gpiod) (gpios : List eris_api_gpio) (connection : MHD_Connection)
    (url method : Bytes) : Option RestOutcome :=
  if strcasecmp url (lit "/api/gpio/list") = 0 ∧ strcmp method (lit "GET") = 0 then
    some (list_gpio gpios)
  else if strcasecmp url (lit "/api/gpio") = 0 ∧ strcmp method (lit "GET") = 0 then
    some (request_gpio k gpios connection)
  else if strcasecmp url (lit "/api/gpio") = 0 ∧ strcmp method (lit "DELETE") = 0 then
    some (rest_release_gpio gpios connection)
  else if strcasecmp url (lit "/api/gpio/value") = 0 ∧ strcmp method (lit "GET") = 0 then
    some (get_gpio_value k gpios connection)
  else if strcasecmp url (lit "/api/gpio/value") = 0 ∧ strcmp method (lit "PUT") = 0 then
    some (set_gpio_value gpios connection)
  else if strcasecmp url (lit "/api/gpio/edge") = 0 ∧ strcmp method (lit "GET") = 0 then
    some (rest_wait_gpio_edge k gpios connection)
  else none

/-! ## Sessions, and the vocabulary of the statements -/

/-- A line name is absent from the table, for the comparison `cmp` a server uses
(`strcmp` in the TCP server, `strcasecmp` in the REST server). -/
def absent (cmp : Bytes → Bytes → Int) (name : Bytes) (gpios : List eris_api_gpio) : Prop :=
  ∀ g ∈ gpios, cmp name g.name ≠ 0

/-- The row a request naming `name` addresses: the first row whose name compares
equal, `none` when the name is absent. -/
def addressed (cmp : Bytes → Bytes → Int) (name : Bytes) (gpios : List eris_api_gpio) :
    Option eris_api_gpio :=
  gpios[find_gpio cmp name gpios]?

/-- A REST reservation request is well formed: `direction` is present and begins with
`in` or `out` (any case), and `value` begins with `0` or `1`, or is missing in a
request that is not for output. -/
def rest_request_well_formed (connection : MHD_Connection) : Prop :=
  ∃ direction, connection (lit "direction") = some direction ∧
    (strncasecmp direction (lit "in") 2 = 0 ∨ strncasecmp direction (lit "out") 3 = 0) ∧
    (match connection (lit "value") with
     | none => strncasecmp direction (lit "out") 3 ≠ 0
     | some value => rd value 0 = 48 ∨ rd value 0 = 49)

/-- The request handles stored in the table, row after row. -/
def reserved_requests (gpios : List eris_api_gpio) : List Nat :=
  gpios.filterMap (fun g => g.request)

/-- The request handles that, after the calls of a trace, the kernel has granted and
not seen released, starting from the handles `live`. -/
def live_requests : List KCall → List Nat → List Nat
  | [], live => live
  | .chip_request_lines _ _ _ (some r) :: calls, live => live_requests calls (r :: live)
  | .line_request_release r :: calls, live => live_requests calls (live.erase r)
  | _ :: calls, live => live_requests calls live

/-- A TCP session after decoding: the handlers called one after the other, each with
its arguments and the kernel outcomes it meets.  Returns the final table and all the
libgpiod calls; a handler that does not return ends the session. -/
def run_session (cmds : List (api_command_t Handler)) :
    List (Gpiod × Handler × List Bytes) → List eris_api_gpio → List eris_api_gpio × List KCall
  | [], gpios => (gpios, [])
  | (k, f, argv) :: rest, gpios =>
    let o := run_handler cmds k gpios f argv
    if o.returned then
      let r := run_session cmds rest o.gpios
      (r.1, o.calls ++ r.2)
    else (o.gpios, o.calls)

/-- The REST daemon serving GPIO requests one after the other (url, method and query
arguments, with the kernel outcomes each meets). -/
def run_rest : List (Gpiod × MHD_Connection × Bytes × Bytes) → List eris_api_gpio →
    List eris_api_gpio × List KCall
  | [], gpios => (gpios, [])
  | (k, connection, url, method) :: rest, gpios =>
    match gpio_rest_api k gpios connection url method with
    | none => run_rest rest gpios
    | some o =>
      if o.returned then
        let r := run_rest rest o.gpios
        (r.1, o.calls ++ r.2)
      else (o.gpios, o.calls)

/-- The decoder met an argument that is not preceded by a readable length, and sent
the protocol error for it before dispatching. -/
def prefix_error (alloc : Nat → Bool) (buffer : Bytes) (lg : Nat) : Prop :=
  ∃ command argv, decode alloc buffer lg
    = .request command argv [.error EPROTO (lit "Argument must be preceded by its length.")]

/-- The handler function a received buffer is dispatched to, if any. -/
def dispatched (cmds : List (api_command_t Handler)) (alloc : Nat → Bool) (buffer : Bytes)
    (lg : Nat) : Option Handler :=
  match decode alloc buffer lg with
  | .request command argv _ =>
    match call_command cmds command argv with
    | .call f _ => some f
    | .send_error _ _ => none
  | _ => none

/-! ## Sample data for the closed statements -/

/-- Every allocation succeeds. -/
def alloc_ok : Nat → Bool := fun _ => true

/-- A kernel that grants everything: request handle 7, value 1, no edge event. -/
def sample_kernel : Gpiod :=
  { settings_new := .ok, config_new := .ok, add_line_settings := .ok,
    request_config_new := .ok, chip_request_lines := some 7, get_value := 1,
    line_info_direction := some .input, edge_steps := [] }

/-- A table as discovery leaves it, with the two lines `GPIO17` and `GPIO18` of chip 0. -/
def sample_gpios : List eris_api_gpio :=
  [{ name := lit "GPIO17", offset := 17, chip := 0, request := none, output := -1 },
   { name := lit "GPIO18", offset := 18, chip := 0, request := none, output := -1 }]

/-- Query arguments `name`, `direction`, `value` and `type` of a REST request. -/
def sample_query (name direction value type : Option Bytes) : MHD_Connection :=
  fun key =>
    if key = lit "name" then name
    else if key = lit "direction" then direction
    else if key = lit "value" then value
    else if key = lit "type" then type
    else none

/-- A kernel that refuses the line request, as when another process holds the line:
`gpiod_chip_request_lines` returns NULL. -/
def refusing_kernel : Gpiod := { sample_kernel with chip_request_lines := none }

/-- The sample table with `GPIO17` reserved for input under request handle 7. -/
def sample_reserved : List eris_api_gpio :=
  [{ name := lit "GPIO17", offset := 17, chip := 0, request := some 7, output := 0 },
   { name := lit "GPIO18", offset := 18, chip := 0, request := none, output := -1 }]

/-- A registry with a duplicate registration: `help` twice (handlers 1 and 2), then
`list` abbreviated `LS` (handler 3). -/
def sample_registry : List (api_command_t Nat) :=
  register_api_command
    (register_api_command
      (register_api_command [] (lit "help") none none (some 1))
      (lit "help") none none (some 2))
    (lit "list") (some (lit "LS")) none (some 3)

/-! ## Vocabulary of the reservation cycle and of the argument checks -/

/-- Spec wording: the bytes `received` begin with the letters of `word`, case being
ignored. -/
def begins_with (received word : Bytes) : Prop :=
  (received.take word.length).map tolower = word.map tolower

/-- The kernel grants a line request with handle `r`: every libgpiod call on the way
succeeds and `gpiod_chip_request_lines` returns `r`. -/
def grants (k : Gpiod) (r : Nat) : Prop :=
  k.settings_new = .ok ∧ k.config_new = .ok ∧ k.add_line_settings = .ok ∧
    k.request_config_new = .ok ∧ k.chip_request_lines = some r

/-- The reservation cycle on the TCP server: request-input, release, request-input on
the same name, each call working on the table the previous one left.  `k1` and `k3`
are the kernel outcomes met by the two requests. -/
def tcp_cycle (k1 k3 : Gpiod) (gpios : List eris_api_gpio) (name : Bytes) :
    Outcome × Outcome × Outcome :=
  let o1 := request_gpio_for_input k1 gpios [name]
  let o2 := release_gpio o1.gpios [name]
  let o3 := request_gpio_for_input k3 o2.gpios [name]
  (o1, o2, o3)

/-- The reservation cycle on the REST server: `GET /api/gpio` with the query
`request`, `DELETE /api/gpio` with the query `release`, then `GET /api/gpio` with
`request` again. -/
def rest_cycle (k1 k3 : Gpiod) (gpios : List eris_api_gpio) (request release : MHD_Connection) :
    RestOutcome × RestOutcome × RestOutcome :=
  let o1 := request_gpio k1 gpios request
  let o2 := rest_release_gpio o1.gpios release
  let o3 := request_gpio k3 o2.gpios request
  (o1, o2, o3)

/-- A REST reservation request for input on `name`: `direction` begins with `in`, and
`value`, if given, begins with `0` or `1`. -/
def rest_request_input (connection : MHD_Connection) (name : Bytes) : Prop :=
  connection (lit "name") = some name ∧
    ∃ direction, connection (lit "direction") = some direction ∧
      strncasecmp direction (lit "in") 2 = 0 ∧ strncasecmp direction (lit "out") 3 ≠ 0 ∧
      (match connection (lit "value") with
       | none => True
       | some value => rd value 0 = 48 ∨ rd value 0 = 49)

/-- The sample table with `GPIO17` reserved for output under request handle 7. -/
def sample_output : List eris_api_gpio :=
  [{ name := lit "GPIO17", offset := 17, chip := 0, request := some 7, output := 1 },
   { name := lit "GPIO18", offset := 18, chip := 0, request := none, output := -1 }]

/-! ## The bytes of a frame: `send_reply` and `send_error` in `api-server.c` -/

/-- Text produced by the `printf` conversion `%lu`. -/
def fmt_lu (n : Nat) : Bytes := nat_digits (n + 1) n []

/-- Spec wording: the decimal writing of a number, as the standard library gives it. -/
def decimal (n : Nat) : Bytes := (Nat.toDigits 10 n).map Char.toNat

/-- The bytes `send_reply(sock, length, data)` hands to `write` or `writev`, taken to
be written in full: for length 0 the C string in `prefix`; otherwise the three
segments `prefix` (`prefix_length` bytes), `data` (`length` bytes), newline. -/
def send_reply (length : Nat) (data : Bytes) : Bytes :=
  if length = 0 then
    let prefix_text := (snprintf 128 (lit "REP" ++ lit " 0\n")).1
    memcpy_from prefix_text 0 (strlen prefix_text)
  else
    let p := snprintf 128 (lit "REP" ++ lit " " ++ fmt_lu length ++ lit " ")
    memcpy_from p.1 0 p.2 ++ memcpy_from data 0 length ++ memcpy_from (lit "\n") 0 1

/-- The bytes `send_error(sock, code, label)` hands to `write`, taken to be written in
full: `size` bytes of the message built by `addsnprintf`, `realloc_ok` telling whether
the `realloc` inside `addsnprintf` succeeds.  The result of `addsnprintf` is not
tested: when the allocation fails, `message` is still NULL and `size` still 0, and
`write(sock, NULL, 0)` puts nothing on the socket. -/
def send_error_alloc (realloc_ok : Bool) (code : Int) (label : Bytes) : Bytes :=
  let message := (addsnprintf { string := none, size := 0, pos := 0 }
    (lit "ERR" ++ lit " " ++ fmt_d code ++ lit " " ++ fmt_lu (strlen label) ++ lit " "
      ++ cstr label ++ lit "\n") realloc_ok).2
  memcpy_from (message.string.getD []) 0 message.size

/-- The bytes `send_error(sock, code, label)` hands to `write` when the allocation of
the message succeeds. -/
def send_error (code : Int) (label : Bytes) : Bytes := send_error_alloc true code label

/-- The bytes a socket write puts on the wire (the allocation inside `send_error`
succeeding). -/
def Sent.wire : Sent → Bytes
  | .reply length data => send_reply length data
  | .error code label => send_error code label
  | .raw bytes => bytes

/-- The bytes a socket write puts on the wire, `realloc_ok` telling whether the
allocation inside `send_error` succeeds. -/
def Sent.written (realloc_ok : Bool) : Sent → Bytes
  | .reply length data => send_reply length data
  | .error code label => send_error_alloc realloc_ok code label
  | .raw bytes => bytes

/-- Number of protocol frames that reach the socket: the calls of `send_reply` and
`send_error` that write at least one byte. -/
def frames_on_socket (realloc_ok : Bool) (sent : List Sent) : Nat :=
  ((sent.filter Sent.is_frame).filter
    (fun s => decide (Sent.written realloc_ok s ≠ []))).length

/-! ## Top of the REST server: `eris-rest-api.c` -/

/-- Handler `eris_rest_api`: the welcome text on `GET /api`, else `MHD_NO`. -/
def eris_rest_api (gpios : List eris_api_gpio) (url method : Bytes) : Option RestOutcome :=
  if strcasecmp url (lit "/api") = 0 ∧ strcmp method (lit "GET") = 0 then
    some { gpios := gpios,
           responses := [send_rest_response (lit
             ("Welcome on the Eris-Linux REST API.\n" ++
              "Here are some API modules endpoints:\n" ++
              "  /api/gpio       access to GPIO-based features,\n" ++
              "  /api/network    access to network setup functions,\n" ++
              "  /api/package    access to package versions and licenses,\n" ++
              "  /api/license    access to license texts,\n" ++
              "  /api/time       access to time-handling features,\n" ++
              "  /api/update     access to system and container update parameters,\n" ++
              "  /api/watchdog   access to watchdog features,\n"))],
           calls := [], returned := true }
  else none

/-- Handler `eris_rest_api_handler`, the entry point libmicrohttpd calls for every
request.  `none` stands for `MHD_NO`: nothing is queued.  The handlers of the modules
other than GPIO (network, package, license, system, container, time, update,
watchdog) are the parameter `other_modules`. -/
def eris_rest_api_handler
    (other_modules : List eris_api_gpio → MHD_Connection → Bytes → Bytes → Option RestOutcome)
    (k : Gpiod) (gpios : List eris_api_gpio) (connection : MHD_Connection)
    (url method : Bytes) : Option RestOutcome :=
  if strcasecmp url (lit "/api") = 0 then eris_rest_api gpios url method
  else if strncasecmp url (lit "/api/gpio") 9 = 0 then
    gpio_rest_api k gpios connection url method
  else other_modules gpios connection url method

/-- Spec wording: the pair (URL path, method) selects one of the six GPIO operations of
the REST interface; the path is compared ignoring case, the method exactly. -/
def gpio_operation (url method : Bytes) : Prop :=
  (eq_ignoring_case url (lit "/api/gpio/list") ∧ cstr method = lit "GET")
  ∨ (eq_ignoring_case url (lit "/api/gpio")
      ∧ (cstr method = lit "GET" ∨ cstr method = lit "DELETE"))
  ∨ (eq_ignoring_case url (lit "/api/gpio/value")
      ∧ (cstr method = lit "GET" ∨ cstr method = lit "PUT"))
  ∨ (eq_ignoring_case url (lit "/api/gpio/edge") ∧ cstr method = lit "GET")

/-! ## The receive buffer across reads -/

/-- The array `buffer` after `read(sock, buffer, 4096)` stored `received` in it: the
bytes after the received ones keep what the array held. -/
def read_into (buffer received : Bytes) : Bytes :=
  received ++ buffer.drop received.length

/-- A table whose first line is unnamed (stored with the empty name, as
`load_gpio_names` does), followed by `GPIO18`. -/
def sample_unnamed : List eris_api_gpio :=
  [{ name := lit "", offset := 0, chip := 0, request := none, output := -1 },
   { name := lit "GPIO18", offset := 18, chip := 0, request := none, output := -1 }]

/-! ## The list of names -/

/-- Spec wording: names joined by single spaces (for k names, k - 1 separators). -/
def join_names : List Bytes → Bytes
  | [] => []
  | [n] => n
  | n :: m :: rest => n ++ lit " " ++ join_names (m :: rest)

/-! ## The commands that are not implemented: `update-api.c`, `update-rest-api.c` -/

/-- Handler `restore_factory_preset` of the TCP server (command
`restore-factory-preset`, abbreviated `rfac`): what it sends. -/
def restore_factory_preset (argv : List Bytes) : List Sent :=
  if argv.length > 0 then
    [.error EINVAL (lit "restore-factory-preset doesn't take any argument.")]
  else [.reply 16 (lit "Not implemented.")]

/-- Handler `rollback` of the REST server. -/
def rollback : Response := send_rest_error "Feature not implemented yet." 501

/-- Handler `back_to_factory` of the REST server. -/
def back_to_factory : Response := send_rest_error "Feature not implemented yet." 501

/-- The routing of `update_rest_api(connection, url, method)`; `none` stands for
`MHD_NO`.  `handlers` gives the response of each of the other handler functions,
named as in the source. -/
def update_rest_api (handlers : String → Response) (url method : Bytes) : Option Response :=
  if strcasecmp url (lit "/api/update/status") = 0 ∧ strcmp method (lit "GET") = 0 then
    some (handlers "get_update_status")
  else if strcasecmp url (lit "/api/update/reboot/automatic") = 0
      ∧ strcmp method (lit "GET") = 0 then
    some (handlers "get_automatic_reboot")
  else if strcasecmp url (lit "/api/update/reboot/automatic") = 0
      ∧ strcmp method (lit "PUT") = 0 then
    some (handlers "set_automatic_reboot")
  else if strcasecmp url (lit "/api/update/contact/period") = 0
      ∧ strcmp method (lit "GET") = 0 then
    some (handlers "get_contact_period")
  else if strcasecmp url (lit "/api/update/contact/period") = 0
      ∧ strcmp method (lit "PUT") = 0 then
    some (handlers "set_contact_period")
  else if strcasecmp url (lit "/api/update/contact/now") = 0
      ∧ strcmp method (lit "POST") = 0 then
    some (handlers "set_contact_now")
  else if strcasecmp url (lit "/api/update/rollback") = 0
      ∧ strcmp method (lit "POST") = 0 then
    some rollback
  else if strcasecmp url (lit "/api/update/factory") = 0
      ∧ strcmp method (lit "POST") = 0 then
    some back_to_factory
  else if strcasecmp url (lit "/api/update/reboot/pending") = 0
      ∧ strcmp method (lit "GET") = 0 then
    some (handlers "get_pending_reboot")
  else if strcasecmp url (lit "/api/update/reboot/pending") = 0
      ∧ strcmp method (lit "PUT") = 0 then
    some (handlers "set_pending_reboot")
  else if strcasecmp url (lit "/api/update/reboot/now") = 0
      ∧ strcmp method (lit "POST") = 0 then
    some (handlers "set_reboot_now")
  else if strcasecmp url (lit "/api/update/container/policy") = 0
      ∧ strcmp method (lit "GET") = 0 then
    some (handlers "get_container_policy")
  else if strcasecmp url (lit "/api/update/container/policy") = 0
      ∧ strcmp method (lit "PUT") = 0 then
    some (handlers "set_container_policy")
  else none

/-! ## Client library: `liberis.c` -/

/-- Linux `errno.h`: `EALREADY`. -/
def EALREADY : Int := 114

/-- The macro `REST_API_PREFIX`. -/
def REST_API_PREFIX : String := "http://host.docker.internal:8080"

/-- What a transfer that `curl_easy_perform` completed brought back: the response
code (`CURLINFO_RESPONSE_CODE`, a `long`) and the body gathered by
`easy_curl_callback` (`memory.string`, `memory.size` bytes). -/
structure curl_answer where
  http_code : Int
  body : Bytes
  deriving DecidableEq, Repr

/-- Model of `perform_request(url, method, reply, size)`: `answer` is what the
transfer to `url` brought back (`none` when `curl_easy_perform` does not return
`CURLE_OK`), `reply` the array of the caller as it was.  Returns the `int` result and
the array `reply` afterwards. -/
def perform_request (answer : Option curl_answer) (reply : Bytes) (size : Nat) :
    Int × Bytes :=
  match answer with
  | none => (-1, reply)
  | some a =>
    let reply0 := store reply 0 [0]
    if a.body.length = 0 then (0, reply0)
    else
      let reply1 :=
        if size ≥ a.body.length + 1 then
          store (store reply0 0 (memcpy_from a.body 0 a.body.length)) a.body.length [0]
        else store (store reply0 0 (memcpy_from a.body 0 size)) (size - 1) [0]
      (if a.http_code ≠ 200 then to_int32 (- a.http_code) else 0, reply1)

/-- Model of `eris_request_gpio_for_input(name)` (`none` for a NULL name): `server`
gives what the transfer brings back for a URL and a method, `reply` is the local
array as it is on entry, `errno` the value of `errno` on entry.  Returns the result
and the value of `errno` on return (libcurl is taken to leave `errno` alone). -/
def eris_request_gpio_for_input (server : Bytes → Bytes → Option curl_answer) (reply : Bytes)
    (errno : Int) (name : Option Bytes) : Int × Int :=
  match name with
  | none => (-1, EINVAL)
  | some name =>
    let request := (snprintf 127 (lit REST_API_PREFIX ++ lit "/api/gpio?name=" ++ cstr name
      ++ lit "&direction=in")).1
    let r := perform_request (server (cstr request) (lit "GET")) reply 128
    if r.1 = 0 ∧ strcmp r.2 (lit "Ok") = 0 then (0, errno)
    else
      (-1, if r.1 = 400 then EINVAL
           else if r.1 = 403 then EALREADY
           else if r.1 = 404 then ENODEV
           else if r.1 = 500 then EIO
           else errno)

/-- A REST server as the client library sees it, answering every request with the
same status and body. -/
def sample_server (status : Int) (body : Bytes) : Bytes → Bytes → Option curl_answer :=
  fun _ _ => some { http_code := status, body := body }

/-! ## The edge-wait loop in the words of the specification -/

/-- Spec wording: some event batch, reached before any wait failure, wait result of
zero, read failure or empty batch, contains an event of the requested type.  Round
`i` of the script is such a batch, and every round before it had a wait that reported
events and a read that gave a batch that is not empty. -/
def edge_found (evtype : edge_event_type) (steps : List edge_step) : Prop :=
  ∃ (i : Nat) (s : edge_step) (events : List edge_event_type),
    steps[i]? = some s ∧ 0 < s.wait ∧ s.read = some events ∧ evtype ∈ events
    ∧ ∀ j, j < i → ∃ (t : edge_step) (batch : List edge_event_type),
        steps[j]? = some t ∧ 0 < t.wait ∧ t.read = some batch ∧ batch ≠ []

/-! ## The frame of the GPIO table -/

/-- Spec wording: the table `after` has the number of lines of `before`, and each line
has the name, offset and chip it had. -/
def same_lines (before after : List eris_api_gpio) : Prop :=
  after.length = before.length
    ∧ ∀ (i : Nat) (g : eris_api_gpio), before[i]? = some g →
        ∃ g1 : eris_api_gpio, after[i]? = some g1 ∧ g1.name = g.name ∧ g1.offset = g.offset
          ∧ g1.chip = g.chip

/-! ## Error atomicity -/

/-- Spec wording: the line of row `i` has a name that matches, for the comparison
`cmp` of the server, the name of a line at a smaller index. -/
def shadowed (cmp : Bytes → Bytes → Int) (gpios : List eris_api_gpio) (i : Nat) : Prop :=
  ∃ (j : Nat) (gi gj : eris_api_gpio),
    j < i ∧ gpios[i]? = some gi ∧ gpios[j]? = some gj ∧ cmp gi.name gj.name = 0

/-- A table as discovery leaves it when the chip has two lines without a name, both
stored with the empty name, and the line `GPIO18`. -/
def sample_two_unnamed : List eris_api_gpio :=
  [{ name := lit "", offset := 0, chip := 0, request := none, output := -1 },
   { name := lit "", offset := 1, chip := 0, request := none, output := -1 },
   { name := lit "GPIO18", offset := 18, chip := 0, request := none, output := -1 }]

/-! # Theorems -/

/-! ## Lemmas on the libc models -/

theorem tolower_eq_zero (c : Nat) : tolower c = 0 ↔ c = 0 := by
  unfold tolower
  by_cases h : 65 ≤ c ∧ c ≤ 90
  · rw [if_pos h]; omega
  · rw [if_neg h]

theorem cstr_nil : cstr [] = [] := rfl

theorem cstr_cons (a : Nat) (as : Bytes) :
    cstr (a :: as) = if a = 0 then [] else a :: cstr as := by
  unfold cstr
  by_cases h : a = 0 <;> simp [List.takeWhile_cons, h]

theorem strcasecmp_eq_zero (a b : Bytes) : strcasecmp a b = 0 ↔ eq_ignoring_case a b := by
  unfold eq_ignoring_case
  induction a generalizing b with
  | nil =>
    cases b with
    | nil => simp [strcasecmp]
    | cons y ys =>
      by_cases hy : y = 0
      · subst hy; simp [strcasecmp, cstr_cons, cstr_nil, tolower]
      · have : tolower y ≠ 0 := fun h => hy ((tolower_eq_zero y).1 h)
        simp [strcasecmp, cstr_cons, cstr_nil, hy]
        omega
  | cons x xs ih =>
    cases b with
    | nil =>
      by_cases hx : x = 0
      · subst hx; simp [strcasecmp, cstr_cons, cstr_nil, tolower]
      · have : tolower x ≠ 0 := fun h => hx ((tolower_eq_zero x).1 h)
        simp [strcasecmp, cstr_cons, cstr_nil, hx]
        omega
    | cons y ys =>
      by_cases hxy : tolower x = tolower y
      · by_cases hx : x = 0
        · subst hx
          have hy : y = 0 := (tolower_eq_zero y).1 (by rw [← hxy]; rfl)
          subst hy
          simp [strcasecmp, cstr_cons]
        · have hy : y ≠ 0 := by
            intro h; subst h
            exact hx ((tolower_eq_zero x).1 (by rw [hxy]; rfl))
          simp [strcasecmp, cstr_cons, hx, hy, hxy, ih ys]
      · have hne : (tolower x : Int) - (tolower y : Int) ≠ 0 := by omega
        by_cases hx : x = 0
        · subst hx
          have hy : y ≠ 0 := by
            intro h; subst h; exact hxy rfl
          simp [strcasecmp, cstr_cons, hy, hxy, hne]
        · by_cases hy : y = 0
          · subst hy
            simp [strcasecmp, cstr_cons, hx, hxy, hne]
          · simp [strcasecmp, cstr_cons, hx, hy, hxy, hne]

/-! ## Lemmas on the GPIO table -/

theorem find_gpio_absent {cmp : Bytes → Bytes → Int} {name : Bytes} {gpios : List eris_api_gpio}
    (h : absent cmp name gpios) : find_gpio cmp name gpios = gpios.length := by
  induction gpios with
  | nil => rfl
  | cons g rest ih =>
    have hg : cmp name g.name ≠ 0 := h g (by simp)
    have hr : absent cmp name rest := fun g' hg' => h g' (by simp [hg'])
    simp [find_gpio, hg, ih hr]

theorem addressed_absent {cmp : Bytes → Bytes → Int} {name : Bytes} {gpios : List eris_api_gpio}
    (h : absent cmp name gpios) : gpios[find_gpio cmp name gpios]? = none := by
  rw [find_gpio_absent h]
  simp

theorem find_gpio_congr (cmp : Bytes → Bytes → Int) (name : Bytes) :
    ∀ (l l' : List eris_api_gpio), l.map (fun g => g.name) = l'.map (fun g => g.name) →
      find_gpio cmp name l = find_gpio cmp name l'
  | [], [], _ => rfl
  | [], _ :: _, h => by simp at h
  | _ :: _, [], h => by simp at h
  | g :: l, g' :: l', h => by
    simp only [List.map_cons, List.cons.injEq] at h
    simp [find_gpio, h.1, find_gpio_congr cmp name l l' h.2]

theorem map_name_set (gpios : List eris_api_gpio) (num : Nat) (g g' : eris_api_gpio)
    (hg : gpios[num]? = some g) (hn : g'.name = g.name) :
    (gpios.set num g').map (fun g => g.name) = gpios.map (fun g => g.name) := by
  induction gpios generalizing num with
  | nil => simp
  | cons a rest ih =>
    cases num with
    | zero =>
      simp at hg
      subst hg
      simp [hn]
    | succ n =>
      simp at hg
      simp [ih n hg]

theorem set_self (gpios : List eris_api_gpio) (num : Nat) (g : eris_api_gpio)
    (hg : gpios[num]? = some g) : gpios.set num g = gpios := by
  induction gpios generalizing num with
  | nil => simp
  | cons a rest ih =>
    cases num with
    | zero =>
      simp at hg
      subst hg
      simp
    | succ n =>
      simp at hg
      simp [ih n hg]

theorem get?_set_self (gpios : List eris_api_gpio) (num : Nat) (g g' : eris_api_gpio)
    (hg : gpios[num]? = some g) : (gpios.set num g')[num]? = some g' := by
  induction gpios generalizing num with
  | nil => simp at hg
  | cons a rest ih =>
    cases num with
    | zero => simp
    | succ n =>
      simp at hg
      simp [ih n hg]

/-! ## Lemmas on successful reservations -/

theorem request_gpio_for_output_ok (k : Gpiod) (gpios : List eris_api_gpio) (name arg1 : Bytes)
    (h : (request_gpio_for_output k gpios [name, arg1]).sent = [.reply 2 (lit "Ok")]) :
    ∃ g, gpios[find_gpio strcmp name gpios]? = some g ∧ g.request = none ∧
      (request_gpio_for_output k gpios [name, arg1]).gpios
        = gpios.set (find_gpio strcmp name gpios)
            { g with request := k.chip_request_lines, output := 1 } := by
  simp only [request_gpio_for_output] at h ⊢
  cases hg : gpios[find_gpio strcmp name gpios]? with
  | none => simp [hg, Outcome.error] at h
  | some g =>
    simp only [hg] at h ⊢
    by_cases hr : g.request = none
    · simp only [hr, ne_eq, not_true_eq_false, if_false] at h ⊢
      cases hs : scan_bit arg1 with
      | none => simp [hs, Outcome.error] at h
      | some value =>
        simp only [hs] at h ⊢
        cases h1 : k.settings_new with
        | fail e => simp [h1] at h
        | ok =>
          simp only [h1] at h ⊢
          cases h2 : k.config_new with
          | fail e => simp [h2] at h
          | ok =>
            simp only [h2] at h ⊢
            cases h3 : k.add_line_settings with
            | fail e => simp [h3] at h
            | ok =>
              simp only [h3] at h ⊢
              cases h4 : k.request_config_new with
              | fail e => simp [h4] at h
              | ok => exact ⟨g, rfl, hr, rfl⟩
    · simp [hr, Outcome.error] at h

theorem request_gpio_for_input_ok (k : Gpiod) (gpios : List eris_api_gpio) (name : Bytes)
    (h : (request_gpio_for_input k gpios [name]).sent = [.reply 2 (lit "Ok")]) :
    ∃ g, gpios[find_gpio strcmp name gpios]? = some g ∧ g.request = none ∧
      (request_gpio_for_input k gpios [name]).gpios
        = gpios.set (find_gpio strcmp name gpios)
            { g with request := k.chip_request_lines, output := 0 } := by
  simp only [request_gpio_for_input] at h ⊢
  cases hg : gpios[find_gpio strcmp name gpios]? with
  | none => simp [hg, Outcome.error] at h
  | some g =>
    simp only [hg] at h ⊢
    by_cases hr : g.request = none
    · simp only [hr, ne_eq, not_true_eq_false, if_false] at h ⊢
      cases h1 : k.settings_new with
      | fail e => simp [h1, Outcome.error] at h
      | ok =>
        simp only [h1] at h ⊢
        cases h2 : k.config_new with
        | fail e => simp [h2, Outcome.error] at h
        | ok =>
          simp only [h2] at h ⊢
          cases h3 : k.add_line_settings with
          | fail e => simp [h3] at h
          | ok =>
            simp only [h3] at h ⊢
            cases h4 : k.request_config_new with
            | fail e => simp [h4] at h
            | ok => exact ⟨g, rfl, hr, rfl⟩
    · simp [hr, Outcome.error] at h

theorem request_gpio_line_ok (k : Gpiod) (gpios : List eris_api_gpio) (name : Bytes)
    (out : Bool) (value : Bytes)
    (h : (request_gpio_line k gpios name out value).responses = [send_rest_response (lit "Ok")]) :
    ∃ g r, gpios[find_gpio strcasecmp name gpios]? = some g ∧ g.request = none ∧
      k.chip_request_lines = some r ∧
      (request_gpio_line k gpios name out value).gpios
        = gpios.set (find_gpio strcasecmp name gpios)
            { g with request := some r, output := if out then 1 else 0 } := by
  simp only [request_gpio_line] at h ⊢
  cases hg : gpios[find_gpio strcasecmp name gpios]? with
  | none => simp [hg, RestOutcome.error, send_rest_error, send_rest_response] at h
  | some g =>
    simp only [hg] at h ⊢
    by_cases hr : g.request = none
    · simp only [hr, ne_eq, not_true_eq_false, if_false] at h ⊢
      cases h1 : k.settings_new with
      | fail e => simp [h1, RestOutcome.error, send_rest_error, send_rest_response] at h
      | ok =>
        simp only [h1] at h ⊢
        cases h2 : k.config_new with
        | fail e => simp [h2, RestOutcome.error, send_rest_error, send_rest_response] at h
        | ok =>
          simp only [h2] at h ⊢
          cases h3 : k.add_line_settings with
          | fail e => simp [h3, RestOutcome.error, send_rest_error, send_rest_response] at h
          | ok =>
            simp only [h3] at h ⊢
            cases h4 : k.request_config_new with
            | fail e => simp [h4, RestOutcome.error, send_rest_error, send_rest_response] at h
            | ok =>
              simp only [h4] at h ⊢
              cases h5 : k.chip_request_lines with
              | none => simp [h5, send_rest_error, send_rest_response] at h
              | some r => exact ⟨g, r, rfl, hr, rfl, rfl⟩
    · simp [hr, RestOutcome.error, send_rest_error, send_rest_response] at h

theorem request_gpio_ok (k : Gpiod) (gpios : List eris_api_gpio) (connection : MHD_Connection)
    (h : (request_gpio k gpios connection).responses = [send_rest_response (lit "Ok")]) :
    ∃ name direction g r, connection (lit "name") = some name ∧
      connection (lit "direction") = some direction ∧
      gpios[find_gpio strcasecmp name gpios]? = some g ∧ g.request = none ∧
      k.chip_request_lines = some r ∧
      (request_gpio k gpios connection).gpios
        = gpios.set (find_gpio strcasecmp name gpios)
            { g with request := some r,
                     output := if strncasecmp direction (lit "out") 3 = 0 then 1 else 0 } := by
  simp only [request_gpio] at h ⊢
  cases hn : connection (lit "name") with
  | none => simp [hn, RestOutcome.error, send_rest_error, send_rest_response] at h
  | some name =>
    simp only [hn] at h ⊢
    cases hd : connection (lit "direction") with
    | none => simp [hd, RestOutcome.error, send_rest_error, send_rest_response] at h
    | some direction =>
      simp only [hd] at h ⊢
      by_cases hv : strncasecmp direction (lit "in") 2 ≠ 0 ∧ strncasecmp direction (lit "out") 3 ≠ 0
      · simp [hv, RestOutcome.error, send_rest_error, send_rest_response] at h
      · simp only [if_neg hv] at h ⊢
        cases hval : connection (lit "value") with
        | none =>
          simp only [hval] at h ⊢
          by_cases ho : strncasecmp direction (lit "out") 3 = 0
          · simp [ho, RestOutcome.error, send_rest_error, send_rest_response] at h
          · simp only [if_neg ho] at h ⊢
            obtain ⟨g, r, h1, h2, h3, h4⟩ := request_gpio_line_ok k gpios name false [] h
            exact ⟨name, direction, g, r, rfl, rfl, h1, h2, h3, by simpa [ho] using h4⟩
        | some value =>
          simp only [hval] at h ⊢
          by_cases hb : rd value 0 ≠ 48 ∧ rd value 0 ≠ 49
          · simp [hb, RestOutcome.error, send_rest_error, send_rest_response] at h
          · simp only [if_neg hb] at h ⊢
            obtain ⟨g, r, h1, h2, h3, h4⟩ := request_gpio_line_ok k gpios name _ value h
            refine ⟨name, direction, g, r, rfl, rfl, h1, h2, h3, ?_⟩
            rw [h4]
            by_cases ho : strncasecmp direction (lit "out") 3 = 0 <;> simp [ho]

theorem find_gpio_set (cmp : Bytes → Bytes → Int) (name : Bytes) (gpios : List eris_api_gpio)
    (num : Nat) (g g' : eris_api_gpio) (hg : gpios[num]? = some g) (hn : g'.name = g.name) :
    find_gpio cmp name (gpios.set num g') = find_gpio cmp name gpios :=
  find_gpio_congr cmp name _ _ (map_name_set gpios num g g' hg hn)

theorem lookup_after_set (cmp : Bytes → Bytes → Int) (name : Bytes)
    (gpios : List eris_api_gpio) (g : eris_api_gpio) (req : Option Nat) (out : Int)
    (hg : gpios[find_gpio cmp name gpios]? = some g) :
    (gpios.set (find_gpio cmp name gpios) { g with request := req, output := out })[
        find_gpio cmp name
          (gpios.set (find_gpio cmp name gpios) { g with request := req, output := out })]?
      = some { g with request := req, output := out } := by
  rw [find_gpio_set cmp name gpios (find_gpio cmp name gpios) g
    { g with request := req, output := out } hg rfl]
  exact get?_set_self gpios _ g _ hg

/-! ## Lemmas on granted and stored request handles -/

theorem reserved_set_none (gpios : List eris_api_gpio) (num : Nat) (g g' : eris_api_gpio)
    (hg : gpios[num]? = some g) (h : g.request = none) (h' : g'.request = none) :
    reserved_requests (gpios.set num g') = reserved_requests gpios := by
  induction gpios generalizing num with
  | nil => simp
  | cons a rest ih =>
    cases num with
    | zero =>
      simp at hg
      subst hg
      simp [reserved_requests, List.filterMap_cons, h, h']
    | succ n =>
      simp at hg
      have := ih n hg
      simp only [reserved_requests] at this ⊢
      simp [List.filterMap_cons, this]

theorem reserved_set_some (gpios : List eris_api_gpio) (num : Nat) (g g' : eris_api_gpio)
    (r : Nat) (hg : gpios[num]? = some g) (h : g.request = none) (h' : g'.request = some r) :
    (reserved_requests (gpios.set num g')).Perm (r :: reserved_requests gpios) := by
  induction gpios generalizing num with
  | nil => simp at hg
  | cons a rest ih =>
    cases num with
    | zero =>
      simp at hg
      subst hg
      simp [reserved_requests, List.filterMap_cons, h, h']
    | succ n =>
      simp at hg
      have := ih n hg
      simp only [reserved_requests] at this ⊢
      simp only [List.set_cons_succ, List.filterMap_cons]
      cases a.request with
      | none => exact this
      | some x => exact (List.Perm.cons x this).trans (List.Perm.swap r x _)

theorem reserved_set_release (gpios : List eris_api_gpio) (num : Nat) (g g' : eris_api_gpio)
    (r : Nat) (hg : gpios[num]? = some g) (h : g.request = some r) (h' : g'.request = none) :
    (reserved_requests gpios).Perm (r :: reserved_requests (gpios.set num g')) := by
  induction gpios generalizing num with
  | nil => simp at hg
  | cons a rest ih =>
    cases num with
    | zero =>
      simp at hg
      subst hg
      simp [reserved_requests, List.filterMap_cons, h, h']
    | succ n =>
      simp at hg
      have := ih n hg
      simp only [reserved_requests] at this ⊢
      simp only [List.set_cons_succ, List.filterMap_cons]
      cases a.request with
      | none => exact this
      | some x => exact (List.Perm.cons x this).trans (List.Perm.swap r x _)

theorem live_requests_append (a b : List KCall) (live : List Nat) :
    live_requests (a ++ b) live = live_requests b (live_requests a live) := by
  induction a generalizing live with
  | nil => rfl
  | cons c cs ih =>
    cases c with
    | chip_request_lines chip offset settings result =>
      cases result <;> simp [live_requests, ih]
    | _ => simp [live_requests, ih]

theorem live_wait_edge_loop (evtype : edge_event_type) (r : Nat) (steps : List edge_step)
    (live : List Nat) : live_requests (wait_edge_loop evtype r steps).2.1 live = live := by
  induction steps with
  | nil => simp [wait_edge_loop, live_requests]
  | cons s rest ih =>
    simp only [wait_edge_loop]
    split_ifs
    · simp [live_requests]
    · simp [live_requests]
    · cases s.read with
      | none => simp [live_requests]
      | some events =>
        simp only []
        split_ifs <;> simp [live_requests, ih]

theorem live_rest_wait_edge_loop (evtype : edge_event_type) (r : Nat) (steps : List edge_step)
    (live : List Nat) : live_requests (rest_wait_edge_loop evtype r steps).2.1 live = live := by
  induction steps with
  | nil => simp [rest_wait_edge_loop, live_requests]
  | cons s rest ih =>
    simp only [rest_wait_edge_loop]
    split_ifs
    · simp [live_requests]
    · cases s.read with
      | none => simp [live_requests]
      | some events =>
        simp only []
        split_ifs <;> simp [live_requests, ih]

theorem live_request_gpio_for_input (k : Gpiod) (gpios : List eris_api_gpio)
    (argv : List Bytes) (live : List Nat) (h : live.Perm (reserved_requests gpios)) :
    (live_requests (request_gpio_for_input k gpios argv).calls live).Perm
      (reserved_requests (request_gpio_for_input k gpios argv).gpios) := by
  unfold request_gpio_for_input
  split
  · simpa [Outcome.error, live_requests] using h
  · simpa [Outcome.error, live_requests] using h
  · rename_i name
    simp only []
    cases hg : gpios[find_gpio strcmp name gpios]? with
    | none => simpa [Outcome.error, live_requests] using h
    | some g =>
      simp only []
      by_cases hr : g.request = none
      · simp only [hr, ne_eq, not_true_eq_false, if_false]
        cases k.settings_new with
        | fail e => simpa [Outcome.error, live_requests] using h
        | ok =>
          cases k.config_new with
          | fail e => simpa [Outcome.error, live_requests] using h
          | ok =>
            cases k.add_line_settings with
            | fail e => simpa [Outcome.error, live_requests] using h
            | ok =>
              cases k.request_config_new with
              | fail e => simpa [live_requests] using h
              | ok =>
                simp only []
                cases hk : k.chip_request_lines with
                | none =>
                  simp only [live_requests]
                  rw [reserved_set_none gpios _ g _ hg hr rfl]
                  exact h
                | some r =>
                  simp only [live_requests]
                  exact (List.Perm.cons r h).trans
                    (reserved_set_some gpios _ g _ r hg hr rfl).symm
      · simpa [hr, Outcome.error, live_requests] using h

theorem live_request_gpio_for_output (k : Gpiod) (gpios : List eris_api_gpio)
    (argv : List Bytes) (live : List Nat) (h : live.Perm (reserved_requests gpios)) :
    (live_requests (request_gpio_for_output k gpios argv).calls live).Perm
      (reserved_requests (request_gpio_for_output k gpios argv).gpios) := by
  unfold request_gpio_for_output
  split
  · simpa [Outcome.error, live_requests] using h
  · simpa [Outcome.error, live_requests] using h
  · simpa [Outcome.error, live_requests] using h
  · rename_i name arg1
    simp only []
    cases hg : gpios[find_gpio strcmp name gpios]? with
    | none => simpa [Outcome.error, live_requests] using h
    | some g =>
      simp only []
      by_cases hr : g.request = none
      · simp only [hr, ne_eq, not_true_eq_false, if_false]
        cases scan_bit arg1 with
        | none => simpa [Outcome.error, live_requests] using h
        | some value =>
          cases k.settings_new with
          | fail e => simpa [Outcome.error, live_requests] using h
          | ok =>
            cases k.config_new with
            | fail e => simpa [Outcome.error, live_requests] using h
            | ok =>
              cases k.add_line_settings with
              | fail e => simpa [Outcome.error, live_requests] using h
              | ok =>
                cases k.request_config_new with
                | fail e => simpa [live_requests] using h
                | ok =>
                  simp only []
                  cases hk : k.chip_request_lines with
                  | none =>
                    simp only [live_requests]
                    rw [reserved_set_none gpios _ g _ hg hr rfl]
                    exact h
                  | some r =>
                    simp only [live_requests]
                    exact (List.Perm.cons r h).trans
                      (reserved_set_some gpios _ g _ r hg hr rfl).symm
      · simpa [hr, Outcome.error, live_requests] using h

theorem perm_erase_release (live : List Nat) (gpios : List eris_api_gpio) (num : Nat)
    (g g' : eris_api_gpio) (r : Nat) (h : live.Perm (reserved_requests gpios))
    (hg : gpios[num]? = some g) (hr : g.request = some r) (h' : g'.request = none) :
    (live.erase r).Perm (reserved_requests (gpios.set num g')) := by
  have h1 := (h.trans (reserved_set_release gpios num g g' r hg hr h')).erase r
  simpa using h1

theorem live_release_gpio (gpios : List eris_api_gpio)
    (argv : List Bytes) (live : List Nat) (h : live.Perm (reserved_requests gpios)) :
    (live_requests (release_gpio gpios argv).calls live).Perm
      (reserved_requests (release_gpio gpios argv).gpios) := by
  unfold release_gpio
  split
  · simpa [Outcome.error, live_requests] using h
  · simpa [Outcome.error, live_requests] using h
  · rename_i name
    simp only []
    cases hg : gpios[find_gpio strcmp name gpios]? with
    | none => simpa [Outcome.error, live_requests] using h
    | some g =>
      simp only []
      cases hr : g.request with
      | none => simpa [Outcome.error, live_requests] using h
      | some r =>
        simp only [Outcome.reply, live_requests]
        exact perm_erase_release live gpios _ g _ r h hg hr rfl

theorem live_run_handler (cmds : List (api_command_t Handler)) (k : Gpiod)
    (gpios : List eris_api_gpio) (f : Handler) (argv : List Bytes) (live : List Nat)
    (h : live.Perm (reserved_requests gpios)) :
    (live_requests (run_handler cmds k gpios f argv).calls live).Perm
      (reserved_requests (run_handler cmds k gpios f argv).gpios) := by
  cases f with
  | help_command => simpa [run_handler, help_command, live_requests] using h
  | list_gpio_names =>
    simp only [run_handler, list_gpio_names]
    split_ifs
    · simpa [Outcome.error, live_requests] using h
    · split <;> simpa [Outcome.error, Outcome.reply, live_requests] using h
  | get_gpio_direction =>
    simp only [run_handler, get_gpio_direction]
    split
    · simpa [Outcome.error, live_requests] using h
    · simpa [Outcome.error, live_requests] using h
    · split
      · simpa [Outcome.error, live_requests] using h
      · split
        · simpa [live_requests] using h
        · split_ifs <;> simpa [Outcome.reply, live_requests] using h
  | request_gpio_for_input => exact live_request_gpio_for_input k gpios argv live h
  | request_gpio_for_output => exact live_request_gpio_for_output k gpios argv live h
  | release_gpio => exact live_release_gpio gpios argv live h
  | read_gpio_value =>
    simp only [run_handler, read_gpio_value]
    split
    · simpa [Outcome.error, live_requests] using h
    · simpa [Outcome.error, live_requests] using h
    · split
      · simpa [Outcome.error, live_requests] using h
      · split
        · simpa [Outcome.error, live_requests] using h
        · split_ifs <;> simpa [Outcome.error, Outcome.reply, live_requests] using h
  | write_gpio_value =>
    simp only [run_handler, write_gpio_value]
    split
    · simpa [Outcome.error, live_requests] using h
    · simpa [Outcome.error, live_requests] using h
    · simpa [Outcome.error, live_requests] using h
    · split
      · simpa [Outcome.error, live_requests] using h
      · split
        · simpa [Outcome.error, live_requests] using h
        · split_ifs
          · simpa [Outcome.error, live_requests] using h
          · split <;> simpa [Outcome.error, Outcome.reply, live_requests] using h
  | wait_gpio_edge =>
    simp only [run_handler, wait_gpio_edge]
    split
    · simpa [Outcome.error, live_requests] using h
    · simpa [Outcome.error, live_requests] using h
    · simpa [Outcome.error, live_requests] using h
    · split
      · simpa [Outcome.error, live_requests] using h
      · split
        · simpa [Outcome.error, live_requests] using h
        · split_ifs
          · simpa [Outcome.error, live_requests] using h
          · simpa [live_wait_edge_loop] using h
          · simpa [live_wait_edge_loop] using h
          · simpa [Outcome.error, live_requests] using h
  | get_test_input_gpio =>
    simpa [run_handler, get_test_input_gpio, Outcome.reply, live_requests] using h
  | get_test_output_gpio =>
    simpa [run_handler, get_test_output_gpio, Outcome.reply, live_requests] using h

theorem live_run_session (cmds : List (api_command_t Handler))
    (reqs : List (Gpiod × Handler × List Bytes)) (gpios : List eris_api_gpio)
    (live : List Nat) (h : live.Perm (reserved_requests gpios)) :
    (live_requests (run_session cmds reqs gpios).2 live).Perm
      (reserved_requests (run_session cmds reqs gpios).1) := by
  induction reqs generalizing gpios live with
  | nil => simpa [run_session, live_requests] using h
  | cons q rest ih =>
    obtain ⟨k, f, argv⟩ := q
    simp only [run_session]
    have hstep := live_run_handler cmds k gpios f argv live h
    split_ifs
    · simp only [live_requests_append]
      exact ih _ _ hstep
    · exact hstep

theorem live_request_gpio_line (k : Gpiod) (gpios : List eris_api_gpio) (name : Bytes)
    (out : Bool) (value : Bytes) (live : List Nat) (h : live.Perm (reserved_requests gpios)) :
    (live_requests (request_gpio_line k gpios name out value).calls live).Perm
      (reserved_requests (request_gpio_line k gpios name out value).gpios) := by
  unfold request_gpio_line
  simp only []
  cases hg : gpios[find_gpio strcasecmp name gpios]? with
  | none => simpa [RestOutcome.error, live_requests] using h
  | some g =>
    simp only []
    by_cases hr : g.request = none
    · simp only [hr, ne_eq, not_true_eq_false, if_false]
      cases k.settings_new with
      | fail e => simpa [RestOutcome.error, live_requests] using h
      | ok =>
        cases k.config_new with
        | fail e => simpa [RestOutcome.error, live_requests] using h
        | ok =>
          cases k.add_line_settings with
          | fail e => simpa [RestOutcome.error, live_requests] using h
          | ok =>
            cases k.request_config_new with
            | fail e => simpa [RestOutcome.error, live_requests] using h
            | ok =>
              simp only []
              cases hk : k.chip_request_lines with
              | none =>
                simp only [live_requests]
                rw [reserved_set_none gpios _ g _ hg hr rfl]
                exact h
              | some r =>
                simp only [live_requests]
                exact (List.Perm.cons r h).trans
                  (reserved_set_some gpios _ g _ r hg hr rfl).symm
    · simpa [hr, RestOutcome.error, live_requests] using h

theorem live_request_gpio (k : Gpiod) (gpios : List eris_api_gpio)
    (connection : MHD_Connection) (live : List Nat) (h : live.Perm (reserved_requests gpios)) :
    (live_requests (request_gpio k gpios connection).calls live).Perm
      (reserved_requests (request_gpio k gpios connection).gpios) := by
  unfold request_gpio
  cases connection (lit "name") with
  | none => simpa [RestOutcome.error, live_requests] using h
  | some name =>
    simp only []
    cases connection (lit "direction") with
    | none => simpa [RestOutcome.error, live_requests] using h
    | some direction =>
      simp only []
      by_cases hv : strncasecmp direction (lit "in") 2 ≠ 0
          ∧ strncasecmp direction (lit "out") 3 ≠ 0
      · rw [if_pos hv]
        simpa [RestOutcome.error, live_requests] using h
      · rw [if_neg hv]
        cases connection (lit "value") with
        | none =>
          simp only []
          by_cases ho : strncasecmp direction (lit "out") 3 = 0
          · rw [if_pos ho]
            simpa [RestOutcome.error, live_requests] using h
          · rw [if_neg ho]
            exact live_request_gpio_line k gpios _ _ _ live h
        | some value =>
          simp only []
          by_cases hb : rd value 0 ≠ 48 ∧ rd value 0 ≠ 49
          · rw [if_pos hb]
            simpa [RestOutcome.error, live_requests] using h
          · rw [if_neg hb]
            exact live_request_gpio_line k gpios _ _ _ live h

theorem live_rest_release_gpio (gpios : List eris_api_gpio)
    (connection : MHD_Connection) (live : List Nat) (h : live.Perm (reserved_requests gpios)) :
    (live_requests (rest_release_gpio gpios connection).calls live).Perm
      (reserved_requests (rest_release_gpio gpios connection).gpios) := by
  unfold rest_release_gpio
  split
  · simpa [RestOutcome.error, live_requests] using h
  · rename_i name _
    simp only []
    cases hg : gpios[find_gpio strcasecmp name gpios]? with
    | none => simpa [RestOutcome.error, live_requests] using h
    | some g =>
      simp only []
      cases hr : g.request with
      | none => simpa [RestOutcome.error, live_requests] using h
      | some r =>
        simp only [live_requests]
        exact perm_erase_release live gpios _ g _ r h hg hr rfl

theorem live_gpio_rest_api (k : Gpiod) (gpios : List eris_api_gpio)
    (connection : MHD_Connection) (url method : Bytes) (o : RestOutcome) (live : List Nat)
    (ho : gpio_rest_api k gpios connection url method = some o)
    (h : live.Perm (reserved_requests gpios)) :
    (live_requests o.calls live).Perm (reserved_requests o.gpios) := by
  unfold gpio_rest_api at ho
  split_ifs at ho
  · cases ho
    simp only [list_gpio]
    split <;> simpa [RestOutcome.error, live_requests] using h
  · cases ho
    exact live_request_gpio k gpios connection live h
  · cases ho
    exact live_rest_release_gpio gpios connection live h
  · cases ho
    simp only [get_gpio_value]
    split
    · simpa [RestOutcome.error, live_requests] using h
    · split
      · simpa [RestOutcome.error, live_requests] using h
      · split
        · simpa [RestOutcome.error, live_requests] using h
        · split_ifs <;> simpa [RestOutcome.error, live_requests] using h
  · cases ho
    simp only [set_gpio_value]
    split
    · simpa [RestOutcome.error, live_requests] using h
    · split
      · simpa [RestOutcome.error, live_requests] using h
      · split
        · simpa [RestOutcome.error, live_requests] using h
        · split_ifs
          · simpa [RestOutcome.error, live_requests] using h
          · split <;> simpa [RestOutcome.error, live_requests] using h
  · cases ho
    simp only [rest_wait_gpio_edge]
    split
    · simpa [RestOutcome.error, live_requests] using h
    · split
      · simpa [RestOutcome.error, live_requests] using h
      · split
        · simpa [RestOutcome.error, live_requests] using h
        · split_ifs
          · simpa [RestOutcome.error, live_requests] using h
          · split
            · simpa [RestOutcome.error, live_requests] using h
            · split_ifs
              · simpa [live_rest_wait_edge_loop] using h
              · simpa [live_rest_wait_edge_loop] using h
              · simpa [RestOutcome.error, live_requests] using h

theorem live_run_rest (reqs : List (Gpiod × MHD_Connection × Bytes × Bytes))
    (gpios : List eris_api_gpio) (live : List Nat) (h : live.Perm (reserved_requests gpios)) :
    (live_requests (run_rest reqs gpios).2 live).Perm
      (reserved_requests (run_rest reqs gpios).1) := by
  induction reqs generalizing gpios live with
  | nil => simpa [run_rest, live_requests] using h
  | cons q rest ih =>
    obtain ⟨k, connection, url, method⟩ := q
    simp only [run_rest]
    cases ho : gpio_rest_api k gpios connection url method with
    | none => exact ih _ _ h
    | some o =>
      have hstep := live_gpio_rest_api k gpios connection url method o live ho h
      simp only []
      split_ifs
      · simp only [live_requests_append]
        exact ih _ _ hstep
      · exact hstep

/-! ## Lemmas on the request decoder and on the frames of the handlers -/

theorem scan_ge (p : Nat → Bool) (buffer : Bytes) (lg : Nat) :
    ∀ (fuel pos : Nat), pos ≤ scan p buffer lg fuel pos
  | 0, pos => by simp [scan]
  | fuel + 1, pos => by
    rw [scan]
    split_ifs
    · exact Nat.le_trans (Nat.le_succ pos) (scan_ge p buffer lg fuel (pos + 1))
    · exact Nat.le_refl pos

theorem skip_spaces_ge (buffer : Bytes) (lg pos : Nat) : pos ≤ skip_spaces buffer lg pos :=
  scan_ge _ _ _ _ _

theorem skip_word_ge (buffer : Bytes) (lg pos : Nat) : pos ≤ skip_word buffer lg pos :=
  scan_ge _ _ _ _ _

theorem sscanf_d_nb_pos (s : Bytes) (value : Int) (nb : Nat)
    (h : sscanf_d s = some (value, nb)) : 1 ≤ nb := by
  unfold sscanf_d at h
  simp only [] at h
  split_ifs at h with h0 <;>
    simp only [Option.some.injEq, Prod.mk.injEq] at h <;> omega

/-- The three ways a round of the argument loop can end, with what each entails. -/
theorem parse_arg_cases (alloc : Nat → Bool) (buffer : Bytes) (lg pos argc : Nat) :
    (parse_arg alloc buffer lg pos argc = .stop []
      ∨ parse_arg alloc buffer lg pos argc
          = .stop [.error EPROTO (lit "Argument must be preceded by its length.")])
    ∨ (∃ p len, parse_arg alloc buffer lg pos argc = .overrun p len ∧
        (lg ≤ buffer_size → (2147483648 : Int) ≤ (p : Int) + len))
    ∨ (∃ pos1 arg, parse_arg alloc buffer lg pos argc = .next pos1 arg ∧ pos < pos1) := by
  unfold parse_arg
  by_cases h1 : alloc ((argc + 1) * 4) = false
  · rw [if_pos h1]; exact Or.inl (Or.inl rfl)
  rw [if_neg h1]
  cases hs : sscanf_d (List.drop pos buffer) with
  | none => exact Or.inl (Or.inr rfl)
  | some vn =>
    obtain ⟨len, nb⟩ := vn
    have hnb := sscanf_d_nb_pos _ _ _ hs
    simp only []
    by_cases h2 : alloc ((argc + 1) * 8) = false
    · rw [if_pos h2]; exact Or.inl (Or.inl rfl)
    rw [if_neg h2]
    by_cases h3 : skip_spaces buffer lg (pos + nb) ≥ lg
    · rw [if_pos h3]; exact Or.inl (Or.inl rfl)
    rw [if_neg h3]
    generalize harg : (if len < 0 then
        ((skip_word buffer lg (skip_spaces buffer lg (pos + nb))
          - skip_spaces buffer lg (pos + nb) : Nat) : Int) else len) = arglen
    have hnn : 0 ≤ arglen := by
      rw [← harg]
      split_ifs with hl
      · exact Int.ofNat_nonneg _
      · omega
    by_cases h4 : to_int32 ((skip_spaces buffer lg (pos + nb) : Int) + arglen) ≥ (lg : Int)
    · rw [if_pos h4]; exact Or.inl (Or.inl rfl)
    rw [if_neg h4]
    by_cases h5 : alloc (to_size_t (to_int32 (arglen + 1))) = false
    · rw [if_pos h5]; exact Or.inl (Or.inl rfl)
    rw [if_neg h5]
    by_cases h6 : (skip_spaces buffer lg (pos + nb) : Int) + arglen > (buffer_size : Int)
    · rw [if_pos h6]
      refine Or.inr (Or.inl ⟨_, _, rfl, fun hlg => ?_⟩)
      by_contra hlt
      apply h4
      have hbs : (buffer_size : Int) = 4096 := rfl
      have hlg' : (lg : Int) ≤ 4096 := by
        have : lg ≤ 4096 := hlg
        exact_mod_cast this
      unfold to_int32
      rw [hbs] at h6
      omega
    · rw [if_neg h6]
      refine Or.inr (Or.inr ⟨_, _, rfl, ?_⟩)
      have h7 := skip_spaces_ge buffer lg (pos + nb)
      have h8 := skip_spaces_ge buffer lg
        (skip_spaces buffer lg (pos + nb) + arglen.toNat)
      omega

theorem parse_args_cases (alloc : Nat → Bool) (buffer : Bytes) (lg : Nat) :
    ∀ (fuel pos : Nat) (argv : List Bytes), lg - pos < fuel →
      (∃ argv1, parse_args alloc buffer lg fuel pos argv = .args argv1 []
        ∨ parse_args alloc buffer lg fuel pos argv
            = .args argv1 [.error EPROTO (lit "Argument must be preceded by its length.")])
      ∨ (∃ argv1 p len, parse_args alloc buffer lg fuel pos argv = .overrun argv1 p len ∧
          (lg ≤ buffer_size → (2147483648 : Int) ≤ (p : Int) + len))
  | 0, pos, argv, h => by omega
  | fuel + 1, pos, argv, h => by
    rw [parse_args]
    by_cases h1 : ¬ pos < lg
    · rw [if_pos h1]; exact Or.inl ⟨argv, Or.inl rfl⟩
    rw [if_neg h1]
    rcases parse_arg_cases alloc buffer lg pos argv.length with (hs | hs) | ⟨p, len, hs, hw⟩ |
      ⟨pos1, arg, hs, hgt⟩
    · rw [hs]; exact Or.inl ⟨argv, Or.inl rfl⟩
    · rw [hs]; exact Or.inl ⟨argv, Or.inr rfl⟩
    · rw [hs]; exact Or.inr ⟨argv, p, len, rfl, hw⟩
    · rw [hs]
      exact parse_args_cases alloc buffer lg fuel pos1 (argv ++ [arg]) (by omega)

theorem frames_wait_edge_loop (evtype : edge_event_type) (r : Nat) (steps : List edge_step)
    (hw : ∀ s ∈ steps, s.wait ≠ 0) (hret : (wait_edge_loop evtype r steps).2.2 = true) :
    frames (wait_edge_loop evtype r steps).1 = 1 := by
  induction steps with
  | nil => simp [wait_edge_loop] at hret
  | cons s rest ih =>
    have hs : s.wait ≠ 0 := hw s (by simp)
    have hrest : ∀ s' ∈ rest, s'.wait ≠ 0 := fun s' hs' => hw s' (by simp [hs'])
    simp only [wait_edge_loop, if_neg hs] at hret ⊢
    by_cases hneg : s.wait < 0
    · rw [if_pos hneg]; rfl
    · simp only [if_neg hneg] at hret ⊢
      cases hread : s.read with
      | none => rfl
      | some events =>
        simp only [hread] at hret ⊢
        by_cases he : events.length = 0
        · rw [if_pos he]; rfl
        · simp only [if_neg he] at hret ⊢
          by_cases ha : (events.any fun e => decide (e = evtype)) = true
          · rw [if_pos ha]; rfl
          · simp only [if_neg ha] at hret ⊢
            exact ih hrest hret

theorem frames_error (gpios : List eris_api_gpio) (code : Int) (label : String) :
    frames (Outcome.error gpios code label).sent = 1 := rfl

theorem frames_reply (gpios : List eris_api_gpio) (calls : List KCall) (length : Nat)
    (data : Bytes) : frames (Outcome.reply gpios calls length data).sent = 1 := rfl

theorem frames_run_handler (cmds : List (api_command_t Handler)) (k : Gpiod)
    (gpios : List eris_api_gpio) (f : Handler) (argv : List Bytes)
    (hf : f ≠ .help_command) (hw : ∀ s ∈ k.edge_steps, s.wait ≠ 0)
    (hret : (run_handler cmds k gpios f argv).returned = true) :
    frames (run_handler cmds k gpios f argv).sent = 1 := by
  cases f with
  | help_command => exact absurd rfl hf
  | list_gpio_names =>
    simp only [run_handler, list_gpio_names]
    split_ifs
    · rfl
    · split <;> rfl
  | get_gpio_direction =>
    simp only [run_handler, get_gpio_direction]
    split
    · rfl
    · rfl
    · split
      · rfl
      · split
        · rfl
        · split_ifs <;> rfl
  | request_gpio_for_input =>
    simp only [run_handler, request_gpio_for_input]
    split
    · rfl
    · rfl
    · split
      · rfl
      · split_ifs
        · rfl
        · split
          · rfl
          · split
            · rfl
            · split
              · rfl
              · split <;> rfl
  | request_gpio_for_output =>
    simp only [run_handler, request_gpio_for_output]
    split
    · rfl
    · rfl
    · rfl
    · split
      · rfl
      · split_ifs
        · rfl
        · split
          · rfl
          · split
            · rfl
            · split
              · rfl
              · split
                · rfl
                · split <;> rfl
  | release_gpio =>
    simp only [run_handler, release_gpio]
    split
    · rfl
    · rfl
    · split
      · rfl
      · split <;> rfl
  | read_gpio_value =>
    simp only [run_handler, read_gpio_value]
    split
    · rfl
    · rfl
    · split
      · rfl
      · split
        · rfl
        · split_ifs <;> rfl
  | write_gpio_value =>
    simp only [run_handler, write_gpio_value]
    split
    · rfl
    · rfl
    · rfl
    · split
      · rfl
      · split
        · rfl
        · split_ifs
          · rfl
          · split <;> rfl
  | wait_gpio_edge =>
    simp only [run_handler, wait_gpio_edge] at hret ⊢
    split
    · rfl
    · rfl
    · rfl
    · rename_i name arg1
      simp only [] at hret
      cases hg : gpios[find_gpio strcmp name gpios]? with
      | none => rfl
      | some g =>
        simp only [hg] at hret ⊢
        cases hr : g.request with
        | none => rfl
        | some r =>
          simp only [hr] at hret ⊢
          by_cases ho : g.output ≠ 0
          · rw [if_pos ho]; rfl
          · rw [if_neg ho] at hret ⊢
            by_cases h1 : strncasecmp arg1 (lit "ris") 3 = 0
            · rw [if_pos h1] at hret ⊢
              exact frames_wait_edge_loop _ _ _ hw hret
            · rw [if_neg h1] at hret ⊢
              by_cases h2 : strncasecmp arg1 (lit "fal") 3 = 0
              · rw [if_pos h2] at hret ⊢
                exact frames_wait_edge_loop _ _ _ hw hret
              · rw [if_neg h2]; rfl
  | get_test_input_gpio => rfl
  | get_test_output_gpio => rfl

theorem decode_cases (alloc : Nat → Bool) (buffer : Bytes) (lg : Nat) :
    (∃ sent, decode alloc buffer lg = .close sent)
    ∨ (∃ e, decode alloc buffer lg = .refused [e] ∧ e.is_frame = true)
    ∨ (∃ command argv, decode alloc buffer lg = .request command argv []
        ∨ decode alloc buffer lg = .request command argv
            [.error EPROTO (lit "Argument must be preceded by its length.")])
    ∨ (∃ command argv p len, decode alloc buffer lg = .overrun command argv p len ∧
        (lg ≤ buffer_size → (2147483648 : Int) ≤ (p : Int) + len)) := by
  unfold decode
  by_cases h0 : lg = 0
  · rw [if_pos h0]; exact Or.inl ⟨_, rfl⟩
  rw [if_neg h0]
  by_cases h1 : strncasecmp buffer (lit "BYE") (strlen (lit "BYE")) = 0
        ∨ strncasecmp buffer (lit "QUIT") (strlen (lit "QUIT")) = 0
  · rw [if_pos h1]; exact Or.inl ⟨_, rfl⟩
  rw [if_neg h1]
  by_cases h2 : lg ≤ 4 ∨ strncasecmp buffer (lit "REQ ") (strlen (lit "REQ ")) ≠ 0
  · rw [if_pos h2]; exact Or.inr (Or.inl ⟨_, rfl, rfl⟩)
  rw [if_neg h2]
  simp only []
  by_cases h3 : skip_spaces buffer lg (0 + strlen (lit "REQ ")) = lg
  · rw [if_pos h3]; exact Or.inr (Or.inl ⟨_, rfl, rfl⟩)
  rw [if_neg h3]
  by_cases h4 : skip_word buffer lg (skip_spaces buffer lg (0 + strlen (lit "REQ ")))
      = skip_spaces buffer lg (0 + strlen (lit "REQ "))
  · rw [if_pos h4]; exact Or.inr (Or.inl ⟨_, rfl, rfl⟩)
  rw [if_neg h4]
  split_ifs with h5
  · exact Or.inl ⟨_, rfl⟩
  · generalize hpos : skip_spaces buffer lg
      (skip_word buffer lg (skip_spaces buffer lg (0 + strlen (lit "REQ ")))) = pos
    rcases parse_args_cases alloc buffer lg (lg - pos + 1) pos [] (by omega) with
      ⟨argv, ha | ha⟩ | ⟨argv, p, len, ha, hw⟩
    · rw [ha]; exact Or.inr (Or.inr (Or.inl ⟨_, argv, Or.inl rfl⟩))
    · rw [ha]; exact Or.inr (Or.inr (Or.inl ⟨_, argv, Or.inr rfl⟩))
    · rw [ha]; exact Or.inr (Or.inr (Or.inr ⟨_, argv, p, len, rfl, hw⟩))

theorem frames_help_row (c : api_command_t Handler) : frames (help_row c) = 0 := by
  unfold help_row
  cases c.help with
  | none => rfl
  | some help =>
    cases c.command <;> cases c.abbreviation <;> rfl

theorem frames_append (a b : List Sent) : frames (a ++ b) = frames a + frames b := by
  simp [frames]

theorem frames_help_command (cmds : List (api_command_t Handler)) (gpios : List eris_api_gpio) :
    frames (help_command cmds gpios).sent = 0 := by
  unfold help_command
  simp only []
  induction cmds with
  | nil => rfl
  | cons c rest ih =>
    rw [List.map_cons, List.flatten_cons, frames_append, frames_help_row, ih]

/-! ## Lemmas on granted requests and releases -/

theorem request_gpio_for_input_granted (k : Gpiod) (gpios : List eris_api_gpio)
    (name : Bytes) (g : eris_api_gpio) (r : Nat)
    (hg : gpios[find_gpio strcmp name gpios]? = some g) (hfree : g.request = none)
    (hk : grants k r) :
    request_gpio_for_input k gpios [name]
      = { gpios := gpios.set (find_gpio strcmp name gpios)
            { g with request := some r, output := 0 },
          sent := [.reply 2 (lit "Ok")],
          calls := [.chip_request_lines g.chip g.offset input_settings (some r)],
          returned := true } := by
  obtain ⟨h1, h2, h3, h4, h5⟩ := hk
  simp [request_gpio_for_input, hg, hfree, h1, h2, h3, h4, h5]

theorem release_gpio_reserved (gpios : List eris_api_gpio) (name : Bytes)
    (g : eris_api_gpio) (r : Nat)
    (hg : gpios[find_gpio strcmp name gpios]? = some g) (hr : g.request = some r) :
    release_gpio gpios [name]
      = .reply (gpios.set (find_gpio strcmp name gpios) { g with request := none })
          [.line_request_release r] 2 (lit "Ok") := by
  simp [release_gpio, hg, hr]

theorem request_gpio_line_granted (k : Gpiod) (gpios : List eris_api_gpio)
    (name : Bytes) (out : Bool) (value : Bytes) (g : eris_api_gpio) (r : Nat)
    (hg : gpios[find_gpio strcasecmp name gpios]? = some g) (hfree : g.request = none)
    (hk : grants k r) :
    request_gpio_line k gpios name out value
      = { gpios := gpios.set (find_gpio strcasecmp name gpios)
            { g with request := some r, output := if out then 1 else 0 },
          responses := [send_rest_response (lit "Ok")],
          calls := [.chip_request_lines g.chip g.offset (rest_settings out value) (some r)],
          returned := true } := by
  obtain ⟨h1, h2, h3, h4, h5⟩ := hk
  simp [request_gpio_line, hg, hfree, h1, h2, h3, h4, h5]

theorem request_gpio_input_granted (k : Gpiod) (gpios : List eris_api_gpio)
    (connection : MHD_Connection) (name : Bytes) (g : eris_api_gpio) (r : Nat)
    (hc : rest_request_input connection name)
    (hg : gpios[find_gpio strcasecmp name gpios]? = some g) (hfree : g.request = none)
    (hk : grants k r) :
    (request_gpio k gpios connection).gpios
        = gpios.set (find_gpio strcasecmp name gpios) { g with request := some r, output := 0 }
      ∧ (request_gpio k gpios connection).responses = [send_rest_response (lit "Ok")] := by
  obtain ⟨hname, direction, hdir, hin, hout, hval⟩ := hc
  unfold request_gpio
  simp only [hname, hdir]
  have hnot : ¬ (strncasecmp direction (lit "in") 2 ≠ 0
      ∧ strncasecmp direction (lit "out") 3 ≠ 0) := fun h => h.1 hin
  rw [if_neg hnot]
  cases hv : connection (lit "value") with
  | none =>
    simp only [if_neg hout]
    rw [request_gpio_line_granted k gpios name false [] g r hg hfree hk]
    simp
  | some value =>
    rw [hv] at hval
    simp only [] at hval
    have hnv : ¬ (rd value 0 ≠ 48 ∧ rd value 0 ≠ 49) := by
      rintro ⟨h1, h2⟩
      rcases hval with h3 | h3
      · exact h1 h3
      · exact h2 h3
    simp only [if_neg hnv]
    rw [request_gpio_line_granted k gpios name _ value g r hg hfree hk]
    simp [hout]

theorem rest_release_gpio_reserved (gpios : List eris_api_gpio) (connection : MHD_Connection)
    (name : Bytes) (g : eris_api_gpio) (r : Nat) (hname : connection (lit "name") = some name)
    (hg : gpios[find_gpio strcasecmp name gpios]? = some g) (hr : g.request = some r) :
    rest_release_gpio gpios connection
      = { gpios := gpios.set (find_gpio strcasecmp name gpios) { g with request := none },
          responses := [send_rest_response (lit "Ok")],
          calls := [.line_request_release r], returned := true } := by
  simp [rest_release_gpio, hname, hg, hr]

/-! ## Lemma on `strncasecmp` against a word -/

theorem strncasecmp_eq_zero (w : Bytes) (hw : ∀ c ∈ w, c ≠ 0) :
    ∀ a : Bytes, strncasecmp a w w.length = 0 ↔ begins_with a w := by
  unfold begins_with
  induction w with
  | nil => intro a; simp [strncasecmp]
  | cons y ys ih =>
    intro a
    have hy : y ≠ 0 := hw y (by simp)
    have hty : tolower y ≠ 0 := fun h => hy ((tolower_eq_zero y).1 h)
    have hys : ∀ c ∈ ys, c ≠ 0 := fun c hc => hw c (by simp [hc])
    cases a with
    | nil =>
      simp only [List.length_cons, strncasecmp, List.take_nil, List.map_nil, List.map_cons]
      constructor
      · intro h; omega
      · intro h; exact absurd h (by simp)
    | cons x xs =>
      simp only [List.length_cons, strncasecmp, List.take_succ_cons, List.map_cons,
        List.cons.injEq]
      by_cases hxy : tolower x = tolower y
      · have hx : x ≠ 0 := by
          intro h; subst h
          exact hty (by rw [← hxy]; rfl)
        simp only [hxy, ne_eq, not_true_eq_false, if_false, hx, true_and]
        exact ih hys xs
      · simp only [ne_eq, hxy, not_false_eq_true, if_true, false_and, iff_false]
        omega

/-! ## Dispatch: first match wins -/

theorem call_command_cons_skip {H : Type} (e : api_command_t H) (rest : List (api_command_t H))
    (c : Bytes) (argv : List Bytes) (h : ¬ entry_matches c e) :
    call_command (e :: rest) c argv = call_command rest c argv := by
  rw [call_command]
  cases hf : e.function with
  | none => rfl
  | some f =>
    have hn : ∀ n, e.command = some n → ¬ strcasecmp c n = 0 := by
      intro n hn h0
      exact h ⟨by simp [hf], Or.inl ⟨n, hn, (strcasecmp_eq_zero c n).1 h0⟩⟩
    have ha : ∀ a, e.abbreviation = some a → ¬ strcasecmp c a = 0 := by
      intro a ha h0
      exact h ⟨by simp [hf], Or.inr ⟨a, ha, (strcasecmp_eq_zero c a).1 h0⟩⟩
    cases hc : e.command with
    | none =>
      cases hab : e.abbreviation with
      | none => simp
      | some a => simp [ha a hab]
    | some n =>
      cases hab : e.abbreviation with
      | none => simp [hn n hc]
      | some a => simp [hn n hc, ha a hab]

theorem call_command_cons_hit {H : Type} (e : api_command_t H) (rest : List (api_command_t H))
    (c : Bytes) (argv : List Bytes) (h : entry_matches c e) :
    ∃ f, e.function = some f ∧ call_command (e :: rest) c argv = .call f argv := by
  obtain ⟨hf, hm⟩ := h
  cases hfe : e.function with
  | none => exact absurd hfe hf
  | some f =>
    refine ⟨f, rfl, ?_⟩
    rw [call_command]
    simp only [hfe]
    rcases hm with ⟨n, hn, hcn⟩ | ⟨a, ha, hca⟩
    · have h0 : strcasecmp c n = 0 := (strcasecmp_eq_zero c n).2 hcn
      simp [hn, h0]
    · have h0 : strcasecmp c a = 0 := (strcasecmp_eq_zero c a).2 hca
      simp only [ha, h0, decide_True, if_true]
      split_ifs <;> rfl

/-- C1. For every registry, command string and argument list, `call_command` calls the
handler of the first entry, in registration order, whose handler is non-null and
whose name or abbreviation equals the command ignoring ASCII case (so the earliest
of duplicate registrations wins), and nothing else; when no entry matches it calls
no handler and sends the single error `ENOSYS` "Unknown command.". -/
theorem call_command_first_match {H : Type} (cmds : List (api_command_t H)) (c : Bytes)
    (argv : List Bytes) :
    (∀ (i : Nat) (hi : i < cmds.length),
        entry_matches c (cmds.get ⟨i, hi⟩) →
        (∀ (j : Nat) (hj : j < cmds.length), j < i → ¬ entry_matches c (cmds.get ⟨j, hj⟩)) →
        ∃ f, (cmds.get ⟨i, hi⟩).function = some f ∧ call_command cmds c argv = .call f argv)
    ∧ ((∀ e ∈ cmds, ¬ entry_matches c e) →
        call_command cmds c argv = .send_error ENOSYS (lit "Unknown command.")) := by
  induction cmds with
  | nil =>
    refine ⟨fun i hi => absurd hi (by simp), fun _ => rfl⟩
  | cons e rest ih =>
    refine ⟨?_, ?_⟩
    · intro i hi hm hfirst
      cases i with
      | zero => exact call_command_cons_hit e rest c argv hm
      | succ k =>
        have he : ¬ entry_matches c e := hfirst 0 (by simp) (by omega)
        rw [call_command_cons_skip e rest c argv he]
        have hk : k < rest.length := by simpa using hi
        refine ih.1 k hk hm ?_
        intro j hj hjk
        exact hfirst (j + 1) (by simpa using hj) (by omega)
    · intro hall
      rw [call_command_cons_skip e rest c argv (hall e (by simp))]
      exact ih.2 (fun e' he' => hall e' (by simp [he']))

/-- C1 (instance). In a registry holding `help` twice and a third entry abbreviated
`LS`, the command `HELP` calls the handler registered first, `ls` calls the third
entry through its abbreviation, and `nope` is answered with `ENOSYS`. -/
theorem call_command_first_match_witness :
    call_command sample_registry (lit "HELP") [lit "x"] = .call 1 [lit "x"]
    ∧ call_command sample_registry (lit "ls") [] = .call 3 []
    ∧ call_command sample_registry (lit "nope") []
        = .send_error ENOSYS (lit "Unknown command.") := by
  have h := call_command_first_match sample_registry
  refine ⟨?_, ?_, ?_⟩
  · obtain ⟨f, hf, hcall⟩ := (h (lit "HELP") [lit "x"]).1 0 (by decide)
      ⟨by decide, Or.inl ⟨lit "help", rfl, by unfold eq_ignoring_case; decide⟩⟩
      (fun j hj hlt => absurd hlt (by omega))
    cases hf
    exact hcall
  · obtain ⟨f, hf, hcall⟩ := (h (lit "ls") []).1 2 (by decide)
      ⟨by decide, Or.inr ⟨lit "LS", rfl, by unfold eq_ignoring_case; decide⟩⟩
      (fun j hj hlt => by
        have hj2 : j = 0 ∨ j = 1 := by omega
        rcases hj2 with rfl | rfl
        · rintro ⟨_, ⟨n, hn, hc⟩ | ⟨a, ha, hc⟩⟩
          · cases hn
            revert hc; unfold eq_ignoring_case; decide
          · cases ha
        · rintro ⟨_, ⟨n, hn, hc⟩ | ⟨a, ha, hc⟩⟩
          · cases hn
            revert hc; unfold eq_ignoring_case; decide
          · cases ha)
    cases hf
    exact hcall
  · refine (h (lit "nope") []).2 ?_
    intro e he
    simp only [sample_registry, register_api_command, List.nil_append, List.cons_append,
      List.mem_cons, List.mem_singleton, List.not_mem_nil, or_false] at he
    rcases he with rfl | rfl | rfl <;>
      rintro ⟨_, ⟨n, hn, hc⟩ | ⟨a, ha, hc⟩⟩ <;>
      first
        | (cases hn; revert hc; unfold eq_ignoring_case; decide)
        | (cases ha; revert hc; unfold eq_ignoring_case; decide)
        | cases ha

/-! ## Frame decoding on concrete requests -/

/-- C2 (failing input). The 17 received bytes `REQ rgpi 6 GPIO17` declare a 6-byte
argument and hold exactly those 6 bytes after the prefix, ending at the end of the
received data: the decoder reaches `call_command` with no argument at all and sends
nothing.  The same request followed by one more byte delivers the argument. -/
theorem decode_positive_length_at_buffer_end :
    decode alloc_ok (lit "REQ rgpi 6 GPIO17") 17 = .request (lit "rgpi") [] []
    ∧ decode alloc_ok (lit "REQ rgpi 6 GPIO17\n") 18
        = .request (lit "rgpi") [lit "GPIO17"] [] := by
  decide

/-- C3 (failing input). In the 18 received bytes `REQ rgpi -1 GPIO17` the length prefix
is negative and the run of non-blank bytes after it ends at the end of the received
data: no argument is delivered.  When a blank follows the run, the run is delivered. -/
theorem decode_negative_length_at_buffer_end :
    decode alloc_ok (lit "REQ rgpi -1 GPIO17") 18 = .request (lit "rgpi") [] []
    ∧ decode alloc_ok (lit "REQ rgpi -1 GPIO17\n") 19
        = .request (lit "rgpi") [lit "GPIO17"] [] := by
  decide

/-- C4 (counterexample). Decoding `REQ echo -1 hello world` does not give the
argument list [hello, world], whatever is sent meanwhile. -/
theorem decode_echo_hello_world_not_two_arguments :
    ¬ ∃ sent, decode alloc_ok (lit "REQ echo -1 hello world") 23
        = .request (lit "echo") [lit "hello", lit "world"] sent := by
  intro ⟨sent, h⟩
  have h2 : decode alloc_ok (lit "REQ echo -1 hello world") 23
      = .request (lit "echo") [lit "hello"]
          [.error EPROTO (lit "Argument must be preceded by its length.")] := by decide
  rw [h2] at h
  injection h with _ hargs _
  exact absurd hargs (by decide)

/-- C4 (amended). Decoding `REQ echo -1 hello world` yields the command name `echo` and
the single argument `hello`, found by the automatic length; `world` has no length
prefix, so it is not an argument: the protocol error "Argument must be preceded by
its length." is sent and the argument list stays [hello]. -/
theorem decode_echo_hello_world :
    decode alloc_ok (lit "REQ echo -1 hello world") 23
      = .request (lit "echo") [lit "hello"]
          [.error EPROTO (lit "Argument must be preceded by its length.")] := by
  decide

/-! ## Lemmas on the frames that reach the socket -/

theorem send_error_alloc_fails (code : Int) (label : Bytes) :
    send_error_alloc false code label = [] := by
  simp [send_error_alloc, addsnprintf, memcpy_from]

theorem send_error_alloc_ne_nil (code : Int) (label : Bytes) :
    send_error_alloc true code label ≠ [] := by
  intro h
  have hl := congrArg List.length h
  simp [send_error_alloc, addsnprintf, memcpy_from] at hl

theorem send_reply_ne_nil (length : Nat) (data : Bytes) : send_reply length data ≠ [] := by
  unfold send_reply
  by_cases h : length = 0
  · rw [if_pos h]
    decide
  · rw [if_neg h]
    have hn : memcpy_from (lit "\n") 0 1 = [10] := by decide
    simp only [hn]
    simp

theorem frames_on_socket_le (realloc_ok : Bool) (sent : List Sent) :
    frames_on_socket realloc_ok sent ≤ frames sent :=
  List.length_filter_le _ _

theorem frames_on_socket_one (sent : List Sent) (h : frames sent = 1) :
    frames_on_socket true sent = 1
    ∧ ((∃ length data, Sent.reply length data ∈ sent) → frames_on_socket false sent = 1)
    ∧ ((∃ code label, Sent.error code label ∈ sent) → frames_on_socket false sent = 0) := by
  obtain ⟨s, hs⟩ := List.length_eq_one.1 h
  have hmem : ∀ x, x ∈ sent → Sent.is_frame x = true → x = s := by
    intro x hx hf
    have : x ∈ sent.filter Sent.is_frame := List.mem_filter.2 ⟨hx, hf⟩
    rw [hs] at this
    simpa using this
  have hsf : Sent.is_frame s = true := by
    have : s ∈ sent.filter Sent.is_frame := by rw [hs]; simp
    exact (List.mem_filter.1 this).2
  unfold frames_on_socket
  rw [hs]
  cases s with
  | reply length data =>
    refine ⟨?_, fun _ => ?_, ?_⟩
    · simp [Sent.written, send_reply_ne_nil]
    · simp [Sent.written, send_reply_ne_nil]
    · rintro ⟨code, label, hm⟩
      exact absurd (hmem _ hm rfl) (by simp)
  | error code label =>
    refine ⟨?_, ?_, fun _ => ?_⟩
    · simp [Sent.written, send_error_alloc_ne_nil]
    · rintro ⟨length, data, hm⟩
      exact absurd (hmem _ hm rfl) (by simp)
    · simp [Sent.written, send_error_alloc_fails]
  | raw bytes => exact absurd hsf (by simp [Sent.is_frame])

/-! ## One frame for each request -/

/-- C5 (counterexample). With every allocation succeeding and the sample kernel: the
buffer `REQ list-gpio-names x` is answered with two frames (the protocol error for
`x`, then the reply of the handler, which is called all the same); the buffer
`REQ help` is answered with no frame at all (bare writes); and wait-gpio-edge on the
reserved input line `GPIO17`, when the kernel wait returns 0, is answered with no
frame.  Each time the server goes on to read the next request. -/
theorem serve_not_one_frame :
    (∃ r, serve Api_commands alloc_ok sample_kernel sample_gpios
        (lit "REQ list-gpio-names x") 21 = some r ∧ r.reads_next = true ∧ frames r.sent = 2)
    ∧ (∃ r, serve Api_commands alloc_ok sample_kernel sample_gpios
        (lit "REQ help\n") 9 = some r ∧ r.reads_next = true ∧ frames r.sent = 0)
    ∧ (∃ r, serve Api_commands alloc_ok
        { sample_kernel with edge_steps := [{ wait := 0, read := none, errno := 0 }] }
        sample_reserved (lit "REQ wgpe 6 GPIO17 6 rising\n") 27 = some r
        ∧ r.reads_next = true ∧ frames r.sent = 0) := by
  refine ⟨⟨_, rfl, ?_, ?_⟩, ⟨_, rfl, ?_, ?_⟩, ⟨_, rfl, ?_, ?_⟩⟩ <;> decide

/-- C5 (amended). For every received buffer, every table, every outcome of the
allocations of the decoder and of the libgpiod calls: either the decoder starts a copy
past the end of the buffer array (only with a declared length that makes `pos + len`
reach 2^31), or the round ends, and if the server then goes on to read the next
request and no argument lacked a readable length prefix, it has made no call of
`send_reply` or `send_error` when the request is dispatched to `help_command` (which
writes an unframed listing), and exactly one such call in every other case (protocol
error, unknown command, any GPIO handler), provided no edge wait returned 0.  That
call puts exactly one frame on the socket when the allocation inside `send_error`
succeeds; when it fails, a reply is still written as one frame and an error is not
written at all. -/
theorem serve_one_frame (cmds : List (api_command_t Handler)) (alloc : Nat → Bool)
    (k : Gpiod) (gpios : List eris_api_gpio) (buffer : Bytes) (lg : Nat) :
    (∃ command argv pos len, decode alloc buffer lg = .overrun command argv pos len ∧
        (lg ≤ buffer_size → (2147483648 : Int) ≤ (pos : Int) + len))
    ∨ ∃ r, serve cmds alloc k gpios buffer lg = some r ∧
        (r.reads_next = true → ¬ prefix_error alloc buffer lg →
          (dispatched cmds alloc buffer lg = some .help_command → frames r.sent = 0)
          ∧ (dispatched cmds alloc buffer lg ≠ some .help_command →
              (∀ s ∈ k.edge_steps, s.wait ≠ 0) →
              frames r.sent = 1
              ∧ frames_on_socket true r.sent = 1
              ∧ ((∃ length data, Sent.reply length data ∈ r.sent) →
                  frames_on_socket false r.sent = 1)
              ∧ ((∃ code label, Sent.error code label ∈ r.sent) →
                  frames_on_socket false r.sent = 0))) := by
  rcases decode_cases alloc buffer lg with ⟨sent, hd⟩ | ⟨e, hd, he⟩ |
    ⟨command, argv, hd | hd⟩ | hover
  · refine Or.inr ⟨_, by simp only [serve, hd]; rfl, ?_⟩
    intro h
    simp at h
  · refine Or.inr ⟨_, by simp only [serve, hd]; rfl, ?_⟩
    intro _ _
    refine ⟨fun h => ?_, fun _ _ => ?_⟩
    · simp [dispatched, hd] at h
    · have h1 : frames [e] = 1 := by simp [frames, he]
      exact ⟨h1, frames_on_socket_one _ h1⟩
  · cases hc : call_command cmds command argv with
    | send_error code label =>
      refine Or.inr ⟨_, by simp only [serve, hd, hc]; rfl, ?_⟩
      intro _ _
      refine ⟨fun h => ?_, fun _ _ => ?_⟩
      · simp [dispatched, hd, hc] at h
      · have h1 : frames ([] ++ [Sent.error code label]) = 1 := rfl
        exact ⟨h1, frames_on_socket_one _ h1⟩
    | call f argv1 =>
      refine Or.inr ⟨_, by simp only [serve, hd, hc]; rfl, ?_⟩
      intro hnext _
      simp only [] at hnext
      have hdis : dispatched cmds alloc buffer lg = some f := by
        simp [dispatched, hd, hc]
      rw [hdis]
      refine ⟨fun h => ?_, fun h hw => ?_⟩
      · simp only [Option.some.injEq] at h
        subst h
        simp only [List.nil_append, run_handler]
        exact frames_help_command cmds gpios
      · have hf : f ≠ .help_command := fun hf => h (by rw [hf])
        simp only [List.nil_append]
        have h1 := frames_run_handler cmds k gpios f argv1 hf hw hnext
        exact ⟨h1, frames_on_socket_one _ h1⟩
  · cases hc : call_command cmds command argv with
    | send_error code label =>
      refine Or.inr ⟨_, by simp only [serve, hd, hc]; rfl, ?_⟩
      intro _ hp
      exact absurd ⟨command, argv, hd⟩ hp
    | call f argv1 =>
      refine Or.inr ⟨_, by simp only [serve, hd, hc]; rfl, ?_⟩
      intro _ hp
      exact absurd ⟨command, argv, hd⟩ hp
  · exact Or.inl hover

/-- C5 (instance). The request `REQ rgpi 6 GPIO17` followed by a newline, on the sample
table with the sample kernel, is answered with exactly one call, which puts one frame
on the socket. -/
theorem serve_one_frame_witness :
    ∃ r, serve Api_commands alloc_ok sample_kernel sample_gpios
        (lit "REQ rgpi 6 GPIO17\n") 18 = some r ∧ frames r.sent = 1
        ∧ frames_on_socket true r.sent = 1 := by
  rcases serve_one_frame Api_commands alloc_ok sample_kernel sample_gpios
      (lit "REQ rgpi 6 GPIO17\n") 18 with ⟨c, a, p, l, h, _⟩ | ⟨r, hr, h⟩
  · have hd : decode alloc_ok (lit "REQ rgpi 6 GPIO17\n") 18
        = .request (lit "rgpi") [lit "GPIO17"] [] := by decide
    rw [hd] at h
    exact Decoded.noConfusion h
  · refine ⟨r, hr, ?_⟩
    have hs : serve Api_commands alloc_ok sample_kernel sample_gpios
        (lit "REQ rgpi 6 GPIO17\n") 18
        = some { gpios := (request_gpio_for_input sample_kernel sample_gpios
                    [lit "GPIO17"]).gpios,
                 sent := [.reply 2 (lit "Ok")],
                 calls := (request_gpio_for_input sample_kernel sample_gpios
                    [lit "GPIO17"]).calls,
                 reads_next := true } := by decide
    rw [hs] at hr
    cases hr
    have h2 := (h rfl ?_).2 (by decide) (by decide)
    · exact ⟨h2.1, h2.2.1⟩
    · rintro ⟨c, a, hp⟩
      have hd : decode alloc_ok (lit "REQ rgpi 6 GPIO17\n") 18
          = .request (lit "rgpi") [lit "GPIO17"] [] := by decide
      rw [hd] at hp
      injection hp with _ _ h3
      exact absurd h3 (by decide)

/-! ## GPIO manager: exclusive reservation -/

/-- C6 (failing input). The kernel refuses the line request for `GPIO17`, which is in the
table and not reserved.  The TCP server answers request-input and request-output with
the success reply `Ok` (not with `EBUSY`) and overwrites the direction flag of the
row; the REST server answers the same refusal with status 403 and leaves the table
as it was. -/
theorem tcp_kernel_refusal_replies_ok :
    (request_gpio_for_input refusing_kernel sample_gpios [lit "GPIO17"]).sent
      = [.reply 2 (lit "Ok")]
    ∧ (request_gpio_for_input refusing_kernel sample_gpios [lit "GPIO17"]).gpios
      = [{ name := lit "GPIO17", offset := 17, chip := 0, request := none, output := 0 },
         { name := lit "GPIO18", offset := 18, chip := 0, request := none, output := -1 }]
    ∧ (request_gpio_for_output refusing_kernel sample_gpios [lit "GPIO17", lit "1"]).sent
      = [.reply 2 (lit "Ok")]
    ∧ (request_gpio_for_output refusing_kernel sample_gpios [lit "GPIO17", lit "1"]).gpios
      = [{ name := lit "GPIO17", offset := 17, chip := 0, request := none, output := 1 },
         { name := lit "GPIO18", offset := 18, chip := 0, request := none, output := -1 }]
    ∧ (request_gpio refusing_kernel sample_gpios
        (sample_query (some (lit "GPIO17")) (some (lit "in")) none none)).responses
      = [send_rest_error "The GPIO is already reserved by another application." 403]
    ∧ (request_gpio refusing_kernel sample_gpios
        (sample_query (some (lit "GPIO17")) (some (lit "in")) none none)).gpios
      = sample_gpios := by
  decide

/-- C7. A request-input or request-output naming a line that already holds a
reservation fails with the already-reserved error, makes no libgpiod call and leaves
the table as it was: `EBUSY` in the TCP server (whatever the value argument), status
403 in the REST server (for a well-formed request).  Hence, in both servers, from a
table without reservation and after any sequence of requests met by any kernel
outcomes, the request handles the kernel granted and has not seen released are
exactly the handles stored in the rows, each counted once: no row ever received a
second handle while it held one. -/
theorem reserved_line_guard (k : Gpiod) (gpios : List eris_api_gpio) (name arg1 : Bytes)
    (connection : MHD_Connection) (g : eris_api_gpio) (hheld : g.request ≠ none) :
    (addressed strcmp name gpios = some g →
      request_gpio_for_input k gpios [name]
        = .error gpios EBUSY "The GPIO line is already reserved."
      ∧ request_gpio_for_output k gpios [name, arg1]
        = .error gpios EBUSY "The GPIO line is already reserved.")
    ∧ (addressed strcasecmp name gpios = some g → connection (lit "name") = some name →
      rest_request_well_formed connection →
      request_gpio k gpios connection
        = .error gpios "GPIO line is already reserved by Eris API." 403)
    ∧ (∀ (cmds : List (api_command_t Handler)) (reqs : List (Gpiod × Handler × List Bytes))
        (gpios0 : List eris_api_gpio), reserved_requests gpios0 = [] →
        (live_requests (run_session cmds reqs gpios0).2 []).Perm
          (reserved_requests (run_session cmds reqs gpios0).1))
    ∧ (∀ (reqs : List (Gpiod × MHD_Connection × Bytes × Bytes))
        (gpios0 : List eris_api_gpio), reserved_requests gpios0 = [] →
        (live_requests (run_rest reqs gpios0).2 []).Perm
          (reserved_requests (run_rest reqs gpios0).1)) := by
  unfold addressed
  refine ⟨fun h => ?_, fun h hname hwf => ?_, fun cmds reqs gpios0 h0 => ?_,
    fun reqs gpios0 h0 => ?_⟩
  · simp [request_gpio_for_input, request_gpio_for_output, h, hheld]
  · obtain ⟨direction, hdir, hvalid, hvalue⟩ := hwf
    have hline : ∀ out value, request_gpio_line k gpios name out value
        = .error gpios "GPIO line is already reserved by Eris API." 403 := by
      intro out value
      simp [request_gpio_line, h, hheld]
    unfold request_gpio
    simp only [hname, hdir]
    have hnot : ¬ (strncasecmp direction (lit "in") 2 ≠ 0
        ∧ strncasecmp direction (lit "out") 3 ≠ 0) := by
      rintro ⟨h1, h2⟩
      rcases hvalid with h3 | h3
      · exact h1 h3
      · exact h2 h3
    rw [if_neg hnot]
    cases hv : connection (lit "value") with
    | none =>
      rw [hv] at hvalue
      simp only [] at hvalue
      simp only [if_neg hvalue, hline]
    | some value =>
      rw [hv] at hvalue
      simp only [] at hvalue
      have hnv : ¬ (rd value 0 ≠ 48 ∧ rd value 0 ≠ 49) := by
        rintro ⟨h1, h2⟩
        rcases hvalue with h3 | h3
        · exact h1 h3
        · exact h2 h3
      simp only [if_neg hnv, hline]
  · exact live_run_session cmds reqs gpios0 [] (by rw [h0])
  · exact live_run_rest reqs gpios0 [] (by rw [h0])

/-- C7 (instance). `GPIO17` of the sample table holds request 7: a second request-input
on TCP, and a request for output on REST, are refused and change nothing. -/
theorem reserved_line_guard_witness :
    request_gpio_for_input sample_kernel sample_reserved [lit "GPIO17"]
      = .error sample_reserved EBUSY "The GPIO line is already reserved."
    ∧ request_gpio sample_kernel sample_reserved
        (sample_query (some (lit "gpio17")) (some (lit "out")) (some (lit "1")) none)
      = .error sample_reserved "GPIO line is already reserved by Eris API." 403 := by
  refine ⟨((reserved_line_guard sample_kernel sample_reserved (lit "GPIO17") (lit "1")
      (sample_query none none none none)
      { name := lit "GPIO17", offset := 17, chip := 0, request := some 7, output := 0 }
      (by decide)).1 (by decide)).1,
    (reserved_line_guard sample_kernel sample_reserved (lit "gpio17") (lit "1")
      (sample_query (some (lit "gpio17")) (some (lit "out")) (some (lit "1")) none)
      { name := lit "GPIO17", offset := 17, chip := 0, request := some 7, output := 0 }
      (by decide)).2.1 (by decide) (by decide) ?_⟩
  refine ⟨lit "out", by decide, Or.inr (by decide), ?_⟩
  show rd (lit "1") 0 = 48 ∨ rd (lit "1") 0 = 49
  decide

/-! ## Lemmas on the direction of a line the kernel granted -/

/-- In the TCP server, after a request-output answered `Ok` for which the kernel granted
the line, every read-value of that name fails with `EIO` "not readable", and after
such a request-input every write-value of that name, whatever the value, fails with
`EIO` "not writable".  In the REST server, after a reservation answered 200 `Ok`
(which the kernel has then granted), read-value fails with 400 "not readable" when
the direction was `out`, and write-value fails with 400 "not writable" otherwise.  In
each case the failing call makes no libgpiod call and leaves the table as it was. -/
theorem direction_exclusive_granted (k k' : Gpiod) (gpios : List eris_api_gpio) (name arg1 arg1' : Bytes)
    (connection connection' : MHD_Connection) :
    ((request_gpio_for_output k gpios [name, arg1]).sent = [.reply 2 (lit "Ok")] →
      k.chip_request_lines ≠ none →
      read_gpio_value k' (request_gpio_for_output k gpios [name, arg1]).gpios [name]
        = .error (request_gpio_for_output k gpios [name, arg1]).gpios EIO
            "This GPIO line is not readable.")
    ∧ ((request_gpio_for_input k gpios [name]).sent = [.reply 2 (lit "Ok")] →
      k.chip_request_lines ≠ none →
      write_gpio_value (request_gpio_for_input k gpios [name]).gpios [name, arg1']
        = .error (request_gpio_for_input k gpios [name]).gpios EIO
            "This GPIO line is not writable.")
    ∧ ((request_gpio k gpios connection).responses = [send_rest_response (lit "Ok")] →
      connection' (lit "name") = connection (lit "name") →
      ∀ direction, connection (lit "direction") = some direction →
        (strncasecmp direction (lit "out") 3 = 0 →
          get_gpio_value k' (request_gpio k gpios connection).gpios connection'
            = .error (request_gpio k gpios connection).gpios
                "This GPIO line is not readable." 400)
        ∧ (strncasecmp direction (lit "out") 3 ≠ 0 →
          set_gpio_value (request_gpio k gpios connection).gpios connection'
            = .error (request_gpio k gpios connection).gpios
                "This GPIO line is not writable." 400)) := by
  refine ⟨fun hok hgrant => ?_, fun hok hgrant => ?_, fun hok hname direction hdir => ?_⟩
  · obtain ⟨g, hg, _, htab⟩ := request_gpio_for_output_ok k gpios name arg1 hok
    obtain ⟨r, hr⟩ := Option.ne_none_iff_exists'.1 hgrant
    rw [htab]
    simp only [read_gpio_value]
    rw [lookup_after_set strcmp name gpios g _ _ hg]
    simp [hr]
  · obtain ⟨g, hg, _, htab⟩ := request_gpio_for_input_ok k gpios name hok
    obtain ⟨r, hr⟩ := Option.ne_none_iff_exists'.1 hgrant
    rw [htab]
    simp only [write_gpio_value]
    rw [lookup_after_set strcmp name gpios g _ _ hg]
    simp [hr]
  · obtain ⟨name', direction', g, r, hn, hd, hg, _, hr, htab⟩ := request_gpio_ok k gpios connection hok
    rw [hd] at hdir
    cases hdir
    rw [htab]
    refine ⟨fun hout => ?_, fun hin => ?_⟩
    · simp only [get_gpio_value, hname, hn]
      rw [lookup_after_set strcasecmp name' gpios g _ _ hg]
      simp [hout]
    · simp only [set_gpio_value, hname, hn]
      rw [lookup_after_set strcasecmp name' gpios g _ _ hg]
      simp [hin]

/-- On the sample table, the kernel granting the lines: `GPIO17` reserved for output
cannot be read, and `GPIO18` reserved for input cannot be written, in the TCP
server. -/
theorem direction_exclusive_granted_sample :
    read_gpio_value sample_kernel
        (request_gpio_for_output sample_kernel sample_gpios [lit "GPIO17", lit "1"]).gpios
        [lit "GPIO17"]
      = .error (request_gpio_for_output sample_kernel sample_gpios [lit "GPIO17", lit "1"]).gpios
          EIO "This GPIO line is not readable."
    ∧ write_gpio_value (request_gpio_for_input sample_kernel sample_gpios [lit "GPIO18"]).gpios
        [lit "GPIO18", lit "0"]
      = .error (request_gpio_for_input sample_kernel sample_gpios [lit "GPIO18"]).gpios
          EIO "This GPIO line is not writable." :=
  ⟨(direction_exclusive_granted sample_kernel sample_kernel sample_gpios (lit "GPIO17")
      (lit "1")
      (lit "0") (sample_query none none none none) (sample_query none none none none)).1
      (by decide) (by decide),
   (direction_exclusive_granted sample_kernel sample_kernel sample_gpios (lit "GPIO18")
      (lit "1")
      (lit "0") (sample_query none none none none) (sample_query none none none none)).2.1
      (by decide) (by decide)⟩

/-! ## GPIO manager: direction exclusivity -/

/-- C8 (failing input). In the TCP server, while the kernel refuses the line request for
the free line `GPIO17`: request-output with value 1 is answered `Ok`, and the
read-value of `GPIO17` that follows fails with `ENODEV` "This GPIO line is not
reserved.", not with `EIO`; request-input is answered `Ok`, and the write-value of
`GPIO17` that follows fails with `ENODEV` as well.  In the REST server the same
reservations are refused with status 403. -/
theorem direction_not_exclusive_after_refusal :
    (request_gpio_for_output refusing_kernel sample_gpios [lit "GPIO17", lit "1"]).sent
      = [.reply 2 (lit "Ok")]
    ∧ read_gpio_value sample_kernel
        (request_gpio_for_output refusing_kernel sample_gpios [lit "GPIO17", lit "1"]).gpios
        [lit "GPIO17"]
      = .error
          (request_gpio_for_output refusing_kernel sample_gpios [lit "GPIO17", lit "1"]).gpios
          ENODEV "This GPIO line is not reserved."
    ∧ (request_gpio_for_input refusing_kernel sample_gpios [lit "GPIO17"]).sent
      = [.reply 2 (lit "Ok")]
    ∧ write_gpio_value
        (request_gpio_for_input refusing_kernel sample_gpios [lit "GPIO17"]).gpios
        [lit "GPIO17", lit "1"]
      = .error (request_gpio_for_input refusing_kernel sample_gpios [lit "GPIO17"]).gpios
          ENODEV "This GPIO line is not reserved."
    ∧ ENODEV ≠ EIO
    ∧ (request_gpio refusing_kernel sample_gpios
        (sample_query (some (lit "GPIO17")) (some (lit "out")) (some (lit "1")) none)).responses
      = [send_rest_error "The GPIO is already reserved by another application." 403] := by
  decide

/-! ## GPIO manager: operations on an unknown line -/

/-- C9 (counterexample). In the REST server a reservation request that names a line
absent from the table, with its required `direction` present but not beginning with
`in` or `out`, is answered 400 "Invalid direction", not 404. -/
theorem rest_unknown_line_invalid_direction :
    absent strcasecmp (lit "GPIO99") sample_gpios
    ∧ request_gpio sample_kernel sample_gpios
        (sample_query (some (lit "GPIO99")) (some (lit "sideways")) none none)
      = .error sample_gpios "Invalid direction" 400 := by
  refine ⟨?_, by decide⟩
  intro g hg
  simp only [sample_gpios, List.mem_cons, List.mem_singleton, List.not_mem_nil, or_false] at hg
  rcases hg with rfl | rfl <;> decide

/-- C9 (amended). A call naming a line absent from the table fails with the
unknown-resource error, makes no libgpiod call and leaves the table as it was: in the
TCP server for each of request-input, request-output, release, read-value,
write-value and wait-edge given exactly its number of arguments, whatever the second
argument is (`ENODEV`); in the REST server for release, read-value, write-value and
wait-edge whatever the other query arguments are, and for a reservation request
that is well formed (404). -/
theorem unknown_line_refused (k : Gpiod) (gpios : List eris_api_gpio) (name arg1 : Bytes)
    (connection : MHD_Connection) :
    (absent strcmp name gpios →
      request_gpio_for_input k gpios [name]
        = .error gpios ENODEV "The GPIO name does not exist."
      ∧ request_gpio_for_output k gpios [name, arg1]
        = .error gpios ENODEV "The GPIO name does not exist."
      ∧ release_gpio gpios [name] = .error gpios ENODEV "The GPIO name does not exist."
      ∧ read_gpio_value k gpios [name] = .error gpios ENODEV "The GPIO name does not exist."
      ∧ write_gpio_value gpios [name, arg1]
        = .error gpios ENODEV "The GPIO name does not exist."
      ∧ wait_gpio_edge k gpios [name, arg1]
        = .error gpios ENODEV "The GPIO name does not exist.")
    ∧ (absent strcasecmp name gpios → connection (lit "name") = some name →
      (rest_request_well_formed connection →
        request_gpio k gpios connection = .error gpios "Unknown GPIO name." 404)
      ∧ rest_release_gpio gpios connection = .error gpios "Unknown GPIO name." 404
      ∧ get_gpio_value k gpios connection = .error gpios "Unknown GPIO name." 404
      ∧ set_gpio_value gpios connection = .error gpios "Unknown GPIO name." 404
      ∧ rest_wait_gpio_edge k gpios connection = .error gpios "Unknown GPIO name." 404) := by
  refine ⟨fun h => ?_, fun h hname => ⟨fun hwf => ?_, ?_⟩⟩
  · simp [request_gpio_for_input, request_gpio_for_output, release_gpio, read_gpio_value,
      write_gpio_value, wait_gpio_edge, addressed_absent h]
  · obtain ⟨direction, hdir, hvalid, hvalue⟩ := hwf
    have hline : ∀ out value, request_gpio_line k gpios name out value
        = .error gpios "Unknown GPIO name." 404 := by
      intro out value
      simp [request_gpio_line, addressed_absent h]
    unfold request_gpio
    simp only [hname, hdir]
    have hnot : ¬ (strncasecmp direction (lit "in") 2 ≠ 0
        ∧ strncasecmp direction (lit "out") 3 ≠ 0) := by
      rintro ⟨h1, h2⟩
      rcases hvalid with h3 | h3
      · exact h1 h3
      · exact h2 h3
    rw [if_neg hnot]
    cases hv : connection (lit "value") with
    | none =>
      rw [hv] at hvalue
      simp only [] at hvalue
      simp only [if_neg hvalue, hline]
    | some value =>
      rw [hv] at hvalue
      simp only [] at hvalue
      have hnv : ¬ (rd value 0 ≠ 48 ∧ rd value 0 ≠ 49) := by
        rintro ⟨h1, h2⟩
        rcases hvalue with h3 | h3
        · exact h1 h3
        · exact h2 h3
      simp only [if_neg hnv, hline]
  · simp [rest_release_gpio, get_gpio_value, set_gpio_value, rest_wait_gpio_edge, hname,
      addressed_absent h]

/-- C9 (instance). The amended statement applied to the name `GPIO99`, absent from the
sample table, in both servers. -/
theorem unknown_line_refused_witness :
    read_gpio_value sample_kernel sample_gpios [lit "GPIO99"]
      = .error sample_gpios ENODEV "The GPIO name does not exist."
    ∧ request_gpio sample_kernel sample_gpios
        (sample_query (some (lit "GPIO99")) (some (lit "out")) (some (lit "1")) none)
      = .error sample_gpios "Unknown GPIO name." 404 := by
  have habs : absent strcasecmp (lit "GPIO99") sample_gpios := by
    intro g hg
    simp only [sample_gpios, List.mem_cons, List.mem_singleton, List.not_mem_nil,
      or_false] at hg
    rcases hg with rfl | rfl <;> decide
  have habs2 : absent strcmp (lit "GPIO99") sample_gpios := by
    intro g hg
    simp only [sample_gpios, List.mem_cons, List.mem_singleton, List.not_mem_nil,
      or_false] at hg
    rcases hg with rfl | rfl <;> decide
  have h := unknown_line_refused sample_kernel sample_gpios (lit "GPIO99") (lit "1")
    (sample_query (some (lit "GPIO99")) (some (lit "out")) (some (lit "1")) none)
  refine ⟨(h.1 habs2).2.2.2.1, (h.2 habs (by decide)).1 ?_⟩
  refine ⟨lit "out", by decide, Or.inr (by decide), ?_⟩
  show rd (lit "1") 0 = 48 ∨ rd (lit "1") 0 = 49
  decide

/-! ## GPIO manager: operations on an unreserved line -/

/-- C10 (counterexample). In the TCP server, read-value on `GPIO17`, a line of the table
that was never requested, fails with `ENODEV` "This GPIO line is not reserved.", not
with `EIO`. -/
theorem tcp_read_unreserved_not_eio :
    addressed strcmp (lit "GPIO17") sample_gpios
      = some { name := lit "GPIO17", offset := 17, chip := 0, request := none, output := -1 }
    ∧ read_gpio_value sample_kernel sample_gpios [lit "GPIO17"]
      = .error sample_gpios ENODEV "This GPIO line is not reserved."
    ∧ ¬ ∃ label, (read_gpio_value sample_kernel sample_gpios [lit "GPIO17"]).sent
        = [.error EIO label] := by
  refine ⟨by decide, by decide, ?_⟩
  rintro ⟨label, h⟩
  have h2 : (read_gpio_value sample_kernel sample_gpios [lit "GPIO17"]).sent
      = [.error ENODEV (lit "This GPIO line is not reserved.")] := by decide
  rw [h2] at h
  injection h with h3 _
  injection h3 with h4 _
  exact absurd h4 (by decide)

/-- C10 (amended). Read-value, write-value and wait-edge on a line of the table that
holds no reservation fail without any libgpiod call and leave the table as it was:
in the TCP server with `ENODEV` "This GPIO line is not reserved." (whatever the
second argument), in the REST server with status 400 "The GPIO line is not
reserved." (whatever the other query arguments). -/
theorem unreserved_line_refused (k : Gpiod) (gpios : List eris_api_gpio) (name arg1 : Bytes)
    (connection : MHD_Connection) (g : eris_api_gpio) (hfree : g.request = none) :
    (addressed strcmp name gpios = some g →
      read_gpio_value k gpios [name] = .error gpios ENODEV "This GPIO line is not reserved."
      ∧ write_gpio_value gpios [name, arg1]
        = .error gpios ENODEV "This GPIO line is not reserved."
      ∧ wait_gpio_edge k gpios [name, arg1]
        = .error gpios ENODEV "This GPIO line is not reserved.")
    ∧ (addressed strcasecmp name gpios = some g → connection (lit "name") = some name →
      get_gpio_value k gpios connection = .error gpios "The GPIO line is not reserved." 400
      ∧ set_gpio_value gpios connection = .error gpios "The GPIO line is not reserved." 400
      ∧ rest_wait_gpio_edge k gpios connection
        = .error gpios "The GPIO line is not reserved." 400) := by
  unfold addressed
  refine ⟨fun h => ?_, fun h hname => ?_⟩
  · simp [read_gpio_value, write_gpio_value, wait_gpio_edge, h, hfree]
  · simp [get_gpio_value, set_gpio_value, rest_wait_gpio_edge, hname, h, hfree]

/-- C10 (instance). The amended statement on the never-requested line `GPIO17` of the
sample table. -/
theorem unreserved_line_refused_witness :
    write_gpio_value sample_gpios [lit "GPIO17", lit "1"]
      = .error sample_gpios ENODEV "This GPIO line is not reserved."
    ∧ get_gpio_value sample_kernel sample_gpios
        (sample_query (some (lit "gpio17")) none none none)
      = .error sample_gpios "The GPIO line is not reserved." 400 :=
  ⟨((unreserved_line_refused sample_kernel sample_gpios (lit "GPIO17") (lit "1")
      (sample_query none none none none)
      { name := lit "GPIO17", offset := 17, chip := 0, request := none, output := -1 }
      rfl).1 (by decide)).2.1,
   ((unreserved_line_refused sample_kernel sample_gpios (lit "gpio17") (lit "1")
      (sample_query (some (lit "gpio17")) none none none)
      { name := lit "GPIO17", offset := 17, chip := 0, request := none, output := -1 }
      rfl).2 (by decide) (by decide)).1⟩

/-! ## GPIO manager: reservation cycle and release of a free line -/

/-- C18. Reservation cycle.  For a name whose line is in the table and not reserved, and
a kernel that grants both requests, the sequence request-input, release,
request-input succeeds at its three steps (reply `Ok` on TCP, status 200 `Ok` on
REST): after the first step the line is reserved for input, after the release it
holds no reservation, and after the last step it is reserved for input again, under
the handle granted last. -/
theorem reservation_cycle (k1 k3 : Gpiod) (gpios : List eris_api_gpio) (name : Bytes)
    (request release : MHD_Connection) (g : eris_api_gpio) (r1 r3 : Nat)
    (hfree : g.request = none) (h1 : grants k1 r1) (h3 : grants k3 r3) :
    (addressed strcmp name gpios = some g →
      (tcp_cycle k1 k3 gpios name).1.sent = [.reply 2 (lit "Ok")]
      ∧ (tcp_cycle k1 k3 gpios name).2.1.sent = [.reply 2 (lit "Ok")]
      ∧ (tcp_cycle k1 k3 gpios name).2.2.sent = [.reply 2 (lit "Ok")]
      ∧ addressed strcmp name (tcp_cycle k1 k3 gpios name).1.gpios
          = some { g with request := some r1, output := 0 }
      ∧ addressed strcmp name (tcp_cycle k1 k3 gpios name).2.1.gpios
          = some { g with request := none, output := 0 }
      ∧ addressed strcmp name (tcp_cycle k1 k3 gpios name).2.2.gpios
          = some { g with request := some r3, output := 0 })
    ∧ (addressed strcasecmp name gpios = some g → rest_request_input request name →
      release (lit "name") = some name →
      (rest_cycle k1 k3 gpios request release).1.responses = [send_rest_response (lit "Ok")]
      ∧ (rest_cycle k1 k3 gpios request release).2.1.responses
          = [send_rest_response (lit "Ok")]
      ∧ (rest_cycle k1 k3 gpios request release).2.2.responses
          = [send_rest_response (lit "Ok")]
      ∧ addressed strcasecmp name (rest_cycle k1 k3 gpios request release).1.gpios
          = some { g with request := some r1, output := 0 }
      ∧ addressed strcasecmp name (rest_cycle k1 k3 gpios request release).2.1.gpios
          = some { g with request := none, output := 0 }
      ∧ addressed strcasecmp name (rest_cycle k1 k3 gpios request release).2.2.gpios
          = some { g with request := some r3, output := 0 }) := by
  unfold addressed
  refine ⟨fun hg => ?_, fun hg hreq hrel => ?_⟩
  · have e1 := request_gpio_for_input_granted k1 gpios name g r1 hg hfree h1
    have a1 := lookup_after_set strcmp name gpios g (some r1) 0 hg
    have e2 := release_gpio_reserved _ name _ r1 a1 rfl
    have a2 := lookup_after_set strcmp name _ _ none 0 a1
    have e3 := request_gpio_for_input_granted k3 _ name _ r3 a2 rfl h3
    have a3 := lookup_after_set strcmp name _ _ (some r3) 0 a2
    simp only [tcp_cycle]
    rw [e1]
    simp only []
    rw [e2]
    simp only [Outcome.reply]
    rw [e3]
    refine ⟨?_, ?_, ?_, a1, a2, a3⟩ <;> first | rfl | trivial
  · have e1 := request_gpio_input_granted k1 gpios request name g r1 hreq hg hfree h1
    have a1 := lookup_after_set strcasecmp name gpios g (some r1) 0 hg
    have e2 := rest_release_gpio_reserved _ release name _ r1 hrel a1 rfl
    have a2 := lookup_after_set strcasecmp name _ _ none 0 a1
    have e3 := request_gpio_input_granted k3 _ request name _ r3 hreq a2 rfl h3
    have a3 := lookup_after_set strcasecmp name _ _ (some r3) 0 a2
    simp only [rest_cycle]
    rw [e1.1, e2]
    simp only []
    rw [e3.1]
    refine ⟨?_, ?_, ?_, a1, a2, a3⟩
    · exact e1.2
    · first | rfl | trivial
    · exact e3.2

/-- C18 (instance). The cycle on `GPIO17` of the sample table with the sample kernel, on
the TCP server. -/
theorem reservation_cycle_witness :
    (tcp_cycle sample_kernel sample_kernel sample_gpios (lit "GPIO17")).2.2.sent
      = [.reply 2 (lit "Ok")]
    ∧ addressed strcmp (lit "GPIO17")
        (tcp_cycle sample_kernel sample_kernel sample_gpios (lit "GPIO17")).2.2.gpios
      = some { name := lit "GPIO17", offset := 17, chip := 0, request := some 7, output := 0 } :=
  have h := (reservation_cycle sample_kernel sample_kernel sample_gpios (lit "GPIO17")
    (sample_query none none none none) (sample_query none none none none)
    { name := lit "GPIO17", offset := 17, chip := 0, request := none, output := -1 } 7 7 rfl
    ⟨rfl, rfl, rfl, rfl, rfl⟩ ⟨rfl, rfl, rfl, rfl, rfl⟩).1 (by decide)
  ⟨h.2.2.1, h.2.2.2.2.2⟩

/-- C19. Release of a line that is in the table and holds no reservation fails with an
error and no success reply (`ENODEV` "The GPIO line is already free." on TCP, status
404 "GPIO line already free." on REST), calls no libgpiod release and leaves the
table as it was. -/
theorem release_free_line_refused (gpios : List eris_api_gpio) (name : Bytes)
    (connection : MHD_Connection) (g : eris_api_gpio) (hfree : g.request = none) :
    (addressed strcmp name gpios = some g →
      release_gpio gpios [name] = .error gpios ENODEV "The GPIO line is already free.")
    ∧ (addressed strcasecmp name gpios = some g → connection (lit "name") = some name →
      rest_release_gpio gpios connection = .error gpios "GPIO line already free." 404) := by
  unfold addressed
  refine ⟨fun h => ?_, fun h hname => ?_⟩
  · simp [release_gpio, h, hfree]
  · simp [rest_release_gpio, hname, h, hfree]

/-- C19 (instance). Release of the never-requested line `GPIO18` of the sample table, on
both servers. -/
theorem release_free_line_refused_witness :
    release_gpio sample_gpios [lit "GPIO18"]
      = .error sample_gpios ENODEV "The GPIO line is already free."
    ∧ rest_release_gpio sample_gpios (sample_query (some (lit "GPIO18")) none none none)
      = .error sample_gpios "GPIO line already free." 404 :=
  ⟨(release_free_line_refused sample_gpios (lit "GPIO18")
      (sample_query (some (lit "GPIO18")) none none none)
      { name := lit "GPIO18", offset := 18, chip := 0, request := none, output := -1 }
      rfl).1 (by decide),
   (release_free_line_refused sample_gpios (lit "GPIO18")
      (sample_query (some (lit "GPIO18")) none none none)
      { name := lit "GPIO18", offset := 18, chip := 0, request := none, output := -1 }
      rfl).2 (by decide) (by decide)⟩

/-! ## GPIO manager: invalid values and event types -/

/-- C11 (counterexample). The value `1abc` is not a decimal integer equal to 0 or 1, yet
the TCP server reads it as 1: request-output on the free line `GPIO17` makes the
kernel request and replies `Ok`, and write-value on `GPIO17` reserved for output
calls set-value with 1 and replies `Ok`.  The REST write-value accepts `2` and `abc`
and sets the line to 1 with status 200. -/
theorem invalid_value_accepted :
    scan_bit (lit "1abc") = some 1
    ∧ request_gpio_for_output sample_kernel sample_gpios [lit "GPIO17", lit "1abc"]
      = { gpios := [{ name := lit "GPIO17", offset := 17, chip := 0, request := some 7,
                      output := 1 },
                    { name := lit "GPIO18", offset := 18, chip := 0, request := none,
                      output := -1 }],
          sent := [.reply 2 (lit "Ok")],
          calls := [.chip_request_lines 0 17 (output_settings 1) (some 7)],
          returned := true }
    ∧ write_gpio_value sample_output [lit "GPIO17", lit "1abc"]
      = .reply sample_output [.line_request_set_value 7 17 1] 2 (lit "Ok")
    ∧ set_gpio_value sample_output
        (sample_query (some (lit "GPIO17")) none (some (lit "2")) none)
      = { gpios := sample_output, responses := [send_rest_response (lit "Ok")],
          calls := [.line_request_set_value 7 17 1], returned := true }
    ∧ set_gpio_value sample_output
        (sample_query (some (lit "GPIO17")) none (some (lit "abc")) none)
      = { gpios := sample_output, responses := [send_rest_response (lit "Ok")],
          calls := [.line_request_set_value 7 17 1], returned := true } := by
  decide

/-- C11 (amended). In the TCP server, request-output on a line of the table that holds no
reservation, and write-value on a line reserved for output, given a value from which
`sscanf` with `%d` reads no integer or an integer other than 0 and 1 (`scan_bit`
refuses it), fail with `EINVAL` "The value is invalid.", make no libgpiod call and
leave the table as it was.  In the REST server a reservation request for output
whose value does not begin with `0` or `1` fails with status 400 "Invalid value",
makes no libgpiod call and leaves the table as it was. -/
theorem invalid_value_refused (k : Gpiod) (gpios : List eris_api_gpio) (name value : Bytes)
    (connection : MHD_Connection) (g : eris_api_gpio) :
    (addressed strcmp name gpios = some g → scan_bit value = none →
      (g.request = none →
        request_gpio_for_output k gpios [name, value]
          = .error gpios EINVAL "The value is invalid.")
      ∧ (g.request ≠ none → g.output = 1 →
        write_gpio_value gpios [name, value] = .error gpios EINVAL "The value is invalid."))
    ∧ (connection (lit "name") = some name → connection (lit "value") = some value →
      (∃ direction, connection (lit "direction") = some direction
        ∧ strncasecmp direction (lit "out") 3 = 0) →
      rd value 0 ≠ 48 → rd value 0 ≠ 49 →
      request_gpio k gpios connection = .error gpios "Invalid value" 400) := by
  unfold addressed
  refine ⟨fun h hs => ⟨fun hfree => ?_, fun hheld hout => ?_⟩, ?_⟩
  · simp [request_gpio_for_output, h, hfree, hs]
  · obtain ⟨r, hr⟩ := Option.ne_none_iff_exists'.1 hheld
    simp [write_gpio_value, h, hr, hout, hs]
  · rintro hname hvalue ⟨direction, hdir, hout⟩ h0 h1
    simp [request_gpio, hname, hvalue, hdir, hout, h0, h1]

/-- C11 (instance). The values `2`, `-1`, `abc` and the empty string are refused by the
test of the TCP server; write-value of `2` on `GPIO17` reserved for output fails with
`EINVAL`, and the REST reservation for output with value `abc` fails with 400. -/
theorem invalid_value_refused_witness :
    scan_bit (lit "2") = none ∧ scan_bit (lit "-1") = none ∧ scan_bit (lit "abc") = none
    ∧ scan_bit (lit "") = none
    ∧ write_gpio_value sample_output [lit "GPIO17", lit "2"]
      = .error sample_output EINVAL "The value is invalid."
    ∧ request_gpio sample_kernel sample_gpios
        (sample_query (some (lit "GPIO17")) (some (lit "out")) (some (lit "abc")) none)
      = .error sample_gpios "Invalid value" 400 :=
  ⟨by decide, by decide, by decide, by decide,
   ((invalid_value_refused sample_kernel sample_output (lit "GPIO17") (lit "2")
      (sample_query none none none none)
      { name := lit "GPIO17", offset := 17, chip := 0, request := some 7, output := 1 }).1
      (by decide) (by decide)).2 (by decide) rfl,
   (invalid_value_refused sample_kernel sample_gpios (lit "GPIO17") (lit "abc")
      (sample_query (some (lit "GPIO17")) (some (lit "out")) (some (lit "abc")) none)
      { name := lit "GPIO17", offset := 17, chip := 0, request := none, output := -1 }).2
      (by decide) (by decide) ⟨lit "out", by decide, by decide⟩ (by decide) (by decide)⟩

/-- C12 (counterexample). On `GPIO17` reserved for input, wait-edge with the type `ris`,
which is neither `rising` nor `falling`, is not refused: the TCP server waits in the
kernel, reads the events and replies `Ok` on a rising edge, and it stays blocked
when the kernel never answers; the REST server does the same for the type `FALLS`. -/
theorem wait_edge_abbreviated_type :
    wait_gpio_edge
        { sample_kernel with
          edge_steps := [{ wait := 1, read := some [.rising_edge], errno := 0 }] }
        sample_reserved [lit "GPIO17", lit "ris"]
      = { gpios := sample_reserved, sent := [.reply 2 (lit "Ok")],
          calls := [.line_request_wait_edge_events 7, .line_request_read_edge_events 7],
          returned := true }
    ∧ wait_gpio_edge sample_kernel sample_reserved [lit "GPIO17", lit "ris"]
      = { gpios := sample_reserved, sent := [],
          calls := [.line_request_wait_edge_events 7], returned := false }
    ∧ rest_wait_gpio_edge
        { sample_kernel with
          edge_steps := [{ wait := 1, read := some [.falling_edge], errno := 0 }] }
        sample_reserved (sample_query (some (lit "GPIO17")) none none (some (lit "FALLS")))
      = { gpios := sample_reserved, responses := [send_rest_response (lit "Ok")],
          calls := [.line_request_wait_edge_events 7, .line_request_read_edge_events 7],
          returned := true } := by
  decide

/-- C12 (amended). On a line reserved for input, wait-edge called with an event type
that does not begin with `ris` or `fal` (case being ignored) fails with the
invalid-argument error (`EINVAL` "This event type is invalid." on TCP, status 400 on
REST) without any libgpiod wait or read, so it does not block, and leaves the table
as it was.  (A type that begins with `ris` or `fal` is taken as rising or falling.) -/
theorem wait_edge_invalid_type (k : Gpiod) (gpios : List eris_api_gpio) (name ty : Bytes)
    (connection : MHD_Connection) (g : eris_api_gpio) (r : Nat)
    (hr : g.request = some r) (hin : g.output = 0)
    (hris : ¬ begins_with ty (lit "ris")) (hfal : ¬ begins_with ty (lit "fal")) :
    (addressed strcmp name gpios = some g →
      wait_gpio_edge k gpios [name, ty] = .error gpios EINVAL "This event type is invalid.")
    ∧ (addressed strcasecmp name gpios = some g → connection (lit "name") = some name →
      connection (lit "type") = some ty →
      rest_wait_gpio_edge k gpios connection
        = .error gpios "Unknown event (must be 'rising' or 'falling')." 400) := by
  have h1 : ¬ strncasecmp ty (lit "ris") 3 = 0 := fun h =>
    hris ((strncasecmp_eq_zero (lit "ris") (by decide) ty).1 h)
  have h2 : ¬ strncasecmp ty (lit "fal") 3 = 0 := fun h =>
    hfal ((strncasecmp_eq_zero (lit "fal") (by decide) ty).1 h)
  unfold addressed
  refine ⟨fun h => ?_, fun h hname htype => ?_⟩
  · simp [wait_gpio_edge, h, hr, hin, h1, h2]
  · simp [rest_wait_gpio_edge, hname, htype, h, hr, hin, h1, h2]


/-- C12 (instance). The type `both` on `GPIO17` reserved for input is refused by both
servers. -/
theorem wait_edge_invalid_type_witness :
    wait_gpio_edge sample_kernel sample_reserved [lit "GPIO17", lit "both"]
      = .error sample_reserved EINVAL "This event type is invalid."
    ∧ rest_wait_gpio_edge sample_kernel sample_reserved
        (sample_query (some (lit "GPIO17")) none none (some (lit "both")))
      = .error sample_reserved "Unknown event (must be 'rising' or 'falling')." 400 :=
  have h := wait_edge_invalid_type sample_kernel sample_reserved (lit "GPIO17") (lit "both")
    (sample_query (some (lit "GPIO17")) none none (some (lit "both")))
    { name := lit "GPIO17", offset := 17, chip := 0, request := some 7, output := 0 } 7
    rfl rfl (by unfold begins_with; decide) (by unfold begins_with; decide)
  ⟨h.1 (by decide), h.2 (by decide) (by decide) (by decide)⟩

/-! ## Lemmas on `addsnprintf` -/

theorem store_mid (a t0 t c : Bytes) (h : t0.length = t.length) :
    store (a ++ t0 ++ c) a.length t = a ++ t ++ c := by
  unfold store
  have h1 : List.take a.length (a ++ t0 ++ c) = a := by
    rw [List.append_assoc]; exact List.take_left' rfl
  have h2 : List.drop (a.length + t.length) (a ++ t0 ++ c) = c := by
    exact List.drop_left' (by simp [h])
  rw [h1, h2]

theorem snprintf_fits (size : Nat) (text : Bytes) (h : text.length < size) :
    snprintf size text = (text ++ [0], text.length) := by
  unfold snprintf
  rw [if_neg (by omega), List.take_of_length_le (by omega)]

theorem realloc_bytes_split (s : Bytes) (pos n : Nat) (hpos : pos ≤ s.length) (hn : pos ≤ n) :
    ∃ t0 : Bytes, t0.length = n - pos ∧ realloc_bytes s n = s.take pos ++ t0 := by
  refine ⟨(realloc_bytes s n).drop pos, ?_, ?_⟩
  · simp [realloc_bytes]
  · have h1 : (realloc_bytes s n).take pos = s.take pos := by
      unfold realloc_bytes
      rw [List.take_take, Nat.min_eq_left hn, List.take_append_of_le_length hpos]
    rw [← h1, List.take_append_drop]

theorem addsnprintf_result (b : strbuf) (text : Bytes) (realloc_ok : Bool)
    (hlen : (b.string.getD []).length = b.size) (hpos : b.pos ≤ b.size)
    (hok : realloc_ok = true ∨ text.length + b.pos < b.size) :
    addsnprintf b text realloc_ok
      = (0, if text.length + b.pos ≥ b.size then
              { string := some ((b.string.getD []).take b.pos ++ text ++ [0]),
                size := text.length + b.pos + 1, pos := b.pos + text.length }
            else
              { string := some ((b.string.getD []).take b.pos ++ text ++ [0]
                  ++ (b.string.getD []).drop (b.pos + text.length + 1)),
                size := b.size, pos := b.pos + text.length }) := by
  have hta : ((b.string.getD []).take b.pos).length = b.pos := by
    rw [List.length_take]; omega
  unfold addsnprintf
  simp only []
  rw [if_neg (by
    rintro ⟨h1, h2⟩
    rcases hok with h | h
    · rw [h] at h2; cases h2
    · omega)]
  by_cases hg : text.length + b.pos ≥ b.size
  · rw [if_pos hg, if_pos hg]
    simp only [Option.getD_some]
    rw [snprintf_fits _ _ (by omega)]
    obtain ⟨t0, ht0, hr⟩ := realloc_bytes_split (b.string.getD []) b.pos
      (text.length + b.pos + 1) (by omega) (by omega)
    rw [hr]
    have e1 : store (List.take b.pos (b.string.getD []) ++ t0) b.pos (text ++ [0])
        = List.take b.pos (b.string.getD []) ++ (text ++ [0]) ++ [] := by
      have := store_mid (List.take b.pos (b.string.getD [])) t0 (text ++ [0]) []
        (by simp; omega)
      rw [hta] at this
      simpa using this
    rw [e1]
    have e2 : store (List.take b.pos (b.string.getD []) ++ (text ++ [0]) ++ [])
        (b.pos + text.length) [0]
        = List.take b.pos (b.string.getD []) ++ text ++ [0] := by
      have := store_mid (List.take b.pos (b.string.getD []) ++ text) [0] [0] [] rfl
      rw [List.length_append, hta] at this
      simpa using this
    rw [e2]
  · rw [if_neg hg, if_neg hg]
    rw [snprintf_fits _ _ (by omega)]
    have hs : b.string.getD [] = List.take b.pos (b.string.getD [])
        ++ List.take (text.length + 1) (List.drop b.pos (b.string.getD []))
        ++ List.drop (b.pos + text.length + 1) (b.string.getD []) := by
      rw [List.append_assoc]
      have : List.drop (b.pos + text.length + 1) (b.string.getD [])
          = List.drop (text.length + 1) (List.drop b.pos (b.string.getD [])) := by
        rw [List.drop_drop, Nat.add_assoc]
      rw [this, List.take_append_drop, List.take_append_drop]
    have e1 : store (b.string.getD []) b.pos (text ++ [0])
        = List.take b.pos (b.string.getD []) ++ (text ++ [0])
          ++ List.drop (b.pos + text.length + 1) (b.string.getD []) := by
      have := store_mid (List.take b.pos (b.string.getD []))
        (List.take (text.length + 1) (List.drop b.pos (b.string.getD []))) (text ++ [0])
        (List.drop (b.pos + text.length + 1) (b.string.getD []))
        (by simp; omega)
      rw [hta, ← hs] at this
      exact this
    rw [e1]
    have e2 : store (List.take b.pos (b.string.getD []) ++ (text ++ [0])
          ++ List.drop (b.pos + text.length + 1) (b.string.getD []))
        (b.pos + text.length) [0]
        = List.take b.pos (b.string.getD []) ++ text ++ [0]
          ++ List.drop (b.pos + text.length + 1) (b.string.getD []) := by
      have := store_mid (List.take b.pos (b.string.getD []) ++ text) [0] [0]
        (List.drop (b.pos + text.length + 1) (b.string.getD [])) rfl
      rw [List.length_append, hta] at this
      simpa using this
    rw [e2]

/-! ## Lemmas on the bytes of a frame -/

theorem memcpy_from_all (l : Bytes) (n : Nat) (h : n ≤ l.length) :
    memcpy_from l 0 n = l.take n := by
  unfold memcpy_from
  rw [List.drop_zero, List.take_append_of_le_length h]

theorem addsnprintf_first (text : Bytes) :
    addsnprintf { string := none, size := 0, pos := 0 } text true
      = (0, { string := some (text ++ [0]), size := text.length + 1, pos := text.length }) := by
  rw [addsnprintf_result _ text true rfl (Nat.le_refl _) (Or.inl rfl)]
  simp

theorem memcpy_from_with_nul (text : Bytes) :
    memcpy_from (text ++ [0]) 0 (text.length + 1) = text ++ [0] := by
  rw [memcpy_from_all _ _ (by simp)]
  exact List.take_of_length_le (by simp)

theorem send_error_bytes (code : Int) (label : Bytes) :
    send_error code label
      = lit "ERR " ++ fmt_d code ++ lit " " ++ fmt_lu (strlen label) ++ lit " "
          ++ cstr label ++ lit "\n" ++ [0] := by
  unfold send_error send_error_alloc
  rw [addsnprintf_first]
  simp only [Option.getD_some]
  rw [memcpy_from_with_nul]
  have h : lit "ERR" ++ lit " " = lit "ERR " := by decide
  rw [h]

theorem nat_digits_length (k : Nat) :
    ∀ (fuel n : Nat) (acc : Bytes), n < 10 ^ (k + 1) →
      (nat_digits fuel n acc).length ≤ acc.length + (k + 1) := by
  induction k with
  | zero =>
    intro fuel n acc hn
    cases fuel with
    | zero => simp [nat_digits]
    | succ f =>
      have h10 : n < 10 := by simpa using hn
      simp [nat_digits, h10]
  | succ k ih =>
    intro fuel n acc hn
    cases fuel with
    | zero => simp [nat_digits]
    | succ f =>
      rw [nat_digits]
      split_ifs with h10
      · simp
      · have hdiv : n / 10 < 10 ^ (k + 1) := by
          rw [Nat.div_lt_iff_lt_mul (by norm_num)]
          calc n < 10 ^ (k + 1 + 1) := hn
            _ = 10 ^ (k + 1) * 10 := by ring
        have := ih f (n / 10) ((48 + n % 10) :: acc) hdiv
        simp only [List.length_cons] at this
        omega

theorem fmt_lu_length (n : Nat) (h : n < 18446744073709551616) : (fmt_lu n).length ≤ 20 := by
  have := nat_digits_length 19 (n + 1) n [] (by
    calc n < 18446744073709551616 := h
      _ ≤ 10 ^ (19 + 1) := by norm_num)
  simpa [fmt_lu] using this

theorem nat_digits_eq_toDigits :
    ∀ (fuel n : Nat) (acc : List Char),
      nat_digits fuel n (acc.map Char.toNat)
        = (Nat.toDigitsCore 10 fuel n acc).map Char.toNat := by
  intro fuel
  induction fuel with
  | zero => intro n acc; simp [nat_digits, Nat.toDigitsCore]
  | succ f ih =>
    intro n acc
    have hd : (Nat.digitChar (n % 10)).toNat = 48 + n % 10 := by
      have hlt : n % 10 < 10 := Nat.mod_lt _ (by norm_num)
      generalize n % 10 = d at hlt
      interval_cases d <;> rfl
    rw [nat_digits, Nat.toDigitsCore]
    by_cases h10 : n < 10
    · have h0 : n / 10 = 0 := Nat.div_eq_of_lt h10
      have hm : n % 10 = n := Nat.mod_eq_of_lt h10
      simp only [h10, if_true, h0]
      simp [hd, hm] at *
      omega
    · have h0 : ¬ n / 10 = 0 := by
        intro h
        have := Nat.div_add_mod n 10
        have hlt : n % 10 < 10 := Nat.mod_lt _ (by norm_num)
        omega
      simp only [h10, if_false, h0]
      rw [← ih]
      simp [hd]

theorem fmt_lu_eq_decimal (n : Nat) : fmt_lu n = decimal n := by
  unfold fmt_lu decimal Nat.toDigits
  exact nat_digits_eq_toDigits (n + 1) n []

theorem fmt_d_eq_decimal (code : Int) (h : 0 ≤ code) : fmt_d code = decimal code.toNat := by
  unfold fmt_d
  rw [if_neg (by omega)]
  have hn : code.natAbs = code.toNat := by omega
  rw [hn]
  exact fmt_lu_eq_decimal code.toNat
/-! ## Reply codec: the bytes of the frames -/

/-- C13 (failing input). For every non-negative code and every label,
the bytes that `send_error` writes are `ERR`, a space, the decimal code, a space, the
decimal byte length of the label, a space, the label and a newline, followed by one
more byte: the NUL that ends the C string.  `send_error` writes `size` bytes and
`size` counts the terminator, so a byte follows the newline. -/
theorem send_error_trailing_nul (code : Int) (label : Bytes) (hcode : 0 ≤ code) :
    send_error code label
      = lit "ERR " ++ decimal code.toNat ++ lit " " ++ decimal (strlen label) ++ lit " "
          ++ cstr label ++ lit "\n" ++ [0] := by
  rw [send_error_bytes, fmt_d_eq_decimal code hcode, fmt_lu_eq_decimal]

/-- C13 (instance). The bytes written for `ENOSYS` and "Unknown command." end with a
NUL after the newline. -/
theorem send_error_trailing_nul_witness :
    send_error ENOSYS (lit "Unknown command.")
      = lit "ERR 38 16 Unknown command.\n" ++ [0] := by
  have h := send_error_trailing_nul ENOSYS (lit "Unknown command.") (by decide)
  rw [h]
  decide

/-- C14. The bytes that `send_reply` writes for a length below 2^64 and data holding at
least `length` bytes: `REP 0` and a newline when the length is 0; otherwise `REP`, a
space, the decimal length, a space, the first `length` bytes of the data unchanged
and a newline.  Nothing of the payload is cut. -/
theorem send_reply_bytes (length : Nat) (data : Bytes)
    (hsize : length < 18446744073709551616) (hdata : length ≤ data.length) :
    send_reply length data
      = if length = 0 then lit "REP 0\n"
        else lit "REP " ++ decimal length ++ lit " " ++ data.take length ++ lit "\n" := by
  unfold send_reply
  by_cases h0 : length = 0
  · rw [if_pos h0, if_pos h0]
    decide
  · rw [if_neg h0, if_neg h0]
    have h128 : ¬ (128 : Nat) = 0 := by decide
    simp only [snprintf, if_neg h128]
    have hlen : (lit "REP" ++ lit " " ++ fmt_lu length ++ lit " ").length ≤ 127 := by
      have := fmt_lu_length length hsize
      have h3 : (lit "REP").length = 3 := rfl
      have h1 : (lit " ").length = 1 := rfl
      simp only [List.length_append, h3, h1]
      omega
    have htake : (lit "REP" ++ lit " " ++ fmt_lu length ++ lit " ").take (128 - 1)
        = lit "REP" ++ lit " " ++ fmt_lu length ++ lit " " :=
      List.take_of_length_le (by simpa using hlen)
    rw [htake, memcpy_from_all _ _ (by simp), List.take_left' rfl,
      memcpy_from_all data length hdata]
    have hnl : memcpy_from (lit "\n") 0 1 = lit "\n" := by decide
    have hrep : lit "REP" ++ lit " " = lit "REP " := by decide
    rw [hnl, hrep, fmt_lu_eq_decimal]

/-- C14 (instance). The frames for `Ok`, for three bytes that hold a NUL, a newline and
255, and for the length 0. -/
theorem send_reply_bytes_witness :
    send_reply 2 (lit "Ok") = lit "REP 2 Ok\n"
    ∧ send_reply 3 [0, 10, 255, 65] = lit "REP 3 " ++ [0, 10, 255] ++ lit "\n"
    ∧ send_reply 0 (lit "") = lit "REP 0\n" :=
  ⟨(send_reply_bytes 2 (lit "Ok") (by decide) (by decide)).trans (by decide),
   (send_reply_bytes 3 [0, 10, 255, 65] (by decide) (by decide)).trans (by decide),
   (send_reply_bytes 0 (lit "") (by decide) (by decide)).trans (by decide)⟩

/-! ## Lemmas on the list of names -/

theorem addsnprintf_append (t text : Bytes) :
    addsnprintf { string := some (t ++ [0]), size := t.length + 1, pos := t.length } text true
      = (0, { string := some (t ++ text ++ [0]), size := t.length + text.length + 1,
              pos := t.length + text.length }) := by
  rw [addsnprintf_result _ text true (by simp) (by simp) (Or.inl rfl)]
  cases text with
  | nil => simp
  | cons c cs =>
    have h : (c :: cs).length + t.length ≥ t.length + 1 := by simp; omega
    simp only [h, if_true, Option.getD_some]
    have ht : List.take t.length (t ++ [0]) = t := List.take_left' rfl
    rw [ht]
    simp only [Prod.mk.injEq, strbuf.mk.injEq, true_and]
    exact ⟨by omega, trivial⟩

theorem join_names_merge (t n : Bytes) (l : List Bytes) :
    join_names ((t ++ lit " " ++ n) :: l) = join_names (t :: n :: l) := by
  cases l with
  | nil => simp [join_names]
  | cons m l => simp [join_names, List.append_assoc]

theorem list_gpio_names_loop_append :
    ∀ (rest : List eris_api_gpio) (t : Bytes), t ≠ [] →
      list_gpio_names_loop
          { string := some (t ++ [0]), size := t.length + 1, pos := t.length } rest
        = { string := some (join_names (t :: rest.map (fun g => cstr g.name)) ++ [0]),
            size := (join_names (t :: rest.map (fun g => cstr g.name))).length + 1,
            pos := (join_names (t :: rest.map (fun g => cstr g.name))).length } := by
  intro rest
  induction rest with
  | nil => intro t _; simp [list_gpio_names_loop, join_names]
  | cons g rest ih =>
    intro t ht
    have hpos : t.length ≠ 0 := fun h => ht (List.length_eq_zero.1 h)
    rw [list_gpio_names_loop]
    simp only [hpos, ne_eq, not_false_eq_true, if_true]
    rw [addsnprintf_append]
    have h := addsnprintf_append (t ++ lit " ") (cstr g.name)
    simp only [List.length_append] at h
    simp only []
    rw [h]
    have h2 := ih (t ++ lit " " ++ cstr g.name) (by simp [ht])
    simp only [List.length_append] at h2
    rw [h2, join_names_merge, List.map_cons]

theorem cstr_ne_zero (s : Bytes) : ∀ c ∈ cstr s, c ≠ 0 := by
  intro c hc
  have := List.mem_takeWhile_imp hc
  simpa using this

theorem cstr_append_nul (t : Bytes) (h : ∀ c ∈ t, c ≠ 0) : cstr (t ++ [0]) = t := by
  induction t with
  | nil => rfl
  | cons a as ih =>
    have ha : a ≠ 0 := h a (by simp)
    rw [List.cons_append, cstr_cons, if_neg ha, ih (fun c hc => h c (by simp [hc]))]

theorem join_names_ne_zero (names : List Bytes) (h : ∀ n ∈ names, ∀ c ∈ n, c ≠ 0) :
    ∀ c ∈ join_names names, c ≠ 0 := by
  induction names with
  | nil => intro c hc; simp [join_names] at hc
  | cons n rest ih =>
    cases rest with
    | nil => intro c hc; exact h n (by simp) c (by simpa [join_names] using hc)
    | cons m rest =>
      intro c hc
      rw [join_names] at hc
      simp only [List.mem_append] at hc
      rcases hc with (hc | hc) | hc
      · exact h n (by simp) c hc
      · have : c = 32 := by simpa [lit] using hc
        omega
      · exact ih (fun n hn => h n (by simp [hn])) c hc

/-- When the first line of the table has a non-empty name, `list_gpio_names` and
`list_gpio` answer with the names of all the lines, in table order, joined by single
spaces. -/
theorem list_gpio_names_joined (g : eris_api_gpio) (rest : List eris_api_gpio)
    (hname : cstr g.name ≠ []) :
    list_gpio_names (g :: rest) []
      = .reply (g :: rest) [] (join_names ((g :: rest).map (fun g => cstr g.name))).length
          (join_names ((g :: rest).map (fun g => cstr g.name)) ++ [0])
    ∧ list_gpio (g :: rest)
      = { gpios := g :: rest,
          responses := [send_rest_response
            (join_names ((g :: rest).map (fun g => cstr g.name)) ++ [0])],
          calls := [], returned := true } := by
  have hloop : list_gpio_names_loop { string := none, size := 0, pos := 0 } (g :: rest)
      = { string := some (join_names ((g :: rest).map (fun g => cstr g.name)) ++ [0]),
          size := (join_names ((g :: rest).map (fun g => cstr g.name))).length + 1,
          pos := (join_names ((g :: rest).map (fun g => cstr g.name))).length } := by
    rw [list_gpio_names_loop]
    simp only [ne_eq, not_true_eq_false, if_false]
    rw [addsnprintf_first]
    simp only []
    rw [list_gpio_names_loop_append rest _ hname, List.map_cons]
  have hz := join_names_ne_zero ((g :: rest).map (fun g => cstr g.name)) (by
    intro n hn
    obtain ⟨x, _, rfl⟩ := List.mem_map.1 hn
    exact cstr_ne_zero x.name)
  constructor
  · unfold list_gpio_names
    rw [if_neg (by simp), hloop]
    simp only [strlen, cstr_append_nul _ hz]
  · unfold list_gpio
    rw [hloop]

/-! ## GPIO manager: the list of names -/

/-- C17 (failing input). With an empty table both servers answer "No
GPIO available." (`ENODEV` on TCP), and for the two named lines `GPIO17`, `GPIO18`
the request `REQ list-gpio-names` yields the frame `REP 13 GPIO17 GPIO18` and a
newline.  For a table of two lines whose first line has no name (its name is the
empty string) the payload is `GPIO18`, with no separator for two lines, on TCP
(frame `REP 6 GPIO18` and a newline) and on REST (status 200): the space is added
only once the text built so far is not empty. -/
theorem list_gpio_names_unnamed :
    list_gpio_names [] [] = .error [] ENODEV "No GPIO available."
    ∧ list_gpio [] = .error [] "No GPIO available." 400
    ∧ (serve Api_commands alloc_ok sample_kernel sample_gpios
        (lit "REQ list-gpio-names") 19).map (fun r => r.sent.map Sent.wire)
      = some [lit "REP 13 GPIO17 GPIO18\n"]
    ∧ sample_unnamed.map (fun g => cstr g.name) = [lit "", lit "GPIO18"]
    ∧ join_names (sample_unnamed.map (fun g => cstr g.name)) = lit " GPIO18"
    ∧ list_gpio_names sample_unnamed [] = .reply sample_unnamed [] 6 (lit "GPIO18" ++ [0])
    ∧ (serve Api_commands alloc_ok sample_kernel sample_unnamed
        (lit "REQ list-gpio-names") 19).map (fun r => r.sent.map Sent.wire)
      = some [lit "REP 6 GPIO18\n"]
    ∧ list_gpio sample_unnamed
      = { gpios := sample_unnamed, responses := [{ status := 200, body := lit "GPIO18" }],
          calls := [], returned := true } := by
  decide

/-! ## Lemmas on the paths of the REST server -/

theorem strcmp_eq_zero (a b : Bytes) : strcmp a b = 0 ↔ cstr a = cstr b := by
  induction a generalizing b with
  | nil =>
    cases b with
    | nil => simp [strcmp]
    | cons y ys =>
      by_cases hy : y = 0
      · subst hy; simp [strcmp, cstr_cons, cstr_nil]
      · simp [strcmp, cstr_cons, cstr_nil, hy]
  | cons x xs ih =>
    cases b with
    | nil =>
      by_cases hx : x = 0
      · subst hx; simp [strcmp, cstr_cons, cstr_nil]
      · simp [strcmp, cstr_cons, cstr_nil, hx]
    | cons y ys =>
      by_cases hxy : x = y
      · subst hxy
        by_cases hx : x = 0
        · subst hx; simp [strcmp, cstr_cons]
        · simp [strcmp, cstr_cons, hx, ih ys]
      · have hne : (x : Int) - (y : Int) ≠ 0 := by omega
        by_cases hx : x = 0
        · subst hx
          have hy : y ≠ 0 := fun h => hxy h.symm
          simp [strcmp, cstr_cons, hy, hxy, hne]
        · by_cases hy : y = 0
          · subst hy
            simp [strcmp, cstr_cons, hx, hxy, hne]
          · simp [strcmp, cstr_cons, hx, hy, hxy, hne]

theorem strcasecmp_api_ne (url : Bytes) (h : begins_with url (lit "/api/gpio")) :
    strcasecmp url (lit "/api") ≠ 0 := by
  unfold begins_with at h
  rcases url with _ | ⟨a, _ | ⟨b, _ | ⟨c, _ | ⟨d, _ | ⟨e, rest⟩⟩⟩⟩⟩
  · revert h; decide
  · simp [lit] at h
  · simp [lit] at h
  · simp [lit] at h
  · simp [lit] at h
  · have h5 : [tolower a, tolower b, tolower c, tolower d, tolower e]
        = [47, 97, 112, 105, 47] := by
      have := congrArg (List.take 5) h
      simpa [lit, tolower] using this
    simp only [List.cons.injEq, and_true] at h5
    obtain ⟨ha, hb, hc, hd, he⟩ := h5
    have hz : ∀ x v : Nat, tolower x = v → v ≠ 0 → x ≠ 0 := by
      intro x v hx hv h0
      subst h0
      exact hv (by rw [← hx]; rfl)
    have ha0 := hz a 47 ha (by decide)
    have hb0 := hz b 97 hb (by decide)
    have hc0 := hz c 112 hc (by decide)
    have hd0 := hz d 105 hd (by decide)
    have ht : tolower 47 = 47 ∧ tolower 97 = 97 ∧ tolower 112 = 112 ∧ tolower 105 = 105 := by
      decide
    have hl : lit "/api" = [47, 97, 112, 105] := by decide
    rw [hl]
    simp only [strcasecmp, ha, hb, hc, hd, he, ht.1, ht.2.1, ht.2.2.1, ht.2.2.2, ne_eq,
      not_true_eq_false, if_false, ha0, hb0, hc0, hd0]
    decide

/-! ## REST server: a request that selects no GPIO operation -/

/-- C20 (counterexample). The requests POST /api/gpio, DELETE /api/gpio/value and GET
/api/gpio/unknown get no response from the handler, hence no response with status
501: `gpio_rest_api` falls through its tests and returns `MHD_NO` without queuing
anything. -/
theorem rest_no_operation_unanswered :
    eris_rest_api_handler (fun _ _ _ _ => none) sample_kernel sample_gpios
        (sample_query none none none none) (lit "/api/gpio") (lit "POST") = none
    ∧ eris_rest_api_handler (fun _ _ _ _ => none) sample_kernel sample_gpios
        (sample_query (some (lit "GPIO17")) none none none) (lit "/api/gpio/value")
        (lit "DELETE") = none
    ∧ eris_rest_api_handler (fun _ _ _ _ => none) sample_kernel sample_gpios
        (sample_query none none none none) (lit "/api/gpio/unknown") (lit "GET") = none := by
  decide

/-- C20 (amended). In the REST server, a request whose path begins with `/api/gpio`
(case being ignored) and whose path and method select none of the six GPIO
operations gets no response: whatever the other modules, the kernel, the table and
the query arguments, the handler queues nothing and returns `MHD_NO`. -/
theorem gpio_no_operation
    (other_modules : List eris_api_gpio → MHD_Connection → Bytes → Bytes → Option RestOutcome)
    (k : Gpiod) (gpios : List eris_api_gpio) (connection : MHD_Connection)
    (url method : Bytes) (hurl : begins_with url (lit "/api/gpio"))
    (hno : ¬ gpio_operation url method) :
    eris_rest_api_handler other_modules k gpios connection url method = none := by
  have h1 := strcasecmp_api_ne url hurl
  have h2 : strncasecmp url (lit "/api/gpio") 9 = 0 :=
    (strncasecmp_eq_zero (lit "/api/gpio") (by decide) url).2 hurl
  have hget : cstr (lit "GET") = lit "GET" := by decide
  have hdel : cstr (lit "DELETE") = lit "DELETE" := by decide
  have hput : cstr (lit "PUT") = lit "PUT" := by decide
  have hu : ∀ p : Bytes, strcasecmp url p = 0 → eq_ignoring_case url p :=
    fun p h => (strcasecmp_eq_zero url p).1 h
  have hm : ∀ w : Bytes, cstr w = w → strcmp method w = 0 → cstr method = w :=
    fun w hw h => ((strcmp_eq_zero method w).1 h).trans hw
  unfold gpio_operation at hno
  simp only [not_or, not_and] at hno
  obtain ⟨hlist, hgpio, hvalue, hedge⟩ := hno
  unfold eris_rest_api_handler
  rw [if_neg h1, if_pos h2]
  unfold gpio_rest_api
  rw [if_neg (fun h => hlist (hu _ h.1) (hm _ hget h.2)),
    if_neg (fun h => (hgpio (hu _ h.1)).1 (hm _ hget h.2)),
    if_neg (fun h => (hgpio (hu _ h.1)).2 (hm _ hdel h.2)),
    if_neg (fun h => (hvalue (hu _ h.1)).1 (hm _ hget h.2)),
    if_neg (fun h => (hvalue (hu _ h.1)).2 (hm _ hput h.2)),
    if_neg (fun h => hedge (hu _ h.1) (hm _ hget h.2))]

/-- C20 (instance). PUT on `/API/GPIO/list` selects no operation and gets no response. -/
theorem gpio_no_operation_witness :
    eris_rest_api_handler (fun _ _ _ _ => some (list_gpio sample_gpios)) sample_kernel
      sample_gpios (sample_query none none none none) (lit "/API/GPIO/list") (lit "PUT")
        = none :=
  gpio_no_operation _ sample_kernel sample_gpios (sample_query none none none none)
    (lit "/API/GPIO/list") (lit "PUT") (by unfold begins_with; decide)
    (by unfold gpio_operation eq_ignoring_case; decide)

/-! ## Lemmas on the closing words and the request prefix -/

theorem begins_with_of_take (buffer w : Bytes) (lg : Nat)
    (h : begins_with (buffer.take lg) w) : begins_with buffer w := by
  unfold begins_with at *
  have hlen := congrArg List.length h
  simp only [List.length_map, List.length_take] at hlen
  rw [List.take_take] at h
  rw [Nat.min_eq_left (by omega)] at h
  exact h

theorem begins_with_take (buffer w : Bytes) (lg : Nat) (h : w.length ≤ lg) :
    begins_with (buffer.take lg) w ↔ begins_with buffer w := by
  unfold begins_with
  rw [List.take_take, Nat.min_eq_left h]

theorem decode_close_iff (alloc : Nat → Bool) (buffer : Bytes) (lg : Nat) (h0 : lg ≠ 0) :
    decode alloc buffer lg = .close []
      ↔ begins_with buffer (lit "BYE") ∨ begins_with buffer (lit "QUIT") := by
  have hb := strncasecmp_eq_zero (lit "BYE") (by decide) buffer
  have hq := strncasecmp_eq_zero (lit "QUIT") (by decide) buffer
  have hbl : strlen (lit "BYE") = (lit "BYE").length := by decide
  have hql : strlen (lit "QUIT") = (lit "QUIT").length := by decide
  unfold decode
  rw [if_neg h0, hbl, hql]
  by_cases h1 : strncasecmp buffer (lit "BYE") (lit "BYE").length = 0
        ∨ strncasecmp buffer (lit "QUIT") (lit "QUIT").length = 0
  · rw [if_pos h1]
    rw [hb, hq] at h1
    exact ⟨fun _ => h1, fun _ => rfl⟩
  · rw [if_neg h1]
    rw [hb, hq] at h1
    refine ⟨fun h => ?_, fun h => absurd h h1⟩
    exfalso
    revert h
    by_cases h2 : lg ≤ 4 ∨ strncasecmp buffer (lit "REQ ") (strlen (lit "REQ ")) ≠ 0
    · rw [if_pos h2]; intro h; cases h
    rw [if_neg h2]
    simp only []
    by_cases h3 : skip_spaces buffer lg (0 + strlen (lit "REQ ")) = lg
    · rw [if_pos h3]; intro h; cases h
    rw [if_neg h3]
    by_cases h4 : skip_word buffer lg (skip_spaces buffer lg (0 + strlen (lit "REQ ")))
        = skip_spaces buffer lg (0 + strlen (lit "REQ "))
    · rw [if_pos h4]; intro h; cases h
    rw [if_neg h4]
    split_ifs with h5
    · intro h; cases h
    · split <;> (intro h; cases h)

theorem decode_not_close (alloc : Nat → Bool) (buffer : Bytes) (lg : Nat) (h0 : lg ≠ 0)
    (hb : ¬ begins_with buffer (lit "BYE")) (hq : ¬ begins_with buffer (lit "QUIT"))
    (halloc : ∀ n, alloc n = true) : ∀ sent, decode alloc buffer lg ≠ .close sent := by
  have hb1 : ¬ strncasecmp buffer (lit "BYE") (strlen (lit "BYE")) = 0 := fun h =>
    hb ((strncasecmp_eq_zero (lit "BYE") (by decide) buffer).1 h)
  have hq1 : ¬ strncasecmp buffer (lit "QUIT") (strlen (lit "QUIT")) = 0 := fun h =>
    hq ((strncasecmp_eq_zero (lit "QUIT") (by decide) buffer).1 h)
  intro sent
  unfold decode
  rw [if_neg h0, if_neg (by rintro (h | h); exact hb1 h; exact hq1 h)]
  by_cases h2 : lg ≤ 4 ∨ strncasecmp buffer (lit "REQ ") (strlen (lit "REQ ")) ≠ 0
  · rw [if_pos h2]; intro h; cases h
  rw [if_neg h2]
  simp only []
  by_cases h3 : skip_spaces buffer lg (0 + strlen (lit "REQ ")) = lg
  · rw [if_pos h3]; intro h; cases h
  rw [if_neg h3]
  by_cases h4 : skip_word buffer lg (skip_spaces buffer lg (0 + strlen (lit "REQ ")))
      = skip_spaces buffer lg (0 + strlen (lit "REQ "))
  · rw [if_pos h4]; intro h; cases h
  rw [if_neg h4, if_neg (by simp [halloc])]
  split <;> (intro h; cases h)

theorem decode_protocol_error (alloc : Nat → Bool) (buffer : Bytes) (lg : Nat) (h0 : lg ≠ 0)
    (hb : ¬ begins_with buffer (lit "BYE")) (hq : ¬ begins_with buffer (lit "QUIT"))
    (hr : lg ≤ 4 ∨ ¬ begins_with buffer (lit "REQ ")) :
    decode alloc buffer lg = .refused [.error EPROTO (lit "Request must start by `REQ`.")] := by
  have hb1 : ¬ strncasecmp buffer (lit "BYE") (strlen (lit "BYE")) = 0 := fun h =>
    hb ((strncasecmp_eq_zero (lit "BYE") (by decide) buffer).1 h)
  have hq1 : ¬ strncasecmp buffer (lit "QUIT") (strlen (lit "QUIT")) = 0 := fun h =>
    hq ((strncasecmp_eq_zero (lit "QUIT") (by decide) buffer).1 h)
  have hr1 : lg ≤ 4 ∨ strncasecmp buffer (lit "REQ ") (strlen (lit "REQ ")) ≠ 0 := by
    rcases hr with h | h
    · exact Or.inl h
    · exact Or.inr (fun h1 => h ((strncasecmp_eq_zero (lit "REQ ") (by decide) buffer).1 h1))
  unfold decode
  rw [if_neg h0, if_neg (by rintro (h | h); exact hb1 h; exact hq1 h), if_pos hr1]

theorem begins_with_head (a b : Nat) (rest w : Bytes)
    (h : begins_with (a :: rest) (b :: w)) : tolower a = tolower b := by
  unfold begins_with at h
  simp only [List.length_cons, List.take_succ_cons, List.map_cons, List.cons.injEq] at h
  exact h.1

/-- When the received bytes give neither `BYE` nor `QUIT` at the start of the array,
a buffer of at most four bytes, or one that does not begin with `REQ` and a space,
is answered with the protocol error and the server reads on. -/
theorem serve_protocol_error (cmds : List (api_command_t Handler)) (alloc : Nat → Bool)
    (k : Gpiod) (gpios : List eris_api_gpio) (buffer : Bytes) (lg : Nat) (h0 : lg ≠ 0)
    (hb : ¬ begins_with buffer (lit "BYE")) (hq : ¬ begins_with buffer (lit "QUIT"))
    (hr : lg ≤ 4 ∨ ¬ begins_with buffer (lit "REQ ")) :
    serve cmds alloc k gpios buffer lg
      = some { gpios := gpios, sent := [.error EPROTO (lit "Request must start by `REQ`.")],
               calls := [], reads_next := true } := by
  simp only [serve, decode_protocol_error alloc buffer lg h0 hb hq hr]

/-! ## TCP session: closing words and protocol errors -/

/-- C15 (counterexample). The buffers `byebug` and `QUITE right` (each with a newline),
whose leading token is neither `BYE` nor `QUIT`, end the session with no frame; the
buffer ` bye` (a space first), whose leading token is `bye`, does not end it: the
server answers with the protocol error and reads on. -/
theorem session_end_not_exact_token :
    serve Api_commands alloc_ok sample_kernel sample_gpios (lit "byebug\n") 7
      = some { gpios := sample_gpios, sent := [], calls := [], reads_next := false }
    ∧ serve Api_commands alloc_ok sample_kernel sample_gpios (lit "QUITE right\n") 12
      = some { gpios := sample_gpios, sent := [], calls := [], reads_next := false }
    ∧ serve Api_commands alloc_ok sample_kernel sample_gpios (lit " bye\n") 5
      = some { gpios := sample_gpios,
               sent := [.error EPROTO (lit "Request must start by `REQ`.")],
               calls := [], reads_next := true } := by
  decide

/-- C15 (amended). A received buffer whose first three bytes are `BYE` or whose first
four bytes are `QUIT`, case being ignored, ends the TCP session with no frame written
and no handler called, whatever follows these letters.  For a buffer of at least four
bytes this is the only way the decoder ends the session without a frame; and when
the allocations succeed, every other buffer of at least four bytes does not end the
session at the decoder: it is answered with a protocol error or decoded as a
request (or a declared argument length takes the copy of an argument past the
received bytes). -/
theorem session_end (cmds : List (api_command_t Handler)) (alloc : Nat → Bool) (k : Gpiod)
    (gpios : List eris_api_gpio) (buffer : Bytes) (lg : Nat) :
    (begins_with (buffer.take lg) (lit "BYE") ∨ begins_with (buffer.take lg) (lit "QUIT") →
      serve cmds alloc k gpios buffer lg
        = some { gpios := gpios, sent := [], calls := [], reads_next := false })
    ∧ (4 ≤ lg →
        (decode alloc buffer lg = .close []
          ↔ begins_with (buffer.take lg) (lit "BYE")
            ∨ begins_with (buffer.take lg) (lit "QUIT")))
    ∧ (4 ≤ lg → ¬ begins_with (buffer.take lg) (lit "BYE") →
        ¬ begins_with (buffer.take lg) (lit "QUIT") → (∀ n, alloc n = true) →
        (∃ e, decode alloc buffer lg = .refused [e] ∧ e.is_frame = true)
        ∨ (∃ command argv sent, decode alloc buffer lg = .request command argv sent)
        ∨ (∃ command argv p len, decode alloc buffer lg = .overrun command argv p len)) := by
  refine ⟨fun h => ?_, fun hlg => ?_, fun hlg hb hq halloc => ?_⟩
  · have h1 : begins_with buffer (lit "BYE") ∨ begins_with buffer (lit "QUIT") :=
      h.imp (begins_with_of_take buffer _ lg) (begins_with_of_take buffer _ lg)
    by_cases h0 : lg = 0
    · simp [serve, decode, h0]
    · have hd := (decode_close_iff alloc buffer lg h0).2 h1
      simp only [serve, hd]
  · rw [decode_close_iff alloc buffer lg (by omega),
      begins_with_take buffer (lit "BYE") lg (by simpa [lit] using (by omega : 3 ≤ lg)),
      begins_with_take buffer (lit "QUIT") lg (by simpa [lit] using hlg)]
  · rw [begins_with_take buffer (lit "BYE") lg (by simpa [lit] using (by omega : 3 ≤ lg))] at hb
    rw [begins_with_take buffer (lit "QUIT") lg (by simpa [lit] using hlg)] at hq
    have hn := decode_not_close alloc buffer lg (by omega) hb hq halloc
    rcases decode_cases alloc buffer lg with ⟨sent, h⟩ | ⟨e, h⟩ | ⟨c, a, h | h⟩ | ⟨c, a, p, l, h, _⟩
    · exact absurd h (hn sent)
    · exact Or.inl ⟨e, h⟩
    · exact Or.inr (Or.inl ⟨c, a, _, h⟩)
    · exact Or.inr (Or.inl ⟨c, a, _, h⟩)
    · exact Or.inr (Or.inr ⟨c, a, p, l, h⟩)

/-- C15 (instance). `Bye` ends the session; `REQ help` (9 bytes) is not ended by the
decoder. -/
theorem session_end_witness :
    serve Api_commands alloc_ok sample_kernel sample_gpios (lit "Bye\n") 4
      = some { gpios := sample_gpios, sent := [], calls := [], reads_next := false }
    ∧ decode alloc_ok (lit "REQ help\n") 9 ≠ .close [] :=
  ⟨(session_end Api_commands alloc_ok sample_kernel sample_gpios (lit "Bye\n") 4).1
      (Or.inl (by unfold begins_with; decide)),
   fun h => absurd
     (((session_end Api_commands alloc_ok sample_kernel sample_gpios
        (lit "REQ help\n") 9).2.1 (by decide)).1 h)
     (by unfold begins_with; decide)⟩

/-- C16 (failing input). On one connection, whatever the array held
before, the server first receives the three bytes `xxe` and answers with the
protocol error; it then receives the two bytes `by`, which begin with neither `BYE`
nor `QUIT` nor `REQ` and a space.  The array now holds `bye`, the third byte being
left from the first read, and the comparison with `BYE` does not look at the number
of bytes received: the session ends with no frame at all. -/
theorem stale_bytes_end_session (array : Bytes) :
    serve Api_commands alloc_ok sample_kernel sample_gpios (read_into array (lit "xxe")) 3
      = some { gpios := sample_gpios,
               sent := [.error EPROTO (lit "Request must start by `REQ`.")],
               calls := [], reads_next := true }
    ∧ ¬ begins_with (lit "by") (lit "BYE") ∧ ¬ begins_with (lit "by") (lit "QUIT")
    ∧ ¬ begins_with (lit "by") (lit "REQ ")
    ∧ (read_into (read_into array (lit "xxe")) (lit "by")).take 3 = lit "bye"
    ∧ serve Api_commands alloc_ok sample_kernel sample_gpios
        (read_into (read_into array (lit "xxe")) (lit "by")) 2
      = some { gpios := sample_gpios, sent := [], calls := [], reads_next := false } := by
  have e1 : read_into array (lit "xxe") = lit "xxe" ++ array.drop 3 := rfl
  have e2 : read_into (read_into array (lit "xxe")) (lit "by") = lit "bye" ++ array.drop 3 :=
    rfl
  have t1 : ∀ w : Bytes, w.length ≤ 3 →
      (begins_with (lit "xxe" ++ array.drop 3) w ↔ begins_with (lit "xxe") w) := by
    intro w hw
    unfold begins_with
    rw [List.take_append_of_le_length (by simpa [lit] using hw)]
  have t2 : begins_with (lit "bye" ++ array.drop 3) (lit "BYE") := by
    have hl : (lit "BYE").length = 3 := rfl
    have ht : List.take 3 (lit "bye" ++ array.drop 3) = lit "bye" := List.take_left' rfl
    unfold begins_with
    rw [hl, ht]
    decide
  refine ⟨?_, by unfold begins_with; decide, by unfold begins_with; decide,
    by unfold begins_with; decide, ?_, ?_⟩
  · rw [e1]
    refine serve_protocol_error _ _ _ _ _ 3 (by decide) ?_ ?_ (Or.inl (by decide))
    · rw [t1 _ (by decide)]; unfold begins_with; decide
    · intro h
      exact absurd (begins_with_head 120 81 _ _ h) (by decide)
  · rw [e2]; exact List.take_left' rfl
  · rw [e2]
    have hd := (decode_close_iff alloc_ok (lit "bye" ++ array.drop 3) 2 (by decide)).2
      (Or.inl t2)
    simp only [serve, hd]

/-! ## Growable string buffer: no truncation -/

/-- C23. `addsnprintf` does not truncate.  For a buffer state that is the initial one
(string NULL, size 0, pos 0) or has an array of `size` bytes with `pos < size`, and
for every text: the call succeeds when `realloc` succeeds or is not needed; a call
that does not succeed returns -1 and leaves the three variables as they were; after
a successful call the array has the new `size` bytes, its first `pos` bytes are
unchanged, the text stands in full at offset `pos` followed by a NUL, `pos` has
advanced by the length of the text and is below `size` again, and `size` is at least
the old `pos` plus the length of the text plus 1.  The copy in the REST server gives
the same result. -/
theorem addsnprintf_never_truncates (b : strbuf) (text : Bytes) (realloc_ok : Bool)
    (hb : b = { string := none, size := 0, pos := 0 }
      ∨ ∃ s, b.string = some s ∧ s.length = b.size ∧ b.pos < b.size) :
    ((realloc_ok = true ∨ text.length + b.pos < b.size) →
      (addsnprintf b text realloc_ok).1 = 0)
    ∧ ((addsnprintf b text realloc_ok).1 ≠ 0 → addsnprintf b text realloc_ok = (-1, b))
    ∧ ((addsnprintf b text realloc_ok).1 = 0 →
      ∃ s1, (addsnprintf b text realloc_ok).2.string = some s1
        ∧ s1.length = (addsnprintf b text realloc_ok).2.size
        ∧ s1.take b.pos = (b.string.getD []).take b.pos
        ∧ (s1.drop b.pos).take (text.length + 1) = text ++ [0]
        ∧ (addsnprintf b text realloc_ok).2.pos = b.pos + text.length
        ∧ (addsnprintf b text realloc_ok).2.pos < (addsnprintf b text realloc_ok).2.size
        ∧ b.pos + text.length + 1 ≤ (addsnprintf b text realloc_ok).2.size
        ∧ b.size ≤ (addsnprintf b text realloc_ok).2.size)
    ∧ rest_addsnprintf b text realloc_ok = addsnprintf b text realloc_ok := by
  have hlen : (b.string.getD []).length = b.size := by
    rcases hb with h | ⟨s, hs, hl, _⟩
    · rw [h]; rfl
    · rw [hs]; exact hl
  have hpos : b.pos ≤ b.size := by
    rcases hb with h | ⟨s, _, _, hp⟩
    · rw [h]
    · omega
  have hta : ((b.string.getD []).take b.pos).length = b.pos := by
    rw [List.length_take]; omega
  by_cases hok : realloc_ok = true ∨ text.length + b.pos < b.size
  · have hr := addsnprintf_result b text realloc_ok hlen hpos hok
    refine ⟨fun _ => by rw [hr], fun h => absurd (by rw [hr]) h, fun _ => ?_, rfl⟩
    rw [hr]
    by_cases hg : text.length + b.pos ≥ b.size
    · rw [if_pos hg]
      refine ⟨_, rfl, ?_, ?_, ?_, rfl, ?_, ?_, ?_⟩
      · simp only [List.length_append, hta, List.length_singleton]; omega
      · rw [List.append_assoc]; exact List.take_left' hta
      · rw [List.append_assoc, List.drop_left' hta]
        exact List.take_of_length_le (by simp)
      · show b.pos + text.length < text.length + b.pos + 1
        omega
      · show b.pos + text.length + 1 ≤ text.length + b.pos + 1
        omega
      · show b.size ≤ text.length + b.pos + 1
        omega
    · rw [if_neg hg]
      refine ⟨_, rfl, ?_, ?_, ?_, rfl, ?_, ?_, Nat.le_refl _⟩
      · simp only [List.length_append, hta, List.length_singleton, List.length_drop, hlen]
        show b.pos + text.length + 1 + (b.size - (b.pos + text.length + 1)) = b.size
        omega
      · rw [List.append_assoc, List.append_assoc]; exact List.take_left' hta
      · rw [List.append_assoc, List.append_assoc, List.drop_left' hta,
          ← List.append_assoc]
        exact List.take_left' (by simp)
      · show b.pos + text.length < b.size
        omega
      · show b.pos + text.length + 1 ≤ b.size
        omega
  · have hf : realloc_ok = false ∧ text.length + b.pos ≥ b.size := by
      constructor
      · cases realloc_ok
        · rfl
        · exact absurd (Or.inl rfl) hok
      · by_contra h
        exact hok (Or.inr (by omega))
    have hr : addsnprintf b text realloc_ok = (-1, b) := by
      unfold addsnprintf
      simp only []
      rw [if_pos ⟨hf.2, hf.1⟩]
    refine ⟨fun h => absurd h hok, fun _ => hr, fun h => ?_, rfl⟩
    rw [hr] at h
    have hne : ((-1 : Int), b).1 ≠ 0 := by
      show (-1 : Int) ≠ 0
      decide
    exact absurd h hne

/-- C23 (instance). From the initial state the text `GPIO17` is stored in full with its
NUL in an array of 7 bytes; appending ` GPIO18` to that state grows the array to 14
bytes and keeps `GPIO17` in front. -/
theorem addsnprintf_never_truncates_witness :
    addsnprintf { string := none, size := 0, pos := 0 } (lit "GPIO17") true
      = (0, { string := some (lit "GPIO17" ++ [0]), size := 7, pos := 6 })
    ∧ ∃ s1, (addsnprintf { string := some (lit "GPIO17" ++ [0]), size := 7, pos := 6 }
          (lit " GPIO18") true).2.string = some s1
        ∧ (s1.drop 6).take 8 = lit " GPIO18" ++ [0]
        ∧ s1.take 6 = lit "GPIO17" :=
  ⟨by decide,
   have h := (addsnprintf_never_truncates
     { string := some (lit "GPIO17" ++ [0]), size := 7, pos := 6 } (lit " GPIO18") true
     (Or.inr ⟨lit "GPIO17" ++ [0], rfl, rfl, by decide⟩)).2.2.1 (by decide)
   h.imp (fun s1 hs => ⟨hs.1, hs.2.2.2.1, hs.2.2.1.trans (by decide)⟩)⟩

/-! ## Lemmas on the routing of the update module -/

theorem strcasecmp_other_path (url a b : Bytes) (ha : eq_ignoring_case url a)
    (hab : (cstr a).map tolower ≠ (cstr b).map tolower) : ¬ strcasecmp url b = 0 := by
  intro h
  have hb := (strcasecmp_eq_zero url b).1 h
  unfold eq_ignoring_case at ha hb
  exact hab (ha.symm.trans hb)

/-- In the REST server, POST on `/api/update/rollback` and on `/api/update/factory`
(the path compared ignoring case) is answered with status 501 "Feature not
implemented yet.", whatever the other handlers answer. -/
theorem update_rest_api_not_implemented (handlers : String → Response) (url method : Bytes)
    (hm : cstr method = lit "POST") :
    (eq_ignoring_case url (lit "/api/update/rollback") →
      update_rest_api handlers url method
        = some { status := 501, body := lit "Feature not implemented yet." })
    ∧ (eq_ignoring_case url (lit "/api/update/factory") →
      update_rest_api handlers url method
        = some { status := 501, body := lit "Feature not implemented yet." }) := by
  have hpost : strcmp method (lit "POST") = 0 :=
    (strcmp_eq_zero method (lit "POST")).2 (hm.trans (by decide))
  constructor
  · intro hu
    have hyes : strcasecmp url (lit "/api/update/rollback") = 0 :=
      (strcasecmp_eq_zero url _).2 hu
    unfold update_rest_api
    rw [if_neg (fun h => strcasecmp_other_path url _ _ hu (by decide) h.1),
      if_neg (fun h => strcasecmp_other_path url _ _ hu (by decide) h.1),
      if_neg (fun h => strcasecmp_other_path url _ _ hu (by decide) h.1),
      if_neg (fun h => strcasecmp_other_path url _ _ hu (by decide) h.1),
      if_neg (fun h => strcasecmp_other_path url _ _ hu (by decide) h.1),
      if_neg (fun h => strcasecmp_other_path url _ _ hu (by decide) h.1),
      if_pos ⟨hyes, hpost⟩]
    decide
  · intro hu
    have hyes : strcasecmp url (lit "/api/update/factory") = 0 :=
      (strcasecmp_eq_zero url _).2 hu
    unfold update_rest_api
    rw [if_neg (fun h => strcasecmp_other_path url _ _ hu (by decide) h.1),
      if_neg (fun h => strcasecmp_other_path url _ _ hu (by decide) h.1),
      if_neg (fun h => strcasecmp_other_path url _ _ hu (by decide) h.1),
      if_neg (fun h => strcasecmp_other_path url _ _ hu (by decide) h.1),
      if_neg (fun h => strcasecmp_other_path url _ _ hu (by decide) h.1),
      if_neg (fun h => strcasecmp_other_path url _ _ hu (by decide) h.1),
      if_neg (fun h => strcasecmp_other_path url _ _ hu (by decide) h.1),
      if_pos ⟨hyes, hpost⟩]
    decide

/-! ## Commands that are not implemented -/

/-- C21 (failing input). In the TCP server `restore-factory-preset` called with no
argument sends the reply frame `REP 16 Not implemented.` and a newline, a success
frame and no error frame; with an argument it sends an `EINVAL` error.  In the REST
server POST on `/api/update/rollback` and on `/api/update/factory` is answered with
status 501. -/
theorem restore_factory_preset_replies :
    restore_factory_preset [] = [.reply 16 (lit "Not implemented.")]
    ∧ (restore_factory_preset []).map Sent.wire = [lit "REP 16 Not implemented.\n"]
    ∧ (∀ s ∈ restore_factory_preset [], ∀ code label, s ≠ .error code label)
    ∧ restore_factory_preset [lit "now"]
      = [.error EINVAL (lit "restore-factory-preset doesn't take any argument.")]
    ∧ update_rest_api (fun _ => send_rest_response (lit "Ok")) (lit "/api/update/rollback")
        (lit "POST") = some { status := 501, body := lit "Feature not implemented yet." }
    ∧ update_rest_api (fun _ => send_rest_response (lit "Ok")) (lit "/api/update/factory")
        (lit "POST") = some { status := 501, body := lit "Feature not implemented yet." } := by
  refine ⟨by decide, by decide, ?_, by decide, by decide, by decide⟩
  intro s hs code label h
  have h0 : restore_factory_preset [] = [.reply 16 (lit "Not implemented.")] := by decide
  rw [h0, List.mem_singleton] at hs
  rw [hs] at h
  cases h

/-! ## Lemmas on the client library -/

theorem perform_request_result (answer : Option curl_answer) (reply : Bytes) (size : Nat)
    (hcode : ∀ a, answer = some a → 0 ≤ a.http_code ∧ a.http_code ≤ 999) :
    (perform_request answer reply size).1 ≤ 0 := by
  unfold perform_request
  cases answer with
  | none => simp
  | some a =>
    obtain ⟨h0, h1⟩ := hcode a rfl
    simp only []
    by_cases hb : a.body.length = 0
    · rw [if_pos hb]
    · rw [if_neg hb]
      show (if a.http_code ≠ 200 then to_int32 (- a.http_code) else 0) ≤ 0
      by_cases hc : a.http_code ≠ 200
      · rw [if_pos hc]
        unfold to_int32
        omega
      · rw [if_neg hc]

/-! ## Client library: the error number after a refused request -/

/-- C22 (failing input). When the server answers with a status between 0 and 999,
`eris_request_gpio_for_input` called with a non-null name returns with `errno` as it
was on entry: `perform_request` returns the status negated, and the tests against
400, 403, 404 and 500 compare it with the positive values, so none of them holds.
The result is 0 or -1. -/
theorem eris_request_gpio_for_input_errno (server : Bytes → Bytes → Option curl_answer)
    (reply : Bytes) (errno : Int) (name : Bytes)
    (hcode : ∀ url method a, server url method = some a →
      0 ≤ a.http_code ∧ a.http_code ≤ 999) :
    (eris_request_gpio_for_input server reply errno (some name)).2 = errno
    ∧ ((eris_request_gpio_for_input server reply errno (some name)).1 = 0
      ∨ (eris_request_gpio_for_input server reply errno (some name)).1 = -1) := by
  unfold eris_request_gpio_for_input
  simp only []
  generalize hr : perform_request _ reply 128 = r
  have hle : r.1 ≤ 0 := by
    rw [← hr]
    exact perform_request_result _ reply 128 (fun a ha => hcode _ _ a ha)
  split_ifs with h1 h2 h3 h4 h5
  · exact ⟨rfl, Or.inl rfl⟩
  · omega
  · omega
  · omega
  · omega
  · exact ⟨rfl, Or.inr rfl⟩

/-- C22 (instance). With `errno` 0 on entry: the answers 403, 400, 404 and 500 of the
server give -1 and leave `errno` at 0 (not `EALREADY`, `EINVAL`, `ENODEV`, `EIO`);
the answer 200 `Ok` gives 0, the answer 200 `Okay` gives -1. -/
theorem eris_request_gpio_for_input_errno_witness :
    (eris_request_gpio_for_input
        (sample_server 403 (lit "GPIO line is already reserved by Eris API."))
        (List.replicate 128 0) 0 (some (lit "GPIO17"))).2 = 0
    ∧ eris_request_gpio_for_input
        (sample_server 403 (lit "GPIO line is already reserved by Eris API."))
        (List.replicate 128 0) 0 (some (lit "GPIO17")) = (-1, 0)
    ∧ eris_request_gpio_for_input (sample_server 400 (lit "Invalid direction"))
        (List.replicate 128 0) 0 (some (lit "GPIO17")) = (-1, 0)
    ∧ eris_request_gpio_for_input (sample_server 404 (lit "Unknown GPIO name."))
        (List.replicate 128 0) 0 (some (lit "GPIO17")) = (-1, 0)
    ∧ eris_request_gpio_for_input (sample_server 500 (lit "Memory allocation error."))
        (List.replicate 128 0) 0 (some (lit "GPIO17")) = (-1, 0)
    ∧ eris_request_gpio_for_input (sample_server 200 (lit "Ok"))
        (List.replicate 128 0) 0 (some (lit "GPIO17")) = (0, 0)
    ∧ eris_request_gpio_for_input (sample_server 200 (lit "Okay"))
        (List.replicate 128 0) 0 (some (lit "GPIO17")) = (-1, 0) :=
  ⟨(eris_request_gpio_for_input_errno
      (sample_server 403 (lit "GPIO line is already reserved by Eris API."))
      (List.replicate 128 0) 0 (lit "GPIO17") (by
        intro url method a h
        simp only [sample_server, Option.some.injEq] at h
        rw [← h]
        exact ⟨by decide, by decide⟩)).1,
   by decide, by decide, by decide, by decide, by decide, by decide⟩

/-! ## Lemmas on the edge-wait loop -/

theorem edge_found_nil (evtype : edge_event_type) : ¬ edge_found evtype [] := by
  rintro ⟨i, s, events, h, _⟩
  simp at h

theorem edge_found_cons (evtype : edge_event_type) (s : edge_step) (rest : List edge_step) :
    edge_found evtype (s :: rest)
      ↔ 0 < s.wait ∧ ∃ batch, s.read = some batch
          ∧ (evtype ∈ batch ∨ (batch ≠ [] ∧ edge_found evtype rest)) := by
  constructor
  · rintro ⟨i, t, events, hi, hw, hr, hmem, hbefore⟩
    cases i with
    | zero =>
      simp only [List.getElem?_cons_zero, Option.some.injEq] at hi
      subst hi
      exact ⟨hw, events, hr, Or.inl hmem⟩
    | succ i =>
      obtain ⟨t0, batch, h0, hw0, hr0, hne⟩ := hbefore 0 (Nat.succ_pos i)
      simp only [List.getElem?_cons_zero, Option.some.injEq] at h0
      subst h0
      refine ⟨hw0, batch, hr0, Or.inr ⟨hne, i, t, events, ?_, hw, hr, hmem, ?_⟩⟩
      · simpa using hi
      · intro j hj
        obtain ⟨t1, b1, h1, hw1, hr1, hn1⟩ := hbefore (j + 1) (Nat.succ_lt_succ hj)
        exact ⟨t1, b1, by simpa using h1, hw1, hr1, hn1⟩
  · rintro ⟨hw, batch, hr, hmem | ⟨hne, i, t, events, hi, hwt, hrt, hmem, hbefore⟩⟩
    · exact ⟨0, s, batch, List.getElem?_cons_zero, hw, hr, hmem, fun j hj => absurd hj (Nat.not_lt_zero j)⟩
    · refine ⟨i + 1, t, events, by simpa using hi, hwt, hrt, hmem, ?_⟩
      intro j hj
      cases j with
      | zero => exact ⟨s, batch, List.getElem?_cons_zero, hw, hr, hne⟩
      | succ j =>
        obtain ⟨t1, b1, h1, hw1, hr1, hn1⟩ := hbefore j (Nat.lt_of_succ_lt_succ hj)
        exact ⟨t1, b1, by simpa using h1, hw1, hr1, hn1⟩

theorem any_eq_iff_mem (evtype : edge_event_type) (events : List edge_event_type) :
    events.any (fun e => decide (e = evtype)) = true ↔ evtype ∈ events := by
  simp [List.any_eq_true]

theorem wait_edge_loop_ok_iff (evtype : edge_event_type) (r : Nat) :
    ∀ steps : List edge_step,
      (wait_edge_loop evtype r steps).1 = [.reply 2 (lit "Ok")] ↔ edge_found evtype steps
  | [] => by
    simp only [wait_edge_loop]
    exact ⟨fun h => (by cases h), fun h => absurd h (edge_found_nil evtype)⟩
  | s :: rest => by
    have hT : ([Sent.reply 7 (lit "Timeout")] : List Sent) ≠ [.reply 2 (lit "Ok")] := by
      decide
    rw [edge_found_cons, wait_edge_loop]
    by_cases h0 : s.wait = 0
    · rw [if_pos h0]
      exact ⟨fun h => (by cases h), fun h => (by omega)⟩
    rw [if_neg h0]
    by_cases h1 : s.wait < 0
    · rw [if_pos h1]
      exact ⟨fun h => (by cases h), fun h => (by omega)⟩
    rw [if_neg h1]
    have hw : 0 < s.wait := by omega
    cases hr : s.read with
    | none =>
      simp only []
      refine ⟨fun h => (by cases h), fun h => ?_⟩
      obtain ⟨_, batch, hb, _⟩ := h
      cases hb
    | some events =>
      simp only []
      by_cases he : events.length = 0
      · rw [if_pos he]
        have hnil : events = [] := List.length_eq_zero.1 he
        subst hnil
        refine ⟨fun h => absurd h hT, fun h => ?_⟩
        obtain ⟨_, batch, hb, hm | ⟨hne, _⟩⟩ := h
        · cases hb; simp at hm
        · cases hb; exact absurd rfl hne
      rw [if_neg he]
      have hne : events ≠ [] := fun h => he (by rw [h]; rfl)
      by_cases ha : events.any (fun e => decide (e = evtype)) = true
      · rw [if_pos ha]
        exact ⟨fun _ => ⟨hw, events, rfl, Or.inl ((any_eq_iff_mem _ _).1 ha)⟩, fun _ => rfl⟩
      · rw [if_neg ha]
        have hnm : evtype ∉ events := fun h => ha ((any_eq_iff_mem _ _).2 h)
        simp only []
        rw [wait_edge_loop_ok_iff evtype r rest]
        constructor
        · intro h
          exact ⟨hw, events, rfl, Or.inr ⟨hne, h⟩⟩
        · rintro ⟨_, batch, hb, hm | ⟨_, h⟩⟩
          · cases hb; exact absurd hm hnm
          · exact h

theorem rest_wait_edge_loop_ok_iff (evtype : edge_event_type) (r : Nat) :
    ∀ steps : List edge_step,
      (rest_wait_edge_loop evtype r steps).1 = [send_rest_response (lit "Ok")]
        ↔ edge_found evtype steps
  | [] => by
    simp only [rest_wait_edge_loop]
    exact ⟨fun h => (by cases h), fun h => absurd h (edge_found_nil evtype)⟩
  | s :: rest => by
    have hT : [send_rest_error "Timeout." 400] ≠ [send_rest_response (lit "Ok")] := by
      decide
    have hW : [send_rest_error "Unable to wait event on this GPIO line." 500]
        ≠ [send_rest_response (lit "Ok")] := by decide
    have hR : [send_rest_error "Unable to read event on this GPIO line." 500]
        ≠ [send_rest_response (lit "Ok")] := by decide
    rw [edge_found_cons, rest_wait_edge_loop]
    by_cases h0 : s.wait ≤ 0
    · rw [if_pos h0]
      exact ⟨fun h => absurd h hW, fun h => (by omega)⟩
    rw [if_neg h0]
    have hw : 0 < s.wait := by omega
    cases hr : s.read with
    | none =>
      simp only []
      refine ⟨fun h => absurd h hR, fun h => ?_⟩
      obtain ⟨_, batch, hb, _⟩ := h
      cases hb
    | some events =>
      simp only []
      by_cases he : events.length = 0
      · rw [if_pos he]
        have hnil : events = [] := List.length_eq_zero.1 he
        subst hnil
        refine ⟨fun h => absurd h hT, fun h => ?_⟩
        obtain ⟨_, batch, hb, hm | ⟨hne, _⟩⟩ := h
        · cases hb; simp at hm
        · cases hb; exact absurd rfl hne
      rw [if_neg he]
      have hne : events ≠ [] := fun h => he (by rw [h]; rfl)
      by_cases ha : events.any (fun e => decide (e = evtype)) = true
      · rw [if_pos ha]
        exact ⟨fun _ => ⟨hw, events, rfl, Or.inl ((any_eq_iff_mem _ _).1 ha)⟩, fun _ => rfl⟩
      · rw [if_neg ha]
        have hnm : evtype ∉ events := fun h => ha ((any_eq_iff_mem _ _).2 h)
        simp only []
        rw [rest_wait_edge_loop_ok_iff evtype r rest]
        constructor
        · intro h
          exact ⟨hw, events, rfl, Or.inr ⟨hne, h⟩⟩
        · rintro ⟨_, batch, hb, hm | ⟨_, h⟩⟩
          · cases hb; exact absurd hm hnm
          · exact h

/-! ## GPIO manager: the edge-wait loop -/

/-- C24. Edge-wait loop.  On a line reserved for input, for every finite script of kernel
answers and the types `rising` and `falling`, both servers report `Ok` if and only
if some batch of the script, reached before any wait failure, wait result of zero,
read failure or empty batch, holds an event of the requested type.  A batch that is
not empty and holds no event of the requested type is skipped: the loop goes on with
the rest of the script.  A wait that reports no event and an empty batch end the
call without `Ok`: the TCP server sends nothing, respectively the reply `Timeout`;
the REST server answers 500, respectively 400 `Timeout.`. -/
theorem edge_wait_loop (k : Gpiod) (gpios : List eris_api_gpio) (name : Bytes)
    (connection : MHD_Connection) (g : eris_api_gpio) (r : Nat)
    (hr : g.request = some r) (hin : g.output = 0) :
    (addressed strcmp name gpios = some g →
      ((wait_gpio_edge k gpios [name, lit "rising"]).sent = [.reply 2 (lit "Ok")]
        ↔ edge_found .rising_edge k.edge_steps)
      ∧ ((wait_gpio_edge k gpios [name, lit "falling"]).sent = [.reply 2 (lit "Ok")]
        ↔ edge_found .falling_edge k.edge_steps))
    ∧ (addressed strcasecmp name gpios = some g → connection (lit "name") = some name →
      (connection (lit "type") = some (lit "rising") →
        ((rest_wait_gpio_edge k gpios connection).responses = [send_rest_response (lit "Ok")]
          ↔ edge_found .rising_edge k.edge_steps))
      ∧ (connection (lit "type") = some (lit "falling") →
        ((rest_wait_gpio_edge k gpios connection).responses = [send_rest_response (lit "Ok")]
          ↔ edge_found .falling_edge k.edge_steps)))
    ∧ (∀ (evtype : edge_event_type) (s : edge_step) (rest : List edge_step)
        (batch : List edge_event_type),
        0 < s.wait → s.read = some batch → batch ≠ [] → evtype ∉ batch →
        (wait_edge_loop evtype r (s :: rest)).1 = (wait_edge_loop evtype r rest).1
        ∧ (rest_wait_edge_loop evtype r (s :: rest)).1
            = (rest_wait_edge_loop evtype r rest).1)
    ∧ (∀ (evtype : edge_event_type) (s : edge_step) (rest : List edge_step),
        (s.wait = 0 →
          wait_edge_loop evtype r (s :: rest)
            = ([], [.line_request_wait_edge_events r], true)
          ∧ rest_wait_edge_loop evtype r (s :: rest)
            = ([send_rest_error "Unable to wait event on this GPIO line." 500],
               [.line_request_wait_edge_events r], true))
        ∧ (0 < s.wait → s.read = some [] →
          wait_edge_loop evtype r (s :: rest)
            = ([.reply 7 (lit "Timeout")],
               [.line_request_wait_edge_events r, .line_request_read_edge_events r], true)
          ∧ rest_wait_edge_loop evtype r (s :: rest)
            = ([send_rest_error "Timeout." 400],
               [.line_request_wait_edge_events r, .line_request_read_edge_events r],
               true))) := by
  have hris : strncasecmp (lit "rising") (lit "ris") 3 = 0 := by decide
  have hfal : ¬ strncasecmp (lit "falling") (lit "ris") 3 = 0 := by decide
  have hfal2 : strncasecmp (lit "falling") (lit "fal") 3 = 0 := by decide
  unfold addressed
  refine ⟨fun h => ⟨?_, ?_⟩, fun h hname => ⟨fun hty => ?_, fun hty => ?_⟩,
    fun evtype s rest batch hw hb hne hnm => ⟨?_, ?_⟩,
    fun evtype s rest => ⟨fun h0 => ⟨?_, ?_⟩, fun hw hb => ⟨?_, ?_⟩⟩⟩
  · simp only [wait_gpio_edge, h, hr, hin, hris, ne_eq, not_true_eq_false, if_false, if_true]
    exact wait_edge_loop_ok_iff _ r _
  · simp only [wait_gpio_edge, h, hr, hin, hfal, hfal2, ne_eq, not_true_eq_false, if_false,
      if_true]
    exact wait_edge_loop_ok_iff _ r _
  · simp only [rest_wait_gpio_edge, hname, h, hr, hin, hty, hris, ne_eq, not_true_eq_false,
      if_false, if_true]
    exact rest_wait_edge_loop_ok_iff _ r _
  · simp only [rest_wait_gpio_edge, hname, h, hr, hin, hty, hfal, hfal2, ne_eq,
      not_true_eq_false, if_false, if_true]
    exact rest_wait_edge_loop_ok_iff _ r _
  · have hl : ¬ batch.length = 0 := fun h => hne (List.length_eq_zero.1 h)
    have ha : ¬ batch.any (fun e => decide (e = evtype)) = true :=
      fun h => hnm ((any_eq_iff_mem _ _).1 h)
    rw [wait_edge_loop, if_neg (by omega), if_neg (by omega)]
    simp only [hb]
    rw [if_neg hl, if_neg ha]
  · have hl : ¬ batch.length = 0 := fun h => hne (List.length_eq_zero.1 h)
    have ha : ¬ batch.any (fun e => decide (e = evtype)) = true :=
      fun h => hnm ((any_eq_iff_mem _ _).1 h)
    rw [rest_wait_edge_loop, if_neg (by omega)]
    simp only [hb]
    rw [if_neg hl, if_neg ha]
  · rw [wait_edge_loop, if_pos h0]
  · rw [rest_wait_edge_loop, if_pos (by omega)]
  · rw [wait_edge_loop, if_neg (by omega), if_neg (by omega)]
    simp only [hb]
    rfl
  · rw [rest_wait_edge_loop, if_neg (by omega)]
    simp only [hb]
    rfl

/-- C24 (instance). `GPIO17` is reserved for input, wait-edge asks for `rising`, and the
kernel gives a batch with one falling edge, then a batch with a falling and a rising
edge: both servers skip the first batch and report `Ok` on the second. -/
theorem edge_wait_loop_witness :
    (wait_gpio_edge
        { sample_kernel with
          edge_steps := [{ wait := 1, read := some [.falling_edge], errno := 0 },
                         { wait := 1, read := some [.falling_edge, .rising_edge],
                           errno := 0 }] }
        sample_reserved [lit "GPIO17", lit "rising"]).sent = [.reply 2 (lit "Ok")]
    ∧ edge_found .rising_edge
        [{ wait := 1, read := some [.falling_edge], errno := 0 },
         { wait := 1, read := some [.falling_edge, .rising_edge], errno := 0 }] :=
  have h := ((edge_wait_loop
    { sample_kernel with
      edge_steps := [{ wait := 1, read := some [.falling_edge], errno := 0 },
                     { wait := 1, read := some [.falling_edge, .rising_edge],
                       errno := 0 }] }
    sample_reserved (lit "GPIO17") (sample_query none none none none)
    { name := lit "GPIO17", offset := 17, chip := 0, request := some 7, output := 0 } 7
    rfl rfl).1 (by decide)).1
  ⟨by decide, h.1 (by decide)⟩

/-! ## GPIO manager: the settings of an input request -/

/-- C25 (failing input). The REST reservation of `GPIO17` for input hands the kernel
settings with direction input and no edge detection: `request_gpio` sets the
direction only, whatever the direction and the value asked for, so the edge
detection stays as `gpiod_line_settings_new` leaves it.  The TCP server hands over
direction input with detection of both edges. -/
theorem rest_input_request_settings :
    (request_gpio sample_kernel sample_gpios
        (sample_query (some (lit "GPIO17")) (some (lit "in")) none none)).calls
      = [.chip_request_lines 0 17
          { direction := .input, edge_detection := .none, output_value := 0 } (some 7)]
    ∧ (request_gpio sample_kernel sample_gpios
        (sample_query (some (lit "GPIO17")) (some (lit "in")) none none)).responses
      = [send_rest_response (lit "Ok")]
    ∧ (∀ (out : Bool) (value : Bytes), (rest_settings out value).edge_detection = .none)
    ∧ (request_gpio_for_input sample_kernel sample_gpios [lit "GPIO17"]).calls
      = [.chip_request_lines 0 17
          { direction := .input, edge_detection := .both, output_value := 0 } (some 7)] := by
  refine ⟨by decide, by decide, ?_, by decide⟩
  intro out value
  cases out <;> rfl

/-! ## Lemmas on the table a handler leaves -/

theorem request_gpio_for_input_table (k : Gpiod) (gpios : List eris_api_gpio)
    (argv : List Bytes) :
    (request_gpio_for_input k gpios argv).gpios = gpios
    ∨ ∃ name g, argv = [name] ∧ gpios[find_gpio strcmp name gpios]? = some g
        ∧ g.request = none
        ∧ (request_gpio_for_input k gpios argv).gpios
          = gpios.set (find_gpio strcmp name gpios)
              { g with request := k.chip_request_lines, output := 0 } := by
  unfold request_gpio_for_input
  split
  · exact Or.inl rfl
  · exact Or.inl rfl
  · rename_i name
    simp only []
    cases hg : gpios[find_gpio strcmp name gpios]? with
    | none => exact Or.inl rfl
    | some g =>
      simp only []
      by_cases hr : g.request ≠ none
      · rw [if_pos hr]; exact Or.inl rfl
      · rw [if_neg hr]
        split
        · exact Or.inl rfl
        · split
          · exact Or.inl rfl
          · split
            · exact Or.inl rfl
            · split
              · exact Or.inl rfl
              · exact Or.inr ⟨name, g, rfl, hg, not_not.1 hr, rfl⟩

theorem request_gpio_for_output_table (k : Gpiod) (gpios : List eris_api_gpio)
    (argv : List Bytes) :
    (request_gpio_for_output k gpios argv).gpios = gpios
    ∨ ∃ name arg1 g, argv = [name, arg1] ∧ gpios[find_gpio strcmp name gpios]? = some g
        ∧ g.request = none
        ∧ (request_gpio_for_output k gpios argv).gpios
          = gpios.set (find_gpio strcmp name gpios)
              { g with request := k.chip_request_lines, output := 1 } := by
  unfold request_gpio_for_output
  split
  · exact Or.inl rfl
  · exact Or.inl rfl
  · exact Or.inl rfl
  · rename_i name arg1
    simp only []
    cases hg : gpios[find_gpio strcmp name gpios]? with
    | none => exact Or.inl rfl
    | some g =>
      simp only []
      by_cases hr : g.request ≠ none
      · rw [if_pos hr]; exact Or.inl rfl
      · rw [if_neg hr]
        split
        · exact Or.inl rfl
        · split
          · exact Or.inl rfl
          · split
            · exact Or.inl rfl
            · split
              · exact Or.inl rfl
              · split
                · exact Or.inl rfl
                · exact Or.inr ⟨name, arg1, g, rfl, hg, not_not.1 hr, rfl⟩

theorem release_gpio_table (gpios : List eris_api_gpio) (argv : List Bytes) :
    (release_gpio gpios argv).gpios = gpios
    ∨ ∃ name g, argv = [name] ∧ gpios[find_gpio strcmp name gpios]? = some g
        ∧ (release_gpio gpios argv).gpios
          = gpios.set (find_gpio strcmp name gpios) { g with request := none } := by
  unfold release_gpio
  split
  · exact Or.inl rfl
  · exact Or.inl rfl
  · rename_i name
    simp only []
    cases hg : gpios[find_gpio strcmp name gpios]? with
    | none => exact Or.inl rfl
    | some g =>
      simp only []
      split
      · exact Or.inl rfl
      · exact Or.inr ⟨name, g, rfl, hg, rfl⟩

theorem run_handler_table_same (cmds : List (api_command_t Handler)) (k : Gpiod)
    (gpios : List eris_api_gpio) (f : Handler) (argv : List Bytes)
    (h1 : f ≠ .request_gpio_for_input) (h2 : f ≠ .request_gpio_for_output)
    (h3 : f ≠ .release_gpio) : (run_handler cmds k gpios f argv).gpios = gpios := by
  cases f with
  | help_command => rfl
  | list_gpio_names =>
    simp only [run_handler, list_gpio_names]
    split_ifs
    · rfl
    · split <;> rfl
  | get_gpio_direction =>
    simp only [run_handler, get_gpio_direction]
    split
    · rfl
    · rfl
    · split
      · rfl
      · split
        · rfl
        · split_ifs <;> rfl
  | request_gpio_for_input => exact absurd rfl h1
  | request_gpio_for_output => exact absurd rfl h2
  | release_gpio => exact absurd rfl h3
  | read_gpio_value =>
    simp only [run_handler, read_gpio_value]
    split
    · rfl
    · rfl
    · split
      · rfl
      · split
        · rfl
        · split_ifs <;> rfl
  | write_gpio_value =>
    simp only [run_handler, write_gpio_value]
    split
    · rfl
    · rfl
    · rfl
    · split
      · rfl
      · split
        · rfl
        · split_ifs
          · rfl
          · split <;> rfl
  | wait_gpio_edge =>
    simp only [run_handler, wait_gpio_edge]
    split
    · rfl
    · rfl
    · rfl
    · split
      · rfl
      · split
        · rfl
        · split_ifs <;> rfl
  | get_test_input_gpio => rfl
  | get_test_output_gpio => rfl

theorem run_handler_table (cmds : List (api_command_t Handler)) (k : Gpiod)
    (gpios : List eris_api_gpio) (f : Handler) (argv : List Bytes) :
    (run_handler cmds k gpios f argv).gpios = gpios
    ∨ ∃ g x y, gpios[find_gpio strcmp (argv.headD []) gpios]? = some g
        ∧ (run_handler cmds k gpios f argv).gpios
          = gpios.set (find_gpio strcmp (argv.headD []) gpios)
              { g with request := x, output := y } := by
  by_cases h1 : f = .request_gpio_for_input
  · subst h1
    rcases request_gpio_for_input_table k gpios argv with h | ⟨name, g, ha, hg, _, hs⟩
    · exact Or.inl h
    · subst ha
      exact Or.inr ⟨g, _, _, hg, hs⟩
  by_cases h2 : f = .request_gpio_for_output
  · subst h2
    rcases request_gpio_for_output_table k gpios argv with h | ⟨name, arg1, g, ha, hg, _, hs⟩
    · exact Or.inl h
    · subst ha
      exact Or.inr ⟨g, _, _, hg, hs⟩
  by_cases h3 : f = .release_gpio
  · subst h3
    rcases release_gpio_table gpios argv with h | ⟨name, g, ha, hg, hs⟩
    · exact Or.inl h
    · subst ha
      exact Or.inr ⟨g, none, g.output, hg, hs⟩
  exact Or.inl (run_handler_table_same cmds k gpios f argv h1 h2 h3)

theorem request_gpio_line_table (k : Gpiod) (gpios : List eris_api_gpio) (name : Bytes)
    (out : Bool) (value : Bytes) :
    (request_gpio_line k gpios name out value).gpios = gpios
    ∨ ∃ g r, gpios[find_gpio strcasecmp name gpios]? = some g ∧ g.request = none
        ∧ k.chip_request_lines = some r
        ∧ (request_gpio_line k gpios name out value).gpios
          = gpios.set (find_gpio strcasecmp name gpios)
              { g with request := some r, output := if out then 1 else 0 } := by
  unfold request_gpio_line
  simp only []
  cases hg : gpios[find_gpio strcasecmp name gpios]? with
  | none => exact Or.inl rfl
  | some g =>
    simp only []
    by_cases hr : g.request ≠ none
    · rw [if_pos hr]; exact Or.inl rfl
    · rw [if_neg hr]
      have hnone : g.request = none := not_not.1 hr
      split
      · exact Or.inl rfl
      · split
        · exact Or.inl rfl
        · split
          · exact Or.inl rfl
          · split
            · exact Or.inl rfl
            · cases hk : k.chip_request_lines with
              | none =>
                left
                simp only []
                have hsame : ({ g with request := none } : eris_api_gpio) = g := by
                  cases g
                  simp only [eris_api_gpio.mk.injEq, true_and, and_true] at hnone ⊢
                  exact hnone.symm
                rw [hsame]
                exact set_self gpios _ g hg
              | some r =>
                first
                  | exact Or.inr ⟨g, r, hg, hnone, rfl, rfl⟩
                  | exact Or.inr ⟨g, r, rfl, hnone, rfl, rfl⟩

theorem request_gpio_table (k : Gpiod) (gpios : List eris_api_gpio)
    (connection : MHD_Connection) :
    (request_gpio k gpios connection).gpios = gpios
    ∨ ∃ name g r y, connection (lit "name") = some name
        ∧ gpios[find_gpio strcasecmp name gpios]? = some g ∧ g.request = none
        ∧ k.chip_request_lines = some r
        ∧ (request_gpio k gpios connection).gpios
          = gpios.set (find_gpio strcasecmp name gpios)
              { g with request := some r, output := y } := by
  unfold request_gpio
  cases hname : connection (lit "name") with
  | none => exact Or.inl rfl
  | some name =>
    simp only []
    cases hdir : connection (lit "direction") with
    | none => exact Or.inl rfl
    | some direction =>
      simp only []
      by_cases hd : strncasecmp direction (lit "in") 2 ≠ 0
          ∧ strncasecmp direction (lit "out") 3 ≠ 0
      · rw [if_pos hd]; exact Or.inl rfl
      rw [if_neg hd]
      cases hval : connection (lit "value") with
      | none =>
        simp only []
        by_cases ho : strncasecmp direction (lit "out") 3 = 0
        · rw [if_pos ho]; exact Or.inl rfl
        rw [if_neg ho]
        rcases request_gpio_line_table k gpios name false [] with h | ⟨g, r, hg, hn, hk, hs⟩
        · exact Or.inl h
        · exact Or.inr ⟨name, g, r, _, rfl, hg, hn, hk, hs⟩
      | some value =>
        simp only []
        by_cases hv : rd value 0 ≠ 48 ∧ rd value 0 ≠ 49
        · rw [if_pos hv]; exact Or.inl rfl
        rw [if_neg hv]
        rcases request_gpio_line_table k gpios name
          (decide (strncasecmp direction (lit "out") 3 = 0)) value with
          h | ⟨g, r, hg, hn, hk, hs⟩
        · exact Or.inl h
        · exact Or.inr ⟨name, g, r, _, rfl, hg, hn, hk, hs⟩

theorem rest_release_gpio_table (gpios : List eris_api_gpio) (connection : MHD_Connection) :
    (rest_release_gpio gpios connection).gpios = gpios
    ∨ ∃ name g, connection (lit "name") = some name
        ∧ gpios[find_gpio strcasecmp name gpios]? = some g
        ∧ (rest_release_gpio gpios connection).gpios
          = gpios.set (find_gpio strcasecmp name gpios) { g with request := none } := by
  unfold rest_release_gpio
  cases hname : connection (lit "name") with
  | none => exact Or.inl rfl
  | some name =>
    simp only []
    cases hg : gpios[find_gpio strcasecmp name gpios]? with
    | none => exact Or.inl rfl
    | some g =>
      simp only []
      split
      · exact Or.inl rfl
      · exact Or.inr ⟨name, g, rfl, hg, rfl⟩

theorem rest_table_same (k : Gpiod) (gpios : List eris_api_gpio)
    (connection : MHD_Connection) :
    (list_gpio gpios).gpios = gpios
    ∧ (get_gpio_value k gpios connection).gpios = gpios
    ∧ (set_gpio_value gpios connection).gpios = gpios
    ∧ (rest_wait_gpio_edge k gpios connection).gpios = gpios := by
  refine ⟨?_, ?_, ?_, ?_⟩
  · simp only [list_gpio]
    repeat' split
    all_goals rfl
  · simp only [get_gpio_value]
    repeat' split
    all_goals rfl
  · simp only [set_gpio_value]
    repeat' split
    all_goals rfl
  · simp only [rest_wait_gpio_edge]
    repeat' split
    all_goals rfl

theorem same_lines_refl (gpios : List eris_api_gpio) : same_lines gpios gpios :=
  ⟨rfl, fun _ g h => ⟨g, h, rfl, rfl, rfl⟩⟩

theorem same_lines_set (gpios : List eris_api_gpio) (num : Nat) (g : eris_api_gpio)
    (x : Option Nat) (y : Int) (hg : gpios[num]? = some g) :
    same_lines gpios (gpios.set num { g with request := x, output := y }) := by
  refine ⟨List.length_set _ _ _, fun i gi hi => ?_⟩
  by_cases h : i = num
  · subst h
    rw [hg] at hi
    cases hi
    exact ⟨_, get?_set_self gpios i g _ hg, rfl, rfl, rfl⟩
  · refine ⟨gi, ?_, rfl, rfl, rfl⟩
    rw [List.getElem?_set_ne (fun h1 => h h1.symm)]
    exact hi

theorem gpio_rest_api_table (k : Gpiod) (gpios : List eris_api_gpio)
    (connection : MHD_Connection) (url method : Bytes) (o : RestOutcome)
    (h : gpio_rest_api k gpios connection url method = some o) :
    o.gpios = gpios
    ∨ (eq_ignoring_case url (lit "/api/gpio")
       ∧ ∃ name g x y, connection (lit "name") = some name
          ∧ gpios[find_gpio strcasecmp name gpios]? = some g
          ∧ o.gpios = gpios.set (find_gpio strcasecmp name gpios)
              { g with request := x, output := y }) := by
  obtain ⟨hl, hv, hs, hw⟩ := rest_table_same k gpios connection
  unfold gpio_rest_api at h
  by_cases c1 : strcasecmp url (lit "/api/gpio/list") = 0 ∧ strcmp method (lit "GET") = 0
  · rw [if_pos c1] at h
    cases h
    exact Or.inl hl
  rw [if_neg c1] at h
  by_cases c2 : strcasecmp url (lit "/api/gpio") = 0 ∧ strcmp method (lit "GET") = 0
  · rw [if_pos c2] at h
    cases h
    have hu := (strcasecmp_eq_zero url _).1 c2.1
    rcases request_gpio_table k gpios connection with h | ⟨name, g, r, y, hn, hg, _, _, hs⟩
    · exact Or.inl h
    · exact Or.inr ⟨hu, name, g, _, _, hn, hg, hs⟩
  rw [if_neg c2] at h
  by_cases c3 : strcasecmp url (lit "/api/gpio") = 0 ∧ strcmp method (lit "DELETE") = 0
  · rw [if_pos c3] at h
    cases h
    have hu := (strcasecmp_eq_zero url _).1 c3.1
    rcases rest_release_gpio_table gpios connection with h | ⟨name, g, hn, hg, hs⟩
    · exact Or.inl h
    · exact Or.inr ⟨hu, name, g, none, g.output, hn, hg, hs⟩
  rw [if_neg c3] at h
  by_cases c4 : strcasecmp url (lit "/api/gpio/value") = 0 ∧ strcmp method (lit "GET") = 0
  · rw [if_pos c4] at h
    cases h
    exact Or.inl hv
  rw [if_neg c4] at h
  by_cases c5 : strcasecmp url (lit "/api/gpio/value") = 0 ∧ strcmp method (lit "PUT") = 0
  · rw [if_pos c5] at h
    cases h
    exact Or.inl hs
  rw [if_neg c5] at h
  by_cases c6 : strcasecmp url (lit "/api/gpio/edge") = 0 ∧ strcmp method (lit "GET") = 0
  · rw [if_pos c6] at h
    cases h
    exact Or.inl hw
  rw [if_neg c6] at h
  cases h

/-! ## GPIO manager: the frame of the table -/

/-- C26. Frame property of the GPIO table.  Whatever a handler of the TCP server is
called with, and whatever request the REST server routes to a GPIO handler, the table
afterwards has the same number of lines, each with the name, offset and chip it had.
The handlers other than request-input, request-output and release (on REST: the
requests on a path other than `/api/gpio`, that is list, read-value, write-value and
wait-edge) leave the table as it was.  Every row other than the one addressed by the
name given is left as it was. -/
theorem table_frame (cmds : List (api_command_t Handler)) (k : Gpiod)
    (gpios : List eris_api_gpio) (f : Handler) (argv : List Bytes)
    (connection : MHD_Connection) (url method : Bytes) :
    (same_lines gpios (run_handler cmds k gpios f argv).gpios
      ∧ (f ≠ .request_gpio_for_input → f ≠ .request_gpio_for_output → f ≠ .release_gpio →
          (run_handler cmds k gpios f argv).gpios = gpios)
      ∧ ∀ i, i ≠ find_gpio strcmp (argv.headD []) gpios →
          (run_handler cmds k gpios f argv).gpios[i]? = gpios[i]?)
    ∧ (∀ o, gpio_rest_api k gpios connection url method = some o →
        same_lines gpios o.gpios
        ∧ (¬ eq_ignoring_case url (lit "/api/gpio") → o.gpios = gpios)
        ∧ ∀ i, i ≠ find_gpio strcasecmp ((connection (lit "name")).getD []) gpios →
            o.gpios[i]? = gpios[i]?) := by
  constructor
  · refine ⟨?_, run_handler_table_same cmds k gpios f argv, ?_⟩
    · rcases run_handler_table cmds k gpios f argv with h | ⟨g, x, y, hg, hs⟩
      · rw [h]; exact same_lines_refl gpios
      · rw [hs]; exact same_lines_set gpios _ g x y hg
    · intro i hi
      rcases run_handler_table cmds k gpios f argv with h | ⟨g, x, y, hg, hs⟩
      · rw [h]
      · rw [hs, List.getElem?_set_ne (fun h1 => hi h1.symm)]
  · intro o ho
    rcases gpio_rest_api_table k gpios connection url method o ho with
      h | ⟨hu, name, g, x, y, hn, hg, hs⟩
    · rw [h]
      exact ⟨same_lines_refl gpios, fun _ => rfl, fun _ _ => rfl⟩
    · refine ⟨by rw [hs]; exact same_lines_set gpios _ g x y hg, fun h => absurd hu h, ?_⟩
      intro i hi
      rw [hn] at hi
      have hi1 : i ≠ find_gpio strcasecmp name gpios := hi
      rw [hs, List.getElem?_set_ne (fun h1 => hi1 h1.symm)]

/-- C26 (instance). Request-input of `GPIO17` on the sample table leaves the row of
`GPIO18` as it was and keeps the two lines; a REST request routed to write-value
leaves the sample table as it was. -/
theorem table_frame_witness :
    (request_gpio_for_input sample_kernel sample_gpios [lit "GPIO17"]).gpios[1]?
      = sample_gpios[1]?
    ∧ same_lines sample_gpios
        (request_gpio_for_input sample_kernel sample_gpios [lit "GPIO17"]).gpios
    ∧ ∀ o, gpio_rest_api sample_kernel sample_output
          (sample_query (some (lit "GPIO17")) none (some (lit "0")) none)
          (lit "/api/gpio/value") (lit "PUT") = some o → o.gpios = sample_output :=
  have h := table_frame Api_commands sample_kernel sample_gpios .request_gpio_for_input
    [lit "GPIO17"] (sample_query none none none none) (lit "/api/gpio") (lit "GET")
  ⟨h.1.2.2 1 (by decide), h.1.1,
   fun o ho => ((table_frame Api_commands sample_kernel sample_output .help_command []
      (sample_query (some (lit "GPIO17")) none (some (lit "0")) none)
      (lit "/api/gpio/value") (lit "PUT")).2 o ho).2.1
      (by unfold eq_ignoring_case; decide)⟩

/-! ## Lemmas on error atomicity -/

theorem memcpy_from_take (buffer : Bytes) (lg pos len : Nat) (h : pos + len ≤ lg) :
    memcpy_from (buffer.take lg) pos len = memcpy_from buffer pos len := by
  unfold memcpy_from
  rw [List.drop_take]
  by_cases hx : (buffer.drop pos).length ≤ lg - pos
  · rw [List.take_of_length_le hx]
  · have h1 : len ≤ ((buffer.drop pos).take (lg - pos)).length := by
      rw [List.length_take]; omega
    have h2 : len ≤ (buffer.drop pos).length := by omega
    rw [List.take_append_of_le_length h1, List.take_append_of_le_length h2, List.take_take,
      Nat.min_eq_left (by omega)]

/-- An argument that a round of the argument loop copies without leaving the array
lies inside the received bytes. -/
theorem parse_arg_next_inside (alloc : Nat → Bool) (buffer : Bytes) (lg pos argc pos2 : Nat)
    (arg : Bytes) (h : parse_arg alloc buffer lg pos argc = .next pos2 arg) :
    ∃ pos1 len : Nat, pos < pos1 ∧ pos1 + len < lg
      ∧ arg = memcpy_from (buffer.take lg) pos1 len := by
  unfold parse_arg at h
  by_cases h1 : alloc ((argc + 1) * 4) = false
  · rw [if_pos h1] at h; cases h
  rw [if_neg h1] at h
  cases hs : sscanf_d (List.drop pos buffer) with
  | none => rw [hs] at h; cases h
  | some vn =>
    obtain ⟨len, nb⟩ := vn
    have hnb := sscanf_d_nb_pos _ _ _ hs
    rw [hs] at h
    simp only [] at h
    by_cases h2 : alloc ((argc + 1) * 8) = false
    · rw [if_pos h2] at h; cases h
    rw [if_neg h2] at h
    by_cases h3 : skip_spaces buffer lg (pos + nb) ≥ lg
    · rw [if_pos h3] at h; cases h
    rw [if_neg h3] at h
    generalize harg : (if len < 0 then
        ((skip_word buffer lg (skip_spaces buffer lg (pos + nb))
          - skip_spaces buffer lg (pos + nb) : Nat) : Int) else len) = arglen at h
    have hnn : 0 ≤ arglen := by
      rw [← harg]
      split_ifs with hl
      · exact Int.ofNat_nonneg _
      · omega
    by_cases h4 : to_int32 ((skip_spaces buffer lg (pos + nb) : Int) + arglen) ≥ (lg : Int)
    · rw [if_pos h4] at h; cases h
    rw [if_neg h4] at h
    by_cases h5 : alloc (to_size_t (to_int32 (arglen + 1))) = false
    · rw [if_pos h5] at h; cases h
    rw [if_neg h5] at h
    by_cases h6 : (skip_spaces buffer lg (pos + nb) : Int) + arglen > (buffer_size : Int)
    · rw [if_pos h6] at h; cases h
    rw [if_neg h6] at h
    simp only [ArgStep.next.injEq] at h
    have hbs : (buffer_size : Int) = 4096 := rfl
    rw [hbs] at h6
    have h7 := skip_spaces_ge buffer lg (pos + nb)
    have hin : (skip_spaces buffer lg (pos + nb) : Int) + arglen < (lg : Int) := by
      unfold to_int32 at h4
      omega
    refine ⟨skip_spaces buffer lg (pos + nb), arglen.toNat, by omega, by omega, ?_⟩
    rw [memcpy_from_take _ _ _ _ (by omega)]
    exact h.2.symm

theorem parse_args_inside (alloc : Nat → Bool) (buffer : Bytes) (lg : Nat)
    (P : Bytes → Prop)
    (hP : ∀ pos1 len : Nat, pos1 + len < lg → P (memcpy_from (buffer.take lg) pos1 len)) :
    ∀ (fuel pos : Nat) (argv argv1 : List Bytes) (sent : List Sent),
      (∀ a ∈ argv, P a) → parse_args alloc buffer lg fuel pos argv = .args argv1 sent →
      ∀ a ∈ argv1, P a
  | 0, _, _, _, _, _, h => by simp [parse_args] at h
  | fuel + 1, pos, argv, argv1, sent, hargv, h => by
    rw [parse_args] at h
    by_cases h1 : ¬ pos < lg
    · rw [if_pos h1] at h
      simp only [Args.args.injEq] at h
      rw [← h.1]
      exact hargv
    rw [if_neg h1] at h
    cases hp : parse_arg alloc buffer lg pos argv.length with
    | stop s =>
      rw [hp] at h
      simp only [Args.args.injEq] at h
      rw [← h.1]
      exact hargv
    | overrun p len =>
      rw [hp] at h
      cases h
    | next pos1 arg =>
      rw [hp] at h
      simp only [] at h
      obtain ⟨p1, len, _, hin, harg⟩ := parse_arg_next_inside alloc buffer lg pos _ pos1 arg hp
      refine parse_args_inside alloc buffer lg P hP fuel pos1 (argv ++ [arg]) argv1 sent ?_ h
      intro a ha
      rcases List.mem_append.1 ha with ha | ha
      · exact hargv a ha
      · simp only [List.mem_singleton] at ha
        rw [ha, harg]
        exact hP p1 len hin

/-- Every argument of a request that the decoder hands to `call_command` is a run of
the received bytes. -/
theorem delivered_arguments_inside (alloc : Nat → Bool) (buffer : Bytes) (lg : Nat)
    (command : Bytes) (argv : List Bytes) (sent : List Sent)
    (h : decode alloc buffer lg = .request command argv sent) :
    ∀ a ∈ argv, ∃ pos len : Nat, pos + len < lg
      ∧ a = memcpy_from (buffer.take lg) pos len := by
  unfold decode at h
  by_cases h0 : lg = 0
  · rw [if_pos h0] at h; cases h
  rw [if_neg h0] at h
  by_cases h1 : strncasecmp buffer (lit "BYE") (strlen (lit "BYE")) = 0
        ∨ strncasecmp buffer (lit "QUIT") (strlen (lit "QUIT")) = 0
  · rw [if_pos h1] at h; cases h
  rw [if_neg h1] at h
  by_cases h2 : lg ≤ 4 ∨ strncasecmp buffer (lit "REQ ") (strlen (lit "REQ ")) ≠ 0
  · rw [if_pos h2] at h; cases h
  rw [if_neg h2] at h
  simp only [] at h
  by_cases h3 : skip_spaces buffer lg (0 + strlen (lit "REQ ")) = lg
  · rw [if_pos h3] at h; cases h
  rw [if_neg h3] at h
  by_cases h4 : skip_word buffer lg (skip_spaces buffer lg (0 + strlen (lit "REQ ")))
      = skip_spaces buffer lg (0 + strlen (lit "REQ "))
  · rw [if_pos h4] at h; cases h
  rw [if_neg h4] at h
  by_cases h5 : alloc (skip_word buffer lg (skip_spaces buffer lg (0 + strlen (lit "REQ ")))
      - skip_spaces buffer lg (0 + strlen (lit "REQ ")) + 1) = false
  · rw [if_pos h5] at h; cases h
  rw [if_neg h5] at h
  generalize hpos : skip_spaces buffer lg
    (skip_word buffer lg (skip_spaces buffer lg (0 + strlen (lit "REQ ")))) = pos at h
  cases hpa : parse_args alloc buffer lg (lg - pos + 1) pos [] with
  | args argv0 sent0 =>
    rw [hpa] at h
    simp only [Decoded.request.injEq] at h
    rw [← h.2.1]
    exact parse_args_inside alloc buffer lg _ (fun p l hl => ⟨p, l, hl, rfl⟩) _ _ [] argv0 sent0
      (fun a ha => by cases ha) hpa
  | overrun argv0 p len =>
    rw [hpa] at h
    cases h
  | out_of_fuel =>
    rw [hpa] at h
    cases h

/-! ## Request decoding: a declared length that wraps -/

/-- C28 (failing input). The 18 received bytes `REQ x 2147483644 a` declare an argument of
2147483644 bytes at position 17.  The sum 17 + 2147483644, computed in 32 bits, wraps
to a negative value, which is below `lg`, so the bound test passes although the sum
is not below 18 as an integer; the allocation of 2147483645 bytes succeeding, the
copy of 2147483644 bytes from position 17 is started, far past the 18 bytes
received and past the array. -/
theorem decode_declared_length_wraps :
    decode alloc_ok (lit "REQ x 2147483644 a") 18 = .overrun (lit "x") [] 17 2147483644
    ∧ to_int32 ((17 : Int) + 2147483644) = -2147483635
    ∧ ¬ ((17 : Int) + 2147483644 < 18) := by
  decide

/-! ## Lemmas on the termination of the decoder -/

theorem find_gpio_first (cmp : Bytes → Bytes → Int) (name : Bytes) :
    ∀ gpios : List eris_api_gpio,
      (∀ m g, m < find_gpio cmp name gpios → gpios[m]? = some g → cmp name g.name ≠ 0)
      ∧ (∀ g, gpios[find_gpio cmp name gpios]? = some g → cmp name g.name = 0)
      ∧ find_gpio cmp name gpios ≤ gpios.length
  | [] => ⟨fun m g h => absurd h (Nat.not_lt_zero m), fun g h => by simp at h, Nat.le_refl _⟩
  | a :: rest => by
    obtain ⟨ih1, ih2, ih3⟩ := find_gpio_first cmp name rest
    simp only [find_gpio]
    by_cases h : cmp name a.name = 0
    · rw [if_pos h]
      refine ⟨fun m g hm => absurd hm (Nat.not_lt_zero m), fun g hg => ?_, Nat.zero_le _⟩
      simp only [List.getElem?_cons_zero, Option.some.injEq] at hg
      rw [← hg]; exact h
    · rw [if_neg h]
      refine ⟨fun m g hm hg => ?_, fun g hg => ?_, ?_⟩
      · cases m with
        | zero =>
          simp only [List.getElem?_cons_zero, Option.some.injEq] at hg
          rw [← hg]; exact h
        | succ m =>
          simp only [List.getElem?_cons_succ] at hg
          exact ih1 m g (by omega) hg
      · simp only [List.getElem?_cons_succ] at hg
        exact ih2 g hg
      · simp only [List.length_cons]; omega

theorem strcmp_trans (a b c : Bytes) (h1 : strcmp a b = 0) (h2 : strcmp b c = 0) :
    strcmp a c = 0 :=
  (strcmp_eq_zero a c).2 (((strcmp_eq_zero a b).1 h1).trans ((strcmp_eq_zero b c).1 h2))

theorem strcasecmp_trans (a b c : Bytes) (h1 : strcasecmp a b = 0)
    (h2 : strcasecmp b c = 0) : strcasecmp a c = 0 := by
  rw [strcasecmp_eq_zero] at *
  unfold eq_ignoring_case at *
  exact h1.trans h2

theorem shadowed_not_found (cmp : Bytes → Bytes → Int)
    (htrans : ∀ a b c, cmp a b = 0 → cmp b c = 0 → cmp a c = 0)
    (gpios : List eris_api_gpio) (i : Nat) (h : shadowed cmp gpios i) (name : Bytes) :
    find_gpio cmp name gpios ≠ i := by
  obtain ⟨j, gi, gj, hji, hi, hj, hc⟩ := h
  obtain ⟨h1, h2, _⟩ := find_gpio_first cmp name gpios
  intro heq
  rw [heq] at h1 h2
  exact h1 j gj hji hj (htrans _ _ _ (h2 gi hi) hc)

theorem list_gpio_names_loop_congr :
    ∀ (b : strbuf) (l l1 : List eris_api_gpio),
      l.map (fun g => g.name) = l1.map (fun g => g.name) →
      list_gpio_names_loop b l = list_gpio_names_loop b l1
  | _, [], [], _ => rfl
  | _, [], _ :: _, h => by simp at h
  | _, _ :: _, [], h => by simp at h
  | b, g :: l, g1 :: l1, h => by
    simp only [List.map_cons, List.cons.injEq] at h
    simp only [list_gpio_names_loop, h.1]
    exact list_gpio_names_loop_congr _ l l1 h.2

theorem run_handler_shadow (cmds : List (api_command_t Handler)) (k : Gpiod)
    (gpios : List eris_api_gpio) (f : Handler) (argv : List Bytes) (i : Nat)
    (g1 : eris_api_gpio)
    (hnames : (gpios.set i g1).map (fun g => g.name) = gpios.map (fun g => g.name))
    (hne : ∀ name, find_gpio strcmp name gpios ≠ i) :
    run_handler cmds k (gpios.set i g1) f argv
      = { run_handler cmds k gpios f argv with
          gpios := (run_handler cmds k gpios f argv).gpios.set i g1 } := by
  have hfind : ∀ name, find_gpio strcmp name (gpios.set i g1) = find_gpio strcmp name gpios :=
    fun name => find_gpio_congr strcmp name _ _ hnames
  have hget : ∀ name, (gpios.set i g1)[find_gpio strcmp name gpios]?
      = gpios[find_gpio strcmp name gpios]? :=
    fun name => List.getElem?_set_ne (fun h => hne name h.symm)
  have hcomm : ∀ name x, (gpios.set i g1).set (find_gpio strcmp name gpios) x
      = (gpios.set (find_gpio strcmp name gpios) x).set i g1 :=
    fun name x => List.set_comm _ _ _ (fun h => hne name h.symm)
  have hloop : ∀ b, list_gpio_names_loop b (gpios.set i g1) = list_gpio_names_loop b gpios :=
    fun b => list_gpio_names_loop_congr b _ _ hnames
  cases f with
  | help_command => rfl
  | list_gpio_names =>
    simp only [run_handler, list_gpio_names, hloop]
    repeat' split
    all_goals rfl
  | get_gpio_direction =>
    simp only [run_handler, get_gpio_direction, hfind, hget]
    repeat' split
    all_goals rfl
  | request_gpio_for_input =>
    simp only [run_handler, request_gpio_for_input, hfind, hget]
    repeat' split
    all_goals first
      | rfl
      | simp [Outcome.error, Outcome.reply, hcomm]
  | request_gpio_for_output =>
    simp only [run_handler, request_gpio_for_output, hfind, hget]
    repeat' split
    all_goals first
      | rfl
      | simp [Outcome.error, Outcome.reply, hcomm]
  | release_gpio =>
    simp only [run_handler, release_gpio, hfind, hget]
    repeat' split
    all_goals first
      | rfl
      | simp [Outcome.error, Outcome.reply, hcomm]
  | read_gpio_value =>
    simp only [run_handler, read_gpio_value, hfind, hget]
    repeat' split
    all_goals rfl
  | write_gpio_value =>
    simp only [run_handler, write_gpio_value, hfind, hget]
    repeat' split
    all_goals rfl
  | wait_gpio_edge =>
    simp only [run_handler, wait_gpio_edge, hfind, hget]
    repeat' split
    all_goals rfl
  | get_test_input_gpio => rfl
  | get_test_output_gpio => rfl

theorem gpio_rest_api_shadow (k : Gpiod) (gpios : List eris_api_gpio)
    (connection : MHD_Connection) (url method : Bytes) (i : Nat) (g1 : eris_api_gpio)
    (hnames : (gpios.set i g1).map (fun g => g.name) = gpios.map (fun g => g.name))
    (hne : ∀ name, find_gpio strcasecmp name gpios ≠ i) :
    gpio_rest_api k (gpios.set i g1) connection url method
      = (gpio_rest_api k gpios connection url method).map
          (fun o => { o with gpios := o.gpios.set i g1 }) := by
  have hfind : ∀ name, find_gpio strcasecmp name (gpios.set i g1)
      = find_gpio strcasecmp name gpios :=
    fun name => find_gpio_congr strcasecmp name _ _ hnames
  have hget : ∀ name, (gpios.set i g1)[find_gpio strcasecmp name gpios]?
      = gpios[find_gpio strcasecmp name gpios]? :=
    fun name => List.getElem?_set_ne (fun h => hne name h.symm)
  have hcomm : ∀ name x, (gpios.set i g1).set (find_gpio strcasecmp name gpios) x
      = (gpios.set (find_gpio strcasecmp name gpios) x).set i g1 :=
    fun name x => List.set_comm _ _ _ (fun h => hne name h.symm)
  have hloop : ∀ b, list_gpio_names_loop b (gpios.set i g1) = list_gpio_names_loop b gpios :=
    fun b => list_gpio_names_loop_congr b _ _ hnames
  unfold gpio_rest_api
  split_ifs
  · simp only [Option.map_some', Option.some.injEq, list_gpio, hloop]
    repeat' split
    all_goals rfl
  · simp only [Option.map_some', Option.some.injEq, request_gpio, request_gpio_line, hfind,
      hget]
    repeat' split
    all_goals first
      | rfl
      | simp [RestOutcome.error, hcomm]
  · simp only [Option.map_some', Option.some.injEq, rest_release_gpio, hfind, hget]
    repeat' split
    all_goals first
      | rfl
      | simp [RestOutcome.error, hcomm]
  · simp only [Option.map_some', Option.some.injEq, get_gpio_value, hfind, hget]
    repeat' split
    all_goals rfl
  · simp only [Option.map_some', Option.some.injEq, set_gpio_value, hfind, hget]
    repeat' split
    all_goals rfl
  · simp only [Option.map_some', Option.some.injEq, rest_wait_gpio_edge, hfind, hget]
    repeat' split
    all_goals rfl
  · rfl

theorem run_handler_names (cmds : List (api_command_t Handler)) (k : Gpiod)
    (gpios : List eris_api_gpio) (f : Handler) (argv : List Bytes) :
    (run_handler cmds k gpios f argv).gpios.map (fun g => g.name)
      = gpios.map (fun g => g.name) := by
  rcases run_handler_table cmds k gpios f argv with h | ⟨g, x, y, hg, hs⟩
  · rw [h]
  · rw [hs]
    exact map_name_set gpios _ g _ hg rfl

theorem gpio_rest_api_names (k : Gpiod) (gpios : List eris_api_gpio)
    (connection : MHD_Connection) (url method : Bytes) (o : RestOutcome)
    (h : gpio_rest_api k gpios connection url method = some o) :
    o.gpios.map (fun g => g.name) = gpios.map (fun g => g.name) := by
  rcases gpio_rest_api_table k gpios connection url method o h with
    h1 | ⟨_, name, g, x, y, _, hg, hs⟩
  · rw [h1]
  · rw [hs]
    exact map_name_set gpios _ g _ hg rfl

theorem names_set_transfer (l l1 : List eris_api_gpio) (i : Nat) (g1 : eris_api_gpio)
    (h : l1.map (fun g => g.name) = l.map (fun g => g.name))
    (hs : (l.set i g1).map (fun g => g.name) = l.map (fun g => g.name)) :
    (l1.set i g1).map (fun g => g.name) = l1.map (fun g => g.name) := by
  rw [List.map_set] at hs ⊢
  rw [h]
  exact hs

theorem find_ne_transfer (cmp : Bytes → Bytes → Int) (l l1 : List eris_api_gpio) (i : Nat)
    (h : l1.map (fun g => g.name) = l.map (fun g => g.name))
    (hne : ∀ name, find_gpio cmp name l ≠ i) : ∀ name, find_gpio cmp name l1 ≠ i := by
  intro name
  rw [find_gpio_congr cmp name l1 l h]
  exact hne name

theorem run_session_shadow (cmds : List (api_command_t Handler)) (i : Nat)
    (g1 : eris_api_gpio) :
    ∀ (session : List (Gpiod × Handler × List Bytes)) (gpios : List eris_api_gpio),
      (gpios.set i g1).map (fun g => g.name) = gpios.map (fun g => g.name) →
      (∀ name, find_gpio strcmp name gpios ≠ i) →
      run_session cmds session (gpios.set i g1)
        = ((run_session cmds session gpios).1.set i g1, (run_session cmds session gpios).2)
  | [], gpios, _, _ => rfl
  | (k, f, argv) :: rest, gpios, hnames, hne => by
    have hn := run_handler_names cmds k gpios f argv
    have ih := run_session_shadow cmds i g1 rest (run_handler cmds k gpios f argv).gpios
      (names_set_transfer gpios _ i g1 hn hnames) (find_ne_transfer strcmp gpios _ i hn hne)
    simp only [run_session]
    rw [run_handler_shadow cmds k gpios f argv i g1 hnames hne]
    simp only []
    by_cases hr : (run_handler cmds k gpios f argv).returned = true
    · rw [if_pos hr, if_pos hr, ih]
    · rw [if_neg hr, if_neg hr]

theorem run_session_row_kept (cmds : List (api_command_t Handler)) (i : Nat) :
    ∀ (session : List (Gpiod × Handler × List Bytes)) (gpios : List eris_api_gpio),
      (∀ name, find_gpio strcmp name gpios ≠ i) →
      (run_session cmds session gpios).1[i]? = gpios[i]?
  | [], gpios, _ => rfl
  | (k, f, argv) :: rest, gpios, hne => by
    have hn := run_handler_names cmds k gpios f argv
    have ih := run_session_row_kept cmds i rest (run_handler cmds k gpios f argv).gpios
      (find_ne_transfer strcmp gpios _ i hn hne)
    have hrow : (run_handler cmds k gpios f argv).gpios[i]? = gpios[i]? := by
      rcases run_handler_table cmds k gpios f argv with h | ⟨g, x, y, hg, hs⟩
      · rw [h]
      · rw [hs, List.getElem?_set_ne (hne _)]
    simp only [run_session]
    by_cases hr : (run_handler cmds k gpios f argv).returned = true
    · rw [if_pos hr]
      exact ih.trans hrow
    · rw [if_neg hr]
      exact hrow

theorem run_rest_shadow (i : Nat) (g1 : eris_api_gpio) :
    ∀ (session : List (Gpiod × MHD_Connection × Bytes × Bytes)) (gpios : List eris_api_gpio),
      (gpios.set i g1).map (fun g => g.name) = gpios.map (fun g => g.name) →
      (∀ name, find_gpio strcasecmp name gpios ≠ i) →
      run_rest session (gpios.set i g1)
        = ((run_rest session gpios).1.set i g1, (run_rest session gpios).2)
  | [], gpios, _, _ => rfl
  | (k, connection, url, method) :: rest, gpios, hnames, hne => by
    simp only [run_rest]
    rw [gpio_rest_api_shadow k gpios connection url method i g1 hnames hne]
    cases ho : gpio_rest_api k gpios connection url method with
    | none =>
      simp only [Option.map_none']
      exact run_rest_shadow i g1 rest gpios hnames hne
    | some o =>
      have hn := gpio_rest_api_names k gpios connection url method o ho
      have ih := run_rest_shadow i g1 rest o.gpios
        (names_set_transfer gpios _ i g1 hn hnames)
        (find_ne_transfer strcasecmp gpios _ i hn hne)
      simp only [Option.map_some']
      by_cases hr : o.returned = true
      · rw [if_pos hr, if_pos hr, ih]
      · rw [if_neg hr, if_neg hr]

theorem run_rest_row_kept (i : Nat) :
    ∀ (session : List (Gpiod × MHD_Connection × Bytes × Bytes)) (gpios : List eris_api_gpio),
      (∀ name, find_gpio strcasecmp name gpios ≠ i) →
      (run_rest session gpios).1[i]? = gpios[i]?
  | [], gpios, _ => rfl
  | (k, connection, url, method) :: rest, gpios, hne => by
    simp only [run_rest]
    cases ho : gpio_rest_api k gpios connection url method with
    | none =>
      simp only []
      exact run_rest_row_kept i rest gpios hne
    | some o =>
      have hn := gpio_rest_api_names k gpios connection url method o ho
      have ih := run_rest_row_kept i rest o.gpios
        (find_ne_transfer strcasecmp gpios _ i hn hne)
      have hrow : o.gpios[i]? = gpios[i]? := by
        rcases gpio_rest_api_table k gpios connection url method o ho with
          h | ⟨_, name, g, x, y, _, hg, hs⟩
        · rw [h]
        · rw [hs, List.getElem?_set_ne (hne _)]
      simp only []
      by_cases hr : o.returned = true
      · rw [if_pos hr]
        exact ih.trans hrow
      · rw [if_neg hr]
        exact hrow

/-! ## GPIO manager: lines that share a name -/

/-- C30. Name lookup resolves to the first row whose name matches: no row before the
one found matches the name, and the row found matches it.  Hence, for every table,
every row `i` whose name matches the name of a row at a smaller index (`strcmp` on
TCP, `strcasecmp` on REST) and every sequence of requests: row `i` is at the end as
it was at the start, so a line that is not reserved never becomes reserved; and what
the servers do does not depend on what row `i` holds besides its name, since storing
any other offset, chip, request handle and direction in row `i` leaves every
libgpiod call of the sequence and every other row the same: the line is never
requested, read, written or waited on. -/
theorem shadowed_line_untouched (cmds : List (api_command_t Handler))
    (tcp_session : List (Gpiod × Handler × List Bytes))
    (rest_session : List (Gpiod × MHD_Connection × Bytes × Bytes))
    (gpios : List eris_api_gpio) (i : Nat) (g1 : eris_api_gpio) :
    (∀ (cmp : Bytes → Bytes → Int) (name : Bytes),
      (∀ m g, m < find_gpio cmp name gpios → gpios[m]? = some g → cmp name g.name ≠ 0)
      ∧ (∀ g, gpios[find_gpio cmp name gpios]? = some g → cmp name g.name = 0))
    ∧ (shadowed strcmp gpios i →
        (run_session cmds tcp_session gpios).1[i]? = gpios[i]?
        ∧ ((∃ gi, gpios[i]? = some gi ∧ g1.name = gi.name) →
            run_session cmds tcp_session (gpios.set i g1)
              = ((run_session cmds tcp_session gpios).1.set i g1,
                 (run_session cmds tcp_session gpios).2)))
    ∧ (shadowed strcasecmp gpios i →
        (run_rest rest_session gpios).1[i]? = gpios[i]?
        ∧ ((∃ gi, gpios[i]? = some gi ∧ g1.name = gi.name) →
            run_rest rest_session (gpios.set i g1)
              = ((run_rest rest_session gpios).1.set i g1,
                 (run_rest rest_session gpios).2))) := by
  refine ⟨fun cmp name => ⟨(find_gpio_first cmp name gpios).1,
    (find_gpio_first cmp name gpios).2.1⟩, fun h => ?_, fun h => ?_⟩
  · have hne := shadowed_not_found strcmp strcmp_trans gpios i h
    refine ⟨run_session_row_kept cmds i tcp_session gpios hne, ?_⟩
    rintro ⟨gi, hgi, hname⟩
    exact run_session_shadow cmds i g1 tcp_session gpios
      (map_name_set gpios i gi g1 hgi hname) hne
  · have hne := shadowed_not_found strcasecmp strcasecmp_trans gpios i h
    refine ⟨run_rest_row_kept i rest_session gpios hne, ?_⟩
    rintro ⟨gi, hgi, hname⟩
    exact run_rest_shadow i g1 rest_session gpios
      (map_name_set gpios i gi g1 hgi hname) hne

/-- C30 (instance). In a table with two unnamed lines, a request for input with the
empty name reserves the first of them; the second one is left as it was, on both
servers. -/
theorem shadowed_line_untouched_witness :
    shadowed strcmp sample_two_unnamed 1
    ∧ (run_session Api_commands [(sample_kernel, .request_gpio_for_input, [lit ""])]
        sample_two_unnamed).1
      = [{ name := lit "", offset := 0, chip := 0, request := some 7, output := 0 },
         { name := lit "", offset := 1, chip := 0, request := none, output := -1 },
         { name := lit "GPIO18", offset := 18, chip := 0, request := none, output := -1 }]
    ∧ (run_session Api_commands [(sample_kernel, .request_gpio_for_input, [lit ""])]
        sample_two_unnamed).1[1]? = sample_two_unnamed[1]?
    ∧ (run_rest [(sample_kernel,
          sample_query (some (lit "")) (some (lit "in")) none none, lit "/api/gpio",
          lit "GET")] sample_two_unnamed).1[1]? = sample_two_unnamed[1]? :=
  have hs : shadowed strcmp sample_two_unnamed 1 :=
    ⟨0, _, _, by decide, rfl, rfl, by decide⟩
  have hc : shadowed strcasecmp sample_two_unnamed 1 :=
    ⟨0, _, _, by decide, rfl, rfl, by decide⟩
  have h := shadowed_line_untouched Api_commands
    [(sample_kernel, .request_gpio_for_input, [lit ""])]
    [(sample_kernel, sample_query (some (lit "")) (some (lit "in")) none none,
      lit "/api/gpio", lit "GET")]
    sample_two_unnamed 1
    { name := lit "", offset := 1, chip := 0, request := none, output := -1 }
  ⟨hs, by decide, (h.2.1 hs).1, (h.2.2 hc).1⟩

/-! ## Lemmas on the result of the client library -/

theorem cstr_append_nul_rest (body rest : Bytes) : cstr (body ++ 0 :: rest) = cstr body := by
  induction body with
  | nil => simp [cstr_cons, cstr_nil]
  | cons a as ih =>
    rw [List.cons_append, cstr_cons, cstr_cons, ih]

theorem cstr_take (n : Nat) : ∀ l : Bytes, cstr (l.take n) = (cstr l).take n := by
  induction n with
  | zero => intro l; simp [cstr_nil]
  | succ n ih =>
    intro l
    cases l with
    | nil => simp [cstr_nil]
    | cons a as =>
      rw [List.take_succ_cons, cstr_cons, cstr_cons]
      by_cases ha : a = 0
      · rw [if_pos ha, if_pos ha]; rfl
      · rw [if_neg ha, if_neg ha, ih as, List.take_succ_cons]

theorem perform_request_reply (a : curl_answer) (reply : Bytes) :
    cstr (perform_request (some a) reply 128).2 = (cstr a.body).take 127 := by
  unfold perform_request
  simp only []
  by_cases hb : a.body.length = 0
  · rw [if_pos hb]
    have hnil : a.body = [] := List.length_eq_zero.1 hb
    rw [hnil]
    simp [store, cstr_cons, cstr_nil]
  · rw [if_neg hb]
    simp only []
    by_cases hfit : 128 ≥ a.body.length + 1
    · rw [if_pos hfit]
      have h1 : memcpy_from a.body 0 a.body.length = a.body := by
        rw [memcpy_from_all _ _ (Nat.le_refl _)]
        exact List.take_of_length_le (Nat.le_refl _)
      rw [h1]
      have h2 : store (store (store reply 0 [0]) 0 a.body) a.body.length [0]
          = a.body ++ 0 :: List.drop (a.body.length + 1) (store (store reply 0 [0]) 0 a.body) := by
        have h3 : List.take a.body.length (store (store reply 0 [0]) 0 a.body) = a.body := by
          simp [store]
        simp only [store, List.length_singleton] at h3 ⊢
        rw [h3]
        simp
      rw [h2, cstr_append_nul_rest]
      have hle : (cstr a.body).length ≤ a.body.length :=
        (List.takeWhile_prefix (fun c => c != 0)).length_le
      exact (List.take_of_length_le (by omega)).symm
    · rw [if_neg hfit]
      have h1 : memcpy_from a.body 0 128 = a.body.take 128 :=
        memcpy_from_all _ _ (by omega)
      rw [h1]
      have h3 : List.take (128 - 1) (store (store reply 0 [0]) 0 (a.body.take 128))
          = a.body.take 127 := by
        simp only [store, List.take_zero, List.nil_append]
        rw [List.take_append_of_le_length (by rw [List.length_take]; omega), List.take_take]
        rfl
      have h2 : store (store (store reply 0 [0]) 0 (a.body.take 128)) (128 - 1) [0]
          = a.body.take 127 ++ 0 :: List.drop (128 - 1 + 1)
              (store (store reply 0 [0]) 0 (a.body.take 128)) := by
        have := h3
        simp only [store, List.length_singleton] at this ⊢
        rw [this]
        simp
      rw [h2, cstr_append_nul_rest, cstr_take]

/-- With a server that answers with a status from 1 to 999,
`eris_request_gpio_for_input` returns 0 exactly when the answer to its request has
status 200 and the body `Ok`. -/
theorem eris_request_gpio_for_input_ok (server : Bytes → Bytes → Option curl_answer)
    (reply : Bytes) (errno : Int) (name : Bytes)
    (hcode : ∀ url method a, server url method = some a →
      1 ≤ a.http_code ∧ a.http_code ≤ 999) :
    (eris_request_gpio_for_input server reply errno (some name)).1 = 0
      ↔ ∃ a, server
            (cstr (snprintf 127 (lit REST_API_PREFIX ++ lit "/api/gpio?name=" ++ cstr name
              ++ lit "&direction=in")).1) (lit "GET") = some a
          ∧ a.http_code = 200 ∧ cstr a.body = lit "Ok" := by
  have hOk : cstr (lit "Ok") = lit "Ok" := by decide
  unfold eris_request_gpio_for_input
  simp only []
  generalize (cstr (snprintf 127 (lit REST_API_PREFIX ++ lit "/api/gpio?name=" ++ cstr name
    ++ lit "&direction=in")).1) = url
  cases hs : server url (lit "GET") with
  | none =>
    have h1 : ¬ ((perform_request none reply 128).1 = 0
        ∧ strcmp (perform_request none reply 128).2 (lit "Ok") = 0) := by
      rintro ⟨h, _⟩
      revert h
      simp [perform_request]
    rw [if_neg h1]
    constructor
    · intro h
      have h0 : (-1 : Int) = 0 := h
      exact absurd h0 (by decide)
    · rintro ⟨a, ha, _⟩; cases ha
  | some a =>
    obtain ⟨hc1, hc2⟩ := hcode url _ a hs
    have hreply := perform_request_reply a reply
    have hcmp : strcmp (perform_request (some a) reply 128).2 (lit "Ok") = 0
        ↔ cstr a.body = lit "Ok" := by
      rw [strcmp_eq_zero, hreply, hOk]
      constructor
      · intro h
        have hl : ((cstr a.body).take 127).length = 2 := by rw [h]; rfl
        rw [List.length_take] at hl
        have : (cstr a.body).length ≤ 127 := by omega
        rw [List.take_of_length_le this] at h
        exact h
      · intro h
        rw [h]; rfl
    have hres : (perform_request (some a) reply 128).1 = 0
        ↔ (a.body.length = 0 ∨ a.http_code = 200) := by
      unfold perform_request
      simp only []
      by_cases hb : a.body.length = 0
      · rw [if_pos hb]
        exact ⟨fun _ => Or.inl hb, fun _ => rfl⟩
      · rw [if_neg hb]
        show (if a.http_code ≠ 200 then to_int32 (- a.http_code) else 0) = 0 ↔ _
        by_cases h200 : a.http_code ≠ 200
        · rw [if_pos h200]
          unfold to_int32
          constructor
          · intro h; omega
          · rintro (h | h)
            · exact absurd h hb
            · exact absurd h h200
        · rw [if_neg h200]
          exact ⟨fun _ => Or.inr (not_not.1 h200), fun _ => rfl⟩
    by_cases hgood : (perform_request (some a) reply 128).1 = 0
        ∧ strcmp (perform_request (some a) reply 128).2 (lit "Ok") = 0
    · rw [if_pos hgood]
      refine ⟨fun _ => ⟨a, rfl, ?_, hcmp.1 hgood.2⟩, fun _ => rfl⟩
      rcases hres.1 hgood.1 with h | h
      · have hnil : a.body = [] := List.length_eq_zero.1 h
        have := hcmp.1 hgood.2
        rw [hnil] at this
        exact absurd this (by decide)
      · exact h
    · rw [if_neg hgood]
      constructor
      · intro h
        have h0 : (-1 : Int) = 0 := h
        exact absurd h0 (by decide)
      · rintro ⟨a1, ha1, h200, hbody⟩
        simp only [Option.some.injEq] at ha1
        subst ha1
        exact absurd ⟨hres.2 (Or.inr h200), hcmp.2 hbody⟩ hgood

end Eris
